import Mathlib

/-!
# Series / Element subsystem of gota (package `series`)

A shallow embedding of `series/series.go` and the five `series/type-*.go` element
files, followed by theorems about ordering, comparison, subsetting and update.

Conventions of the embedding

* Go structs are Lean structures with the same field names; the `Element` interface is
  the sum of the five concrete element structs.
* `int64` / `int` values are `Int`, `uint64` values are `Nat`; conversions between the
  two wrap explicitly modulo `2^64` (`toInt64`, `toUint64`).  `int` is taken to be 64 bits.
* A `float64` is represented by its IEEE-754 bit pattern (`F64.bits`); classification and
  comparison are computed from the bits, so nothing here uses floating point arithmetic.
* A Go `error` is its message; a method returning `(T, error)` returns `Except error T`,
  a method returning only `error` returns `Option error`.
* A run-time panic (slice index out of range, failed type assertion) is `none` of an
  `Option` result.
* Functions of the Go standard library (`strconv`, `fmt`, `strings`, `sort`, numeric
  conversions of floats) are fields of `Env`; what the library documents about them is
  stated as explicit hypotheses where a theorem needs it.
* Methods that mutate through a pointer receiver return the new value of the receiver.
* Slices are lists.  `Update` writes the slice of its receiver while it reads the slice
  of its argument through pointers, and the two may share a backing array; whether they
  do is an explicit parameter of the model (`Backing`).
* Error messages are the texts of the source.  Two formatted arguments are not represented
  and are left out of the text: the type name printed by `%T` in the `Unsupported type`
  messages of `Set`, and the float printed by `%v` in the last message of
  `floatElement.Bool`.
-/

namespace Gota

/-! ## Machine numbers -/

/-- Go conversion `int64(x)` of an integer value: wrap into `[-2^63, 2^63)`. -/
def toInt64 (x : Int) : Int := (x + 2 ^ 63) % 2 ^ 64 - 2 ^ 63

/-- Go conversion `uint64(x)` of an integer value: wrap into `[0, 2^64)`. -/
def toUint64 (x : Int) : Nat := (x % 2 ^ 64).toNat

/-- A `float64`, given by its IEEE-754 binary64 bit pattern (`math.Float64bits`). -/
structure F64 where
  bits : Nat
  deriving DecidableEq, Repr

namespace F64

/-- Exponent and fraction bits (the magnitude) of the value. -/
def mag (f : F64) : Nat := f.bits % 2 ^ 63

/-- Sign bit of the value. -/
def neg (f : F64) : Bool := (f.bits / 2 ^ 63) % 2 == 1

/-- Magnitude bits of infinity: exponent all ones, fraction zero. -/
def infMag : Nat := 0x7FF0000000000000

/-- Library `math.IsNaN(f)`. -/
def IsNaN (f : F64) : Bool := decide (infMag < f.mag)

/-- Library `math.IsInf(f, sign)`. -/
def IsInf (f : F64) (sign : Int) : Bool :=
  f.mag == infMag && ((decide (0 ≤ sign) && !f.neg) || (decide (sign ≤ 0) && f.neg))

/-- Position of a non-NaN value on the number line (`-0` and `+0` coincide). -/
def key (f : F64) : Int := if f.neg then -(f.mag : Int) else (f.mag : Int)

/-- Go `a < b` on `float64`. -/
def lt (a b : F64) : Bool := !a.IsNaN && !b.IsNaN && decide (a.key < b.key)

/-- Go `a <= b` on `float64`. -/
def le (a b : F64) : Bool := !a.IsNaN && !b.IsNaN && decide (a.key ≤ b.key)

/-- Go `a > b` on `float64`. -/
def gt (a b : F64) : Bool := !a.IsNaN && !b.IsNaN && decide (b.key < a.key)

/-- Go `a >= b` on `float64`. -/
def ge (a b : F64) : Bool := !a.IsNaN && !b.IsNaN && decide (b.key ≤ a.key)

/-- Go `a == b` on `float64` (false as soon as one side is NaN). -/
def eq (a b : F64) : Bool := !a.IsNaN && !b.IsNaN && decide (a.key = b.key)

/-- Library `math.NaN()`. -/
def NaN : F64 := ⟨0x7FF8000000000001⟩

/-- The constant `0`. -/
def zero : F64 := ⟨0⟩

/-- The constant `1`. -/
def one : F64 := ⟨0x3FF0000000000000⟩

end F64

/-! ## Types, comparators, errors -/

/-- A Go `error`, identified with its message. -/
abbrev error := String

/-- Go `bool`. -/
abbrev bool := Bool


/-- Go `Type`: the supported Series types (`Float64` is the same constant as `Float`). -/
inductive SeriesType
  | String
  | Int
  | Uint
  | Float
  | Bool
  deriving DecidableEq, Repr

/-- Go `Comparator`: a string alias in the source; `other` stands for any string that is
not one of the seven supported constants. -/
inductive Comparator
  | Eq
  | Neq
  | Greater
  | GreaterEq
  | Less
  | LessEq
  | In
  | other (name : String)
  deriving DecidableEq, Repr

/-- String form `NaN` used for conversions. -/
def NaN : String := "NaN"

/-- String form `Nil` used for conversions. -/
def Nil : String := ""

/-! ## Element structs -/

/-- Struct `IntElement` of type-int.go. -/
structure IntElement where
  e : Int
  valid : Bool
  nan : Bool
  deriving DecidableEq, Repr

/-- Struct `uintElement` of type-uint.go. -/
structure uintElement where
  e : Nat
  valid : Bool
  nan : Bool
  deriving DecidableEq, Repr

/-- Struct `stringElement` of type-string.go. -/
structure stringElement where
  e : String
  valid : Bool
  deriving DecidableEq, Repr

/-- Struct `floatElement` of type-float.go. -/
structure floatElement where
  e : F64
  valid : Bool
  deriving DecidableEq, Repr

/-- Struct `boolElement` of type-bool.go. -/
structure boolElement where
  e : Bool
  valid : Bool
  deriving DecidableEq, Repr

/-- The `Element` interface: a (pointer to a) value of one of the five element structs. -/
inductive Element
  | ofInt (x : IntElement)
  | ofUint (x : uintElement)
  | ofString (x : stringElement)
  | ofFloat (x : floatElement)
  | ofBool (x : boolElement)
  deriving DecidableEq, Repr

/-- Struct `indexedElement` of series.go. -/
structure indexedElement where
  index : Int
  element : Element
  deriving DecidableEq, Repr

/-- The Go standard library functions the package calls. -/
structure Env where
  /-- Library `strconv.ParseInt(s, 10, 64)`. -/
  ParseInt : String → Except error Int
  /-- Library `strconv.ParseUint(s, 10, 64)`. -/
  ParseUint : String → Except error Nat
  /-- Library `strconv.ParseFloat(s, 64)`. -/
  ParseFloat : String → Except error F64
  /-- Library `strconv.FormatFloat(f, 'f', 6, 64)`. -/
  FormatFloat : F64 → String
  /-- Library `fmt.Sprintf("%f", f)`. -/
  Sprintf_f : F64 → String
  /-- Library `strings.ToLower`. -/
  ToLower : String → String
  /-- Conversion `int64(f)` of a `float64`. -/
  int64OfFloat : F64 → Int
  /-- Conversion `uint64(f)` of a `float64`. -/
  uint64OfFloat : F64 → Nat
  /-- Conversion `float64(i)` of an `int64`. -/
  floatOfInt : Int → F64
  /-- Conversion `float64(u)` of a `uint64`. -/
  floatOfUint : Nat → F64
  /-- Library `sort.Sort` run on a slice, given the `Less` of its `sort.Interface`. -/
  sortSort : (indexedElement → indexedElement → Bool) → List indexedElement → List indexedElement

/-! ## Information and conversion methods -/

namespace IntElement

def IsNaN (e : IntElement) : Bool := !e.valid || e.nan

def IsValid (e : IntElement) : Bool := e.valid

def IsInf (_e : IntElement) (_sign : Int) : Bool := false

def String (e : IntElement) : Except error String :=
  if e.valid then
    if e.nan then .ok NaN else .ok (toString e.e)
  else .ok Nil

def Int (e : IntElement) : Except error Int :=
  if e.valid && !e.nan then .ok e.e
  else .error "can\x27t convert nil/nan to int64"

def Uint (e : IntElement) : Except error Nat :=
  if e.valid && !e.nan then .ok (toUint64 e.e)
  else .error "can\x27t convert nil/nan to uint64"

def Float (env : Env) (e : IntElement) : Except error F64 :=
  if e.valid then
    if e.nan then .ok F64.NaN else .ok (env.floatOfInt e.e)
  else .error "can\x27t convert nil to float64"

def Bool (e : IntElement) : Except error Bool :=
  if !e.valid then .error "can\x27t convert nil to Bool"
  else if e.IsNaN then .ok true
  else if e.e = 0 then .ok false
  else .ok true

end IntElement

namespace uintElement

def IsNaN (e : uintElement) : Bool := !e.valid || e.nan

def IsValid (e : uintElement) : Bool := e.valid

def IsInf (_e : uintElement) (_sign : Int) : Bool := false

def String (e : uintElement) : Except error String :=
  if e.valid then
    if e.nan then .ok NaN else .ok (toString e.e)
  else .ok Nil

def Int (e : uintElement) : Except error Int :=
  if e.valid && !e.nan then .ok (toInt64 e.e)
  else .error "can\x27t convert nil/nan to int64"

def Uint (e : uintElement) : Except error Nat :=
  if e.valid && !e.nan then .ok e.e
  else .error "can\x27t convert nil/nan to uint64"

def Float (env : Env) (e : uintElement) : Except error F64 :=
  if e.valid then
    if e.nan then .ok F64.NaN else .ok (env.floatOfUint e.e)
  else .error "can\x27t convert nil to float64"

def Bool (e : uintElement) : Except error Bool :=
  if !e.valid || e.nan then .error "can\x27t convert nil/nan to bool"
  else if e.e = 1 then .ok true
  else if e.e = 0 then .ok false
  else .error ("can\x27t convert Int \x22" ++ toString e.e ++ "\x22 to bool")

end uintElement

namespace stringElement

def IsNaN (env : Env) (e : stringElement) : Bool :=
  if !e.valid then true
  else match env.ParseFloat e.e with
    | .ok f => f.IsNaN
    | .error _ => true

def IsValid (e : stringElement) : Bool := e.valid

def IsInf (env : Env) (e : stringElement) (sign : Int) : Bool :=
  let low := env.ToLower e.e
  if low = "inf" ∨ low = "-inf" ∨ low = "+inf" then
    match env.ParseFloat e.e with
    | .error _ => false
    | .ok f => f.IsInf sign
  else false

def String (e : stringElement) : Except error String :=
  if !e.IsValid then .error "can\x27t convert nil to string"
  else .ok e.e

def Int (env : Env) (e : stringElement) : Except error Int :=
  if !e.IsValid then .error "can\x27t convert nil to int64"
  else env.ParseInt e.e

def Uint (env : Env) (e : stringElement) : Except error Nat :=
  if !e.IsValid then .error "can\x27t convert nil to uint64"
  else env.ParseUint e.e

def Float (env : Env) (e : stringElement) : Except error F64 :=
  if !e.IsValid then .error "can\x27t convert nil to float64"
  else match env.ParseFloat e.e with
    | .error _ => .ok F64.NaN
    | .ok f => .ok f

def Bool (env : Env) (e : stringElement) : Except error Bool :=
  if !e.IsValid then .error "can\x27t convert nil to bool"
  else
    let low := env.ToLower e.e
    if low = "true" ∨ low = "t" ∨ low = "1" then .ok true
    else if low = "false" ∨ low = "f" ∨ low = "0" then .ok false
    else .error ("can\x27t convert String \x27" ++ e.e ++ "\x27 to bool")

end stringElement

namespace floatElement

def IsValid (e : floatElement) : Bool := e.valid

def IsNaN (e : floatElement) : Bool :=
  if !e.valid || e.e.IsNaN then true else false

def IsInf (e : floatElement) (sign : Int) : Bool :=
  if e.valid then e.e.IsInf sign else false

def String (env : Env) (e : floatElement) : Except error String :=
  if !e.IsValid then .ok ""
  else .ok (env.Sprintf_f e.e)

def Int (env : Env) (e : floatElement) : Except error Int :=
  if !e.IsValid then .error "can\x27t convert nil to an int64"
  else if e.e.IsInf 1 || e.e.IsInf (-1) then .error "can\x27t convert Inf to int64"
  else if e.e.IsNaN then .error "can\x27t convert NaN to int64"
  else .ok (env.int64OfFloat e.e)

def Uint (env : Env) (e : floatElement) : Except error Nat :=
  if !e.IsValid then .error "can\x27t convert nil to an uint64"
  else if e.e.IsInf 1 || e.e.IsInf (-1) then .error "can\x27t convert Inf to uint64"
  else if e.e.IsNaN then .error "can\x27t convert NaN to uint64"
  else .ok (env.uint64OfFloat e.e)

def Float (e : floatElement) : Except error F64 :=
  if !e.IsValid then .error "can\x27t convert nil to a float64"
  else .ok e.e

def Bool (e : floatElement) : Except error Bool :=
  if !e.IsValid then .error "can\x27t convert nil to bool"
  else if e.e.eq F64.one then .ok true
  else if e.e.eq F64.zero then .ok false
  else .error "can\x27t convert Float to bool"

end floatElement

namespace boolElement

def IsValid (e : boolElement) : Bool := e.valid

def IsNaN (e : boolElement) : Bool := if !e.valid then true else false

def IsInf (_e : boolElement) (_sign : Int) : Bool := false

def String (e : boolElement) : Except error String :=
  if !e.valid then .error "can\x27t convert a nil to string"
  else if e.e then .ok "true"
  else .ok "false"

def Int (e : boolElement) : Except error Int :=
  if !e.valid then .error "can\x27t convert a nil to an int64"
  else if e.e = true then .ok 1
  else .ok 0

def Uint (e : boolElement) : Except error Nat :=
  if !e.valid then .error "can\x27t convert a nil to an uint64"
  else if e.e = true then .ok 1
  else .ok 0

def Float (e : boolElement) : Except error F64 :=
  if !e.valid then .error "can\x27t convert a nil to a float64"
  else if e.e then .ok F64.one
  else .ok F64.zero

def Bool (e : boolElement) : Except error Bool :=
  if !e.valid then .error "can\x27t convert a nil to a boolean"
  else .ok e.e

end boolElement

namespace Element

/-- Dynamic dispatch of `Type()`. -/
def Type_ : Element → SeriesType
  | ofInt _ => .Int
  | ofUint _ => .Uint
  | ofString _ => .String
  | ofFloat _ => .Float
  | ofBool _ => .Bool

/-- Dynamic dispatch of `IsValid()`. -/
def IsValid : Element → Bool
  | ofInt x => x.IsValid
  | ofUint x => x.IsValid
  | ofString x => x.IsValid
  | ofFloat x => x.IsValid
  | ofBool x => x.IsValid

/-- Dynamic dispatch of `IsNaN()`. -/
def IsNaN (env : Env) : Element → Bool
  | ofInt x => x.IsNaN
  | ofUint x => x.IsNaN
  | ofString x => x.IsNaN env
  | ofFloat x => x.IsNaN
  | ofBool x => x.IsNaN

/-- Dynamic dispatch of `IsInf(sign)`. -/
def IsInf (env : Env) (sign : Int) : Element → Bool
  | ofInt x => x.IsInf sign
  | ofUint x => x.IsInf sign
  | ofString x => x.IsInf env sign
  | ofFloat x => x.IsInf sign
  | ofBool x => x.IsInf sign

/-- Dynamic dispatch of `String()`. -/
def String (env : Env) : Element → Except error String
  | ofInt x => x.String
  | ofUint x => x.String
  | ofString x => x.String
  | ofFloat x => x.String env
  | ofBool x => x.String

/-- Dynamic dispatch of `Int()`. -/
def Int (env : Env) : Element → Except error Int
  | ofInt x => x.Int
  | ofUint x => x.Int
  | ofString x => x.Int env
  | ofFloat x => x.Int env
  | ofBool x => x.Int

/-- Dynamic dispatch of `Uint()`. -/
def Uint (env : Env) : Element → Except error Nat
  | ofInt x => x.Uint
  | ofUint x => x.Uint
  | ofString x => x.Uint env
  | ofFloat x => x.Uint env
  | ofBool x => x.Uint

/-- Dynamic dispatch of `Float()`. -/
def Float (env : Env) : Element → Except error F64
  | ofInt x => x.Float env
  | ofUint x => x.Float env
  | ofString x => x.Float env
  | ofFloat x => x.Float
  | ofBool x => x.Float

/-- Dynamic dispatch of `Bool()`. -/
def Bool (env : Env) : Element → Except error Bool
  | ofInt x => x.Bool
  | ofUint x => x.Bool
  | ofString x => x.Bool env
  | ofFloat x => x.Bool
  | ofBool x => x.Bool

end Element

/-! ## Comparison methods

Go compares strings bytewise; Lean compares them by code point, which is the same order
on UTF-8 text. -/

def IntElement.Eq (env : Env) (e : IntElement) (elem : Element) : bool :=
  if e.valid != elem.IsValid then false
  else if !e.valid && !elem.IsValid then true
  else if elem.IsInf env 0 then false
  else match elem.Int env with
    | .error _ => false
    | .ok i => decide (e.e = i)

def IntElement.Neq (env : Env) (e : IntElement) (elem : Element) : bool :=
  if e.valid != elem.IsValid then true
  else !e.Eq env elem

def IntElement.Less (env : Env) (e : IntElement) (elem : Element) : bool :=
  if e.IsNaN || elem.IsNaN env then false
  else if elem.IsNaN env then false
  else if elem.IsInf env 1 then true
  else match elem.Int env with
    | .error _ => false
    | .ok i => decide (e.e < i)

def IntElement.LessEq (env : Env) (e : IntElement) (elem : Element) : bool :=
  if e.IsNaN || elem.IsNaN env then false
  else if elem.IsNaN env then false
  else if elem.IsInf env 1 then true
  else match elem.Int env with
    | .error _ => false
    | .ok i => if !e.IsValid then false else decide (e.e ≤ i)

def IntElement.Greater (env : Env) (e : IntElement) (elem : Element) : bool :=
  if e.IsNaN || elem.IsNaN env then false
  else if elem.IsNaN env then false
  else if elem.IsInf env 1 then false
  else match elem.Int env with
    | .error _ => false
    | .ok i => decide (e.e > i)

def IntElement.GreaterEq (env : Env) (e : IntElement) (elem : Element) : bool :=
  if e.IsNaN || elem.IsNaN env then false
  else if elem.IsNaN env then false
  else if elem.IsInf env 1 then false
  else match elem.Int env with
    | .error _ => false
    | .ok i => decide (e.e ≥ i)

def uintElement.Eq (env : Env) (e : uintElement) (elem : Element) : bool :=
  if e.valid != elem.IsValid then false
  else if !e.valid && !elem.IsValid then true
  else if elem.IsInf env 0 then false
  else match elem.Uint env with
    | .error _ => false
    | .ok i => decide (e.e = i)

def uintElement.Neq (env : Env) (e : uintElement) (elem : Element) : bool :=
  if e.valid != elem.IsValid then true
  else !e.Eq env elem

def uintElement.Less (env : Env) (e : uintElement) (elem : Element) : bool :=
  if e.IsNaN || elem.IsNaN env then false
  else if elem.IsNaN env then false
  else if elem.IsInf env 1 then true
  else match elem.Uint env with
    | .error _ => false
    | .ok i => decide (e.e < i)

def uintElement.LessEq (env : Env) (e : uintElement) (elem : Element) : bool :=
  if e.IsNaN || elem.IsNaN env then false
  else if elem.IsNaN env then false
  else if elem.IsInf env 1 then true
  else match elem.Uint env with
    | .error _ => false
    | .ok i => if !e.IsValid then false else decide (e.e ≤ i)

def uintElement.Greater (env : Env) (e : uintElement) (elem : Element) : bool :=
  if e.IsNaN || elem.IsNaN env then false
  else if elem.IsNaN env then false
  else if elem.IsInf env 1 then false
  else match elem.Uint env with
    | .error _ => false
    | .ok i => decide (e.e > i)

def uintElement.GreaterEq (env : Env) (e : uintElement) (elem : Element) : bool :=
  if e.IsNaN || elem.IsNaN env then false
  else if elem.IsNaN env then false
  else if elem.IsInf env 1 then false
  else match elem.Uint env with
    | .error _ => false
    | .ok i => decide (e.e ≥ i)

def stringElement.Eq (env : Env) (e : stringElement) (elem : Element) : bool :=
  if e.valid != elem.IsValid then false
  else if !e.valid && !elem.IsValid then true
  else match elem.String env with
    | .error _ => false
    | .ok s => decide (e.e = s)

def stringElement.Neq (env : Env) (e : stringElement) (elem : Element) : bool :=
  !e.Eq env elem

def stringElement.Less (env : Env) (e : stringElement) (elem : Element) : bool :=
  if !e.valid || !elem.IsValid then false
  else match elem.String env with
    | .error _ => false
    | .ok s => decide (e.e < s)

def stringElement.LessEq (env : Env) (e : stringElement) (elem : Element) : bool :=
  if !e.valid || !elem.IsValid then false
  else match elem.String env with
    | .error _ => false
    | .ok s => decide (e.e ≤ s)

def stringElement.Greater (env : Env) (e : stringElement) (elem : Element) : bool :=
  if !e.valid || !elem.IsValid then false
  else match elem.String env with
    | .error _ => false
    | .ok s => decide (e.e > s)

def stringElement.GreaterEq (env : Env) (e : stringElement) (elem : Element) : bool :=
  if !e.valid || !elem.IsValid then false
  else match elem.String env with
    | .error _ => false
    | .ok s => decide (e.e ≥ s)

def floatElement.Eq (env : Env) (e : floatElement) (elem : Element) : bool :=
  if !e.valid && !elem.IsValid then true
  else if e.valid != elem.IsValid then false
  else match elem.Float env with
    | .error _ => false
    | .ok f => e.e.eq f

def floatElement.Neq (env : Env) (e : floatElement) (elem : Element) : bool :=
  if e.valid != elem.IsValid then true
  else !e.Eq env elem

def floatElement.Less (env : Env) (e : floatElement) (elem : Element) : bool :=
  if !e.valid || !elem.IsValid then false
  else if e.IsNaN || elem.IsNaN env then false
  else match elem.Float env with
    | .error _ => false
    | .ok f => e.e.lt f

def floatElement.LessEq (env : Env) (e : floatElement) (elem : Element) : bool :=
  if !e.valid || !elem.IsValid then false
  else if e.IsNaN || elem.IsNaN env then false
  else match elem.Float env with
    | .error _ => false
    | .ok f => e.e.le f

def floatElement.Greater (env : Env) (e : floatElement) (elem : Element) : bool :=
  if !e.valid || !elem.IsValid then false
  else if e.IsNaN || elem.IsNaN env then false
  else match elem.Float env with
    | .error _ => false
    | .ok f => e.e.gt f

def floatElement.GreaterEq (env : Env) (e : floatElement) (elem : Element) : bool :=
  if !e.valid || !elem.IsValid then false
  else if e.IsNaN || elem.IsNaN env then false
  else match elem.Float env with
    | .error _ => false
    | .ok f => e.e.ge f

def boolElement.Eq (env : Env) (e : boolElement) (elem : Element) : bool :=
  if e.valid != elem.IsValid then false
  else if !e.valid && !elem.IsValid then true
  else match elem.Bool env with
    | .error _ => false
    | .ok b => e.e == b

def boolElement.Neq (env : Env) (e : boolElement) (elem : Element) : bool :=
  if e.valid != elem.IsValid then true
  else !e.Eq env elem

def boolElement.Less (env : Env) (e : boolElement) (elem : Element) : bool :=
  if !e.valid || !elem.IsValid then false
  else if elem.IsNaN env then false
  else match elem.Bool env with
    | .error _ => false
    | .ok b => !e.e && b

def boolElement.LessEq (env : Env) (e : boolElement) (elem : Element) : bool :=
  if !e.valid || !elem.IsValid then false
  else if elem.IsNaN env then false
  else match elem.Bool env with
    | .error _ => false
    | .ok b => !e.e || b

def boolElement.Greater (env : Env) (e : boolElement) (elem : Element) : bool :=
  if !e.valid || !elem.IsValid then false
  else if elem.IsNaN env then false
  else match elem.Bool env with
    | .error _ => false
    | .ok b => e.e && !b

def boolElement.GreaterEq (env : Env) (e : boolElement) (elem : Element) : bool :=
  if !e.valid || !elem.IsValid then false
  else if elem.IsNaN env then false
  else match elem.Bool env with
    | .error _ => false
    | .ok b => e.e || !b

/-- Dynamic dispatch of `Eq`. -/
def Element.Eq (env : Env) (a elem : Element) : bool :=
  match a with
  | .ofInt x => x.Eq env elem
  | .ofUint x => x.Eq env elem
  | .ofString x => x.Eq env elem
  | .ofFloat x => x.Eq env elem
  | .ofBool x => x.Eq env elem

/-- Dynamic dispatch of `Neq`. -/
def Element.Neq (env : Env) (a elem : Element) : bool :=
  match a with
  | .ofInt x => x.Neq env elem
  | .ofUint x => x.Neq env elem
  | .ofString x => x.Neq env elem
  | .ofFloat x => x.Neq env elem
  | .ofBool x => x.Neq env elem

/-- Dynamic dispatch of `Less`. -/
def Element.Less (env : Env) (a elem : Element) : bool :=
  match a with
  | .ofInt x => x.Less env elem
  | .ofUint x => x.Less env elem
  | .ofString x => x.Less env elem
  | .ofFloat x => x.Less env elem
  | .ofBool x => x.Less env elem

/-- Dynamic dispatch of `LessEq`. -/
def Element.LessEq (env : Env) (a elem : Element) : bool :=
  match a with
  | .ofInt x => x.LessEq env elem
  | .ofUint x => x.LessEq env elem
  | .ofString x => x.LessEq env elem
  | .ofFloat x => x.LessEq env elem
  | .ofBool x => x.LessEq env elem

/-- Dynamic dispatch of `Greater`. -/
def Element.Greater (env : Env) (a elem : Element) : bool :=
  match a with
  | .ofInt x => x.Greater env elem
  | .ofUint x => x.Greater env elem
  | .ofString x => x.Greater env elem
  | .ofFloat x => x.Greater env elem
  | .ofBool x => x.Greater env elem

/-- Dynamic dispatch of `GreaterEq`. -/
def Element.GreaterEq (env : Env) (a elem : Element) : bool :=
  match a with
  | .ofInt x => x.GreaterEq env elem
  | .ofUint x => x.GreaterEq env elem
  | .ofString x => x.GreaterEq env elem
  | .ofFloat x => x.GreaterEq env elem
  | .ofBool x => x.GreaterEq env elem

/-! ## Dynamic values and `Set` -/

/-- A value of type `interface` handed to an element `Set`, by dynamic type.
`intN` stands for `int8`, `int16`, `int32`; `uintN` for `uint8`, `uint16`, `uint32`;
a `float32` is given by its exact `float64` widening; `other` is any remaining type.
`Element v` is a value of the interface `Element` (a pointer to an element struct): `v`
is the struct as `Set` reads it through the pointer. -/
inductive Value
  | nil
  | string (v : String)
  | int (v : Int)
  | intN (v : Int)
  | int64 (v : Int)
  | uint (v : Nat)
  | uintN (v : Nat)
  | uint64 (v : Nat)
  | float32 (v : F64)
  | float64 (v : F64)
  | bool (v : Bool)
  | NaNElement
  | Element (v : Element)
  | other
  deriving DecidableEq, Repr

/-- Body shared by the `float32` and `float64` cases of `IntElement.Set`. -/
def IntElement.setFloat (env : Env) (e : IntElement) (f : F64) : IntElement × Option error :=
  if f.IsNaN then ({ e with nan := true }, none)
  else if f.IsInf 0 || f.IsInf 1 then
    ({ e with nan := true }, some "demoting float Inf to NaN")
  else ({ e with e := env.int64OfFloat f }, none)

/-- Method `(e *IntElement) Set(value)`: the new element and the returned error. -/
def IntElement.Set (env : Env) (e0 : IntElement) (value : Value) : IntElement × Option error :=
  let e : IntElement := { e0 with valid := true, nan := false }
  match value with
  | .nil => ({ e with valid := false }, none)
  | .string v =>
    if v = Nil then ({ e with valid := false }, none)
    else if v = NaN then ({ e with nan := true }, none)
    else match env.ParseInt v with
      | .error err => ({ e with nan := true }, some err)
      | .ok i => ({ e with e := i }, none)
  | .int v => ({ e with e := toInt64 v }, none)
  | .intN v => ({ e with e := toInt64 v }, none)
  | .int64 v => ({ e with e := toInt64 v }, none)
  | .uint v => ({ e with e := toInt64 v }, none)
  | .uintN v => ({ e with e := toInt64 v }, none)
  | .uint64 v => ({ e with e := toInt64 v }, none)
  | .float32 f => IntElement.setFloat env e f
  | .float64 f => IntElement.setFloat env e f
  | .bool b => if b then ({ e with e := 1 }, none) else ({ e with e := 0 }, none)
  | .NaNElement => ({ e with nan := true }, none)
  | .Element el =>
    if el.IsValid then
      if el.IsNaN env then ({ e with nan := true }, none)
      else match el.Int env with
        | .error err => ({ e with valid := false }, some err)
        | .ok v => ({ e with e := v }, none)
    else ({ e with valid := false }, none)
  | .other => ({ e with valid := false }, some "Unsupported type conversion to an int64")

/-- Body shared by the `float32` and `float64` cases of `uintElement.Set`. -/
def uintElement.setFloat (env : Env) (e : uintElement) (f : F64) : uintElement × Option error :=
  if f.IsNaN then ({ e with nan := true }, none)
  else if f.IsInf 0 || f.IsInf 1 then
    ({ e with nan := true }, some "demoting float Inf to NaN")
  else ({ e with e := env.uint64OfFloat f }, none)

/-- Method `(e *uintElement) Set(value)`; unlike `IntElement.Set` it does not clear `nan`. -/
def uintElement.Set (env : Env) (e0 : uintElement) (value : Value) : uintElement × Option error :=
  let e : uintElement := { e0 with valid := true }
  match value with
  | .nil => ({ e with valid := false }, none)
  | .string v =>
    if v = Nil then ({ e with valid := false }, none)
    else if v = NaN then ({ e with nan := true }, none)
    else match env.ParseUint v with
      | .error err => ({ e with nan := true }, some err)
      | .ok i => ({ e with e := i }, none)
  | .int v => ({ e with e := toUint64 v }, none)
  | .intN v => ({ e with e := toUint64 v }, none)
  | .int64 v => ({ e with e := toUint64 v }, none)
  | .uint v => ({ e with e := toUint64 v }, none)
  | .uintN v => ({ e with e := toUint64 v }, none)
  | .uint64 v => ({ e with e := toUint64 v }, none)
  | .float32 f => uintElement.setFloat env e f
  | .float64 f => uintElement.setFloat env e f
  | .bool b => if b then ({ e with e := 1 }, none) else ({ e with e := 0 }, none)
  | .NaNElement => ({ e with nan := true }, none)
  | .Element el =>
    if el.IsValid then
      if el.IsNaN env then ({ e with nan := true }, none)
      else match el.Uint env with
        | .error err => ({ e with valid := false }, some err)
        | .ok v => ({ e with e := v }, none)
    else ({ e with valid := false }, none)
  | .other => ({ e with valid := false }, some "Unsupported type conversion to an uint64")

/-- Method `(e *stringElement) Set(value)`. -/
def stringElement.Set (env : Env) (e0 : stringElement) (value : Value) :
    stringElement × Option error :=
  let e : stringElement := { e0 with valid := true }
  match value with
  | .nil => ({ e with valid := false }, none)
  | .string v => if v = Nil then ({ e with valid := false }, none) else ({ e with e := v }, none)
  | .int v => ({ e with e := toString v }, none)
  | .int64 v => ({ e with e := toString v }, none)
  | .uint64 v => ({ e with e := toString v }, none)
  | .float32 f => ({ e with e := env.FormatFloat f }, none)
  | .float64 f => ({ e with e := env.FormatFloat f }, none)
  | .bool b => if b then ({ e with e := "true" }, none) else ({ e with e := "false" }, none)
  | .NaNElement => ({ e with e := "NaN" }, none)
  | .Element el =>
    if el.IsValid then
      match el.String env with
      | .error err => ({ e with valid := false }, some err)
      | .ok v => ({ e with e := v }, none)
    else ({ e with valid := false }, none)
  | _ => ({ e with valid := false }, some "Unsupported type conversion to a string")

/-- Method `(e *floatElement) Set(value)`. -/
def floatElement.Set (env : Env) (e0 : floatElement) (value : Value) :
    floatElement × Option error :=
  let e : floatElement := { e0 with valid := true }
  match value with
  | .nil => ({ e with valid := false }, none)
  | .string v =>
    if v = Nil then ({ e with valid := false }, none)
    else if v = NaN then ({ e with e := F64.NaN }, none)
    else match env.ParseFloat v with
      | .error _ => ({ e with e := F64.NaN }, none)
      | .ok f => ({ e with e := f }, none)
  | .int v => ({ e with e := env.floatOfInt v }, none)
  | .int64 v => ({ e with e := env.floatOfInt v }, none)
  | .uint v => ({ e with e := env.floatOfUint v }, none)
  | .uint64 v => ({ e with e := env.floatOfUint v }, none)
  | .float32 f => ({ e with e := f }, none)
  | .float64 f => ({ e with e := f }, none)
  | .bool b => if b then ({ e with e := F64.one }, none) else ({ e with e := F64.zero }, none)
  | .Element el =>
    if el.IsValid then
      match el.Float env with
      | .error err => ({ e with valid := false }, some err)
      | .ok f => ({ e with e := f }, none)
    else ({ e with valid := false }, none)
  | _ => ({ e with valid := false }, some "Unsupported type conversion to a float")

/-- Body shared by the `float32` and `float64` cases of `boolElement.Set`:
`v == 0 || v != v` gives false, anything else true. -/
def boolElement.setFloat (e : boolElement) (v : F64) : boolElement × Option error :=
  if v.eq F64.zero || !v.eq v then ({ e with e := false }, none)
  else ({ e with e := true }, none)

/-- Method `(e *boolElement) Set(value)`. -/
def boolElement.Set (env : Env) (e0 : boolElement) (value : Value) :
    boolElement × Option error :=
  let e : boolElement := { e0 with valid := true, e := false }
  match value with
  | .nil => ({ e with valid := false }, none)
  | .string v =>
    let low := env.ToLower v
    if low = "true" ∨ low = "t" ∨ low = "1" then ({ e with e := true }, none)
    else if low = "false" ∨ low = "f" ∨ low = "0" then ({ e with e := false }, none)
    else ({ e with valid := false }, some ("can\x27t convert string \x27" ++ v ++ "\x27 to boolean"))
  | .int v => if v = 0 then ({ e with e := false }, none) else ({ e with e := true }, none)
  | .int64 v => if v = 0 then ({ e with e := false }, none) else ({ e with e := true }, none)
  | .uint v => if v = 0 then ({ e with e := false }, none) else ({ e with e := true }, none)
  | .uint64 v => if v = 0 then ({ e with e := false }, none) else ({ e with e := true }, none)
  | .float32 v => boolElement.setFloat e v
  | .float64 v => boolElement.setFloat e v
  | .bool b => ({ e with e := b }, none)
  | .Element el =>
    if el.IsValid then
      match el.Bool env with
      | .error err => ({ e with valid := false }, some err)
      | .ok b => ({ e with e := b }, none)
    else ({ e with valid := false }, none)
  | _ => ({ e with valid := false }, some "Unsupported type conversion to a boolean")

/-! ## Series -/

/-- The `Elements` interface: one of the five typed element slices. -/
inductive Elements
  | intElements (l : List IntElement)
  | uintElements (l : List uintElement)
  | stringElements (l : List stringElement)
  | floatElements (l : List floatElement)
  | boolElements (l : List boolElement)
  deriving DecidableEq, Repr

/-- The elements of the slice, each as an `Element` interface value. -/
def Elements.toList : Elements → List Element
  | .intElements l => l.map .ofInt
  | .uintElements l => l.map .ofUint
  | .stringElements l => l.map .ofString
  | .floatElements l => l.map .ofFloat
  | .boolElements l => l.map .ofBool

/-- Method `Len()` of the five slice types. -/
def Elements.Len (es : Elements) : Nat := es.toList.length

/-- Slice indexing `l[i]` with a Go `int` index: `none` is the index-out-of-range panic. -/
def index {α : Type} (l : List α) (i : Int) : Option α :=
  if i < 0 then none else l[i.toNat]?

/-- Method `Elem(i)` of the five slice types (`none`: index-out-of-range panic). -/
def Elements.Elem (es : Elements) (i : Int) : Option Element := index es.toList i

/-- Element type of the slice (the dynamic type a type assertion on it accepts). -/
def Elements.Type_ : Elements → SeriesType
  | .intElements _ => .Int
  | .uintElements _ => .Uint
  | .stringElements _ => .String
  | .floatElements _ => .Float
  | .boolElements _ => .Bool

/-- Effect of `es.Elem(i).Set(value)` (returned error dropped) for `i` in range. -/
def Elements.SetElem (env : Env) (es : Elements) (i : Nat) (value : Value) : Elements :=
  match es with
  | .intElements l =>
    .intElements (match l[i]? with | some x => l.set i (x.Set env value).1 | none => l)
  | .uintElements l =>
    .uintElements (match l[i]? with | some x => l.set i (x.Set env value).1 | none => l)
  | .stringElements l =>
    .stringElements (match l[i]? with | some x => l.set i (x.Set env value).1 | none => l)
  | .floatElements l =>
    .floatElements (match l[i]? with | some x => l.set i (x.Set env value).1 | none => l)
  | .boolElements l =>
    .boolElements (match l[i]? with | some x => l.set i (x.Set env value).1 | none => l)

/-- Struct `Series`. -/
structure Series where
  Name : String
  elements : Elements
  defaultValue : Value
  t : SeriesType
  Err : Option error
  deriving DecidableEq, Repr

/-- Method `Len`. -/
def Series.Len (s : Series) : Nat := s.elements.Len

/-- Method `Type`. -/
def Series.Type_ (s : Series) : SeriesType := s.t

/-- The `values` argument of `New` / `NewDefault`, by dynamic type.  `ints` covers the
slices of every signed width (each element is passed on as `int64`), `uints` those of
every unsigned width (passed on as `uint64`), `floats` covers `[]float32` and `[]float64`
(passed on as `float64`); `slice` is any other slice, `scalar` any non-slice value. -/
inductive Values
  | nil
  | strings (v : List String)
  | floats (v : List F64)
  | ints (v : List Int)
  | uints (v : List Nat)
  | bools (v : List Bool)
  | Series (v : Series)
  | slice (v : List Value)
  | scalar (v : Value)
  deriving DecidableEq, Repr

/-- Function `imax`. -/
def imax (x y : Int) : Int := if x > y then x else y

/-- The slice obtained by `preAlloc(n)` followed by `Elem(i).Set(vals[i])` for every `i`
(`n` is the length of `vals`; the errors returned by `Set` are dropped, as in the source). -/
def setAll (env : Env) (t : SeriesType) (vals : List Value) : Elements :=
  match t with
  | .String => .stringElements (vals.map fun v => (stringElement.Set env ⟨"", false⟩ v).1)
  | .Int => .intElements (vals.map fun v => (IntElement.Set env ⟨0, false, false⟩ v).1)
  | .Uint => .uintElements (vals.map fun v => (uintElement.Set env ⟨0, false, false⟩ v).1)
  | .Float => .floatElements (vals.map fun v => (floatElement.Set env ⟨F64.zero, false⟩ v).1)
  | .Bool => .boolElements (vals.map fun v => (boolElement.Set env ⟨false, false⟩ v).1)

/-- The values handed to `Set` in one of the typed-slice cases of `NewDefault`:
the inputs, then `nil` up to `imax(l, alloc_size)`. -/
def padNil (vals : List Value) (alloc_size : Int) : List Value :=
  vals ++ List.replicate ((imax vals.length alloc_size).toNat - vals.length) Value.nil

/-- Function `NewDefault`. -/
def NewDefault (env : Env) (values : Values) (defaultValue : Value) (t : SeriesType)
    (name : String) (size : List Int) : Series :=
  let alloc_size : Int := match size with
    | [n] => n
    | _ => -1
  let ret (els : Elements) : Series :=
    { Name := name, elements := els, defaultValue := Value.nil, t := t, Err := none }
  match values with
  | .nil => ret (setAll env t (List.replicate (imax alloc_size 0).toNat defaultValue))
  | .strings v => ret (setAll env t (padNil (v.map Value.string) alloc_size))
  | .floats v => ret (setAll env t (padNil (v.map Value.float64) alloc_size))
  | .ints v => ret (setAll env t (padNil (v.map Value.int64) alloc_size))
  | .uints v => ret (setAll env t (padNil (v.map Value.uint64) alloc_size))
  | .bools v => ret (setAll env t (padNil (v.map Value.bool) alloc_size))
  | .Series v => ret (setAll env t (padNil (v.elements.toList.map Value.Element) alloc_size))
  | .slice v =>
    ret (setAll env t (padNil (v.map fun val =>
      match val with
      | .nil => defaultValue
      | _ => val) alloc_size))
  | .scalar val =>
    ret (setAll env t [match val with
      | .nil => defaultValue
      | _ => val])

/-- Function `New`. -/
def New (env : Env) (values : Values) (t : SeriesType) (name : String) (size : List Int) :
    Series :=
  NewDefault env values Value.nil t name size

/-- Function `Bools`. -/
def Bools (env : Env) (values : Values) : Series := New env values .Bool "" []

/-- Function `Ints`. -/
def Ints (env : Env) (values : Values) : Series := New env values .Int "" []

/-- Function `Uints`. -/
def Uints (env : Env) (values : Values) : Series := New env values .Uint "" []

/-- Function `Floats`. -/
def Floats (env : Env) (values : Values) : Series := New env values .Float "" []

/-- Function `Strings`. -/
def Strings (env : Env) (values : Values) : Series := New env values .String "" []

/-- Method `Empty`. -/
def Series.Empty (env : Env) (s : Series) : Series := New env (.ints []) s.t s.Name []

/-! ## Whole-series scans -/

/-- A loop that converts every element in turn and returns at the first error. -/
def collect {α β : Type} (f : α → Except error β) : List α → Except error (List β)
  | [] => .ok []
  | a :: rest =>
    match f a with
    | .error err => .error err
    | .ok b =>
      match collect f rest with
      | .error err => .error err
      | .ok bs => .ok (b :: bs)

/-- Method `HasNaN`. -/
def Series.HasNaN (env : Env) (s : Series) : bool := s.elements.toList.any fun e => e.IsNaN env

/-- Method `HasInvalid`. -/
def Series.HasInvalid (s : Series) : bool := s.elements.toList.any fun e => !e.IsValid

/-- Method `Int` of a Series. -/
def Series.Int (env : Env) (s : Series) : Except error (List Int) :=
  collect (fun e => e.Int env) s.elements.toList

/-- Method `Bool` of a Series. -/
def Series.Bool (env : Env) (s : Series) : Except error (List bool) :=
  collect (fun e => e.Bool env) s.elements.toList

/-! ## Index resolution -/

/-- Go `Indexes`, by dynamic type (`other`: any unsupported type). -/
inductive Indexes
  | ints (v : List Int)
  | int (v : Int)
  | int64s (v : List Int)
  | int64 (v : Int)
  | bools (v : List Bool)
  | Series (v : Series)
  | other
  deriving DecidableEq, Repr

/-- The loop of the `[]bool` case: positions holding `true`, counted from `i`. -/
def truePositions : List Bool → Nat → List Int
  | [], _ => []
  | b :: rest, i => if b then (i : Int) :: truePositions rest (i + 1) else truePositions rest (i + 1)

/-- The `[]bool` case of `parseIndexes`. -/
def parseIndexes.ofBools (l : Nat) (bools : List Bool) : Except error (List Int) :=
  if bools.length ≠ l then .error "indexing error: index dimensions mismatch"
  else .ok (truePositions bools 0)

/-- Function `parseIndexes`; the two recursive calls of the `Series` case are unfolded
to the `[]int64` and `[]bool` cases they reach. -/
def parseIndexes (env : Env) (l : Nat) (indexes : Indexes) : Except error (List Int) :=
  match indexes with
  | .ints v => .ok v
  | .int v => .ok [v]
  | .int64s v => .ok v
  | .int64 v => .ok [v]
  | .bools v => parseIndexes.ofBools l v
  | .Series s =>
    match s.Err with
    | some err => .error ("indexing error: new values has errors: " ++ err)
    | none =>
      if s.HasNaN env then .error "indexing error: indexes contain NaN"
      else match s.t with
        | .Int =>
          match s.Int env with
          | .error err => .error ("indexing error: " ++ err)
          | .ok ints => .ok ints
        | .Bool =>
          match s.Bool env with
          | .error err => .error ("indexing error: " ++ err)
          | .ok bools => parseIndexes.ofBools l bools
        | _ => .error "indexing error: unknown indexing mode"
  | .other => .error "indexing error: unknown indexing mode"

/-! ## Subset and Update -/

/-- Type assertion `es.(intElements)`. -/
def Elements.asInt : Elements → Option (List IntElement)
  | .intElements l => some l
  | _ => none

/-- Type assertion `es.(uintElements)`. -/
def Elements.asUint : Elements → Option (List uintElement)
  | .uintElements l => some l
  | _ => none

/-- Type assertion `es.(stringElements)`. -/
def Elements.asString : Elements → Option (List stringElement)
  | .stringElements l => some l
  | _ => none

/-- Type assertion `es.(floatElements)`. -/
def Elements.asFloat : Elements → Option (List floatElement)
  | .floatElements l => some l
  | _ => none

/-- Type assertion `es.(boolElements)`. -/
def Elements.asBool : Elements → Option (List boolElement)
  | .boolElements l => some l
  | _ => none

/-- The copying loop of `Subset`, `elements[k] = s.elements.(T)[i]`; `src` is the outcome
of the type assertion.  A failed assertion or an index out of range panics (`none`). -/
def subsetLoop {α : Type} (src : Option (List α)) : List Int → Option (List α)
  | [] => some []
  | i :: rest =>
    match src with
    | none => none
    | some l =>
      match index l i with
      | none => none
      | some x =>
        match subsetLoop src rest with
        | none => none
        | some xs => some (x :: xs)

/-- Method `Subset` (`none`: the call panics). -/
def Series.Subset (env : Env) (s : Series) (indexes : Indexes) : Option Series :=
  match s.Err with
  | some _ => some s
  | none =>
    match parseIndexes env s.Len indexes with
    | .error err => some { s with Err := some err }
    | .ok idx =>
      let ret (els : Elements) : Series :=
        { Name := s.Name, elements := els, defaultValue := Value.nil, t := s.t, Err := none }
      match s.t with
      | .String => (subsetLoop s.elements.asString idx).map fun l => ret (.stringElements l)
      | .Int => (subsetLoop s.elements.asInt idx).map fun l => ret (.intElements l)
      | .Uint => (subsetLoop s.elements.asUint idx).map fun l => ret (.uintElements l)
      | .Float => (subsetLoop s.elements.asFloat idx).map fun l => ret (.floatElements l)
      | .Bool => (subsetLoop s.elements.asBool idx).map fun l => ret (.boolElements l)

/-- State of an element right after the first assignments of its `Set` (`e.valid = true`
in every type, then `e.nan = false` for Int and `e.e = false` for Bool): what `Set` reads
through a value that points to its own receiver. -/
def Element.entered : Element → Element
  | .ofInt x => .ofInt { x with valid := true, nan := false }
  | .ofUint x => .ofUint { x with valid := true }
  | .ofString x => .ofString { x with valid := true }
  | .ofFloat x => .ofFloat { x with valid := true }
  | .ofBool x => .ofBool { x with valid := true, e := false }

/-- Where the slice `newvalues.elements` of a call `s.Update(indexes, newvalues)` lies.
`own`: in a backing array that is not the receiver's.  `receiver`: at the start of the
backing array of `s.elements`, as in `s.Update(indexes, s)`, or when `newvalues` is a
copy of the struct `s` or was returned by `s.Set` or `s.Update`. -/
inductive Backing
  | own
  | receiver
  deriving DecidableEq, Repr

/-- The element that `Set` reads through the pointer `newvalues.elements.Elem(k)` while
row `i` of the receiver is assigned, `es` being the elements of the receiver at that
time (`none`: index-out-of-range panic).  In an array of its own it is row `k` of
`newvalues`.  In the array of the receiver it is the current row `k` of the receiver,
which an earlier step of the loop may have assigned (a row past the length of the
receiver is still the row of `newvalues`); and for `i = k` the pointer is the receiver of
`Set` itself, read after the first assignments of `Set`. -/
def updateLoop.source (b : Backing) (newvalues es : Elements) (i : Int) (k : Nat) :
    Option Element :=
  match b with
  | .own => newvalues.Elem k
  | .receiver =>
    match es.Elem k with
    | none => newvalues.Elem k
    | some v => if i = k then some v.entered else some v

/-- The assignment loop of `Update` over `idx[k..]`: the elements after the loop and the
error recorded, if any.  `newvalues` is the slice of the argument as it is when `Update`
is called, `b` says where it is stored, and `es` is the slice being written. -/
def updateLoop (env : Env) (b : Backing) (newvalues : Elements) : Elements → List Int → Nat →
    Option (Elements × Option error)
  | es, [], _ => some (es, none)
  | es, i :: rest, k =>
    if i < 0 ∨ i ≥ es.Len then some (es, some "set error: index out of range")
    else
      match updateLoop.source b newvalues es i k with
      | none => none
      | some v =>
        updateLoop env b newvalues (es.SetElem env i.toNat (Value.Element v)) rest (k + 1)

/-- Method `Update` (`none`: the call panics).  The result shares its element storage
with the receiver, so its elements are also the receiver's elements after the call.
`b` says where the elements of `newvalues` are stored. -/
def Series.Update (env : Env) (s : Series) (indexes : Indexes) (newvalues : Series)
    (b : Backing) : Option Series :=
  match s.Err with
  | some _ => some s
  | none =>
    match newvalues.Err with
    | some err => some { s with Err := some ("set error: argument has errors: " ++ err) }
    | none =>
      match parseIndexes env s.Len indexes with
      | .error err => some { s with Err := some err }
      | .ok idx =>
        if idx.length ≠ newvalues.Len then
          some { s with Err := some "set error: dimensions mismatch" }
        else
          (updateLoop env b newvalues.elements s.elements idx 0).map fun r =>
            { s with elements := r.1, Err := r.2 }

/-! ## Compare -/

/-- The closure `compareElements` of `Compare`. -/
def compareElements (env : Env) (a b : Element) (c : Comparator) : Except error bool :=
  match c with
  | .Eq => .ok (a.Eq env b)
  | .Neq => .ok (a.Neq env b)
  | .Greater => .ok (a.Greater env b)
  | .GreaterEq => .ok (a.GreaterEq env b)
  | .Less => .ok (a.Less env b)
  | .LessEq => .ok (a.LessEq env b)
  | .In => .error "unknown comparator: in"
  | .other name => .error ("unknown comparator: " ++ name)

/-- Inner loop of the `In` branch: is `e` equal to some element of `comp`. -/
def Compare.inRow (env : Env) (e : Element) : List Element → Except error bool
  | [] => .ok false
  | m :: rest =>
    match compareElements env e m .Eq with
    | .error err => .error err
    | .ok c => if c then .ok true else Compare.inRow env e rest

/-- Loop of the multiple element comparison, over rows `i` of both series. -/
def Compare.pairs (env : Env) (c : Comparator) : List Element → List Element →
    Except error (List bool)
  | e :: es, m :: ms =>
    match compareElements env e m c with
    | .error err => .error err
    | .ok b =>
      match Compare.pairs env c es ms with
      | .error err => .error err
      | .ok bs => .ok (b :: bs)
  | _, _ => .ok []

/-- Method `Compare`. -/
def Series.Compare (env : Env) (s : Series) (comparator : Comparator) (comparando : Values) :
    Series :=
  match s.Err with
  | some _ => s
  | none =>
    let comp := New env comparando s.t "" []
    let fail (err : error) : Series := { s.Empty env with Err := some err }
    if comparator = .In then
      match collect (fun e => Compare.inRow env e comp.elements.toList) s.elements.toList with
      | .error err => fail err
      | .ok bools => Bools env (.bools bools)
    else
      match comp.elements.toList with
      | [m] =>
        match collect (fun e => compareElements env e m comparator) s.elements.toList with
        | .error err => fail err
        | .ok bools => Bools env (.bools bools)
      | ms =>
        if s.Len ≠ comp.Len then fail "can\x27t compare: length mismatch"
        else
          match Compare.pairs env comparator s.elements.toList ms with
          | .error err => fail err
          | .ok bools => Bools env (.bools bools)

/-! ## Order -/

/-- The test that sends row `e` of a Series of type `t` to `nasIdx` in `Order`. -/
def Order.isNA (env : Env) (t : SeriesType) (e : Element) : bool :=
  if !e.IsValid then true
  else match t with
    | .Float | .Int | .Uint => e.IsNaN env
    | _ => false

/-- First loop of `Order` over the rows from `i` on: the pair `(ie, nasIdx)`. -/
def Order.split (env : Env) (t : SeriesType) : List Element → Nat →
    List indexedElement × List Int
  | [], _ => ([], [])
  | e :: rest, i =>
    let r := Order.split env t rest (i + 1)
    if Order.isNA env t e then (r.1, (i : Int) :: r.2)
    else (⟨(i : Int), e⟩ :: r.1, r.2)

/-- Method `Less` of `indexedElements`, on the two entries compared. -/
def indexedElements.Less (env : Env) (a b : indexedElement) : bool :=
  a.element.Less env b.element

/-- Method `Order`: `sort.Sort` is run with `Less`, or with the `Less` of `sort.Reverse`
(arguments exchanged) when `reverse` is set. -/
def Series.Order (env : Env) (s : Series) (reverse : bool) : List ℤ :=
  let r := Order.split env s.t s.elements.toList 0
  let less : indexedElement → indexedElement → bool :=
    if reverse then fun a b => indexedElements.Less env b a
    else fun a b => indexedElements.Less env a b
  (env.sortSort less r.1).map (fun e => e.index) ++ r.2

/-! ## Validity states and the library contract of `sort.Sort` -/

/-- The element is Null (absent): its `valid` flag is off. -/
def Element.Null (e : Element) : bool := !e.IsValid

/-- The element is in the NaN state: present, and marked `nan` (Int, Uint) or holding a
NaN payload (Float).  String and Bool elements have no such state. -/
def Element.NaNState : Element → bool
  | .ofInt x => x.valid && x.nan
  | .ofUint x => x.valid && x.nan
  | .ofFloat x => x.valid && x.e.IsNaN
  | .ofString _ => false
  | .ofBool _ => false

/-- Row `i` of the Series is Null or NaN (rows outside the Series count as such). -/
def Series.rowNA (s : Series) (i : ℤ) : bool :=
  match s.elements.Elem i with
  | some e => e.Null || e.NaNState
  | none => true

/-- Row `i` is `Less` than row `j` (false when a row is outside the Series). -/
def Series.rowLess (env : Env) (s : Series) (i j : ℤ) : bool :=
  match s.elements.Elem i, s.elements.Elem j with
  | some a, some b => a.Less env b
  | _, _ => false

/-- The Null and NaN rows of the Series, in increasing row order. -/
def Series.naRows (s : Series) : List ℤ :=
  ((List.range s.Len).filter fun i : ℕ => s.rowNA (i : ℤ)).map fun i : ℕ => (i : ℤ)

/-- On the entries of `l`, `less` is a strict weak ordering: irreflexive, transitive, and
with a transitive incomparability. -/
def StrictWeakOn {α : Type} (less : α → α → Bool) (l : List α) : Prop :=
  (∀ a ∈ l, less a a = false) ∧
  (∀ a ∈ l, ∀ b ∈ l, ∀ c ∈ l, less a b = true → less b c = true → less a c = true) ∧
  (∀ a ∈ l, ∀ b ∈ l, ∀ c ∈ l, less a b = false → less b c = false → less a c = false)

/-- What package `sort` documents of `Sort`: the slice is rearranged (a permutation of its
entries), and when `Less` is a strict weak ordering of the entries the result is in
ascending order, that is, no entry is `Less` than an entry placed before it.  Nothing is
said about the relative order of equal entries. -/
structure SortSpec {α : Type} (sort : (α → α → Bool) → List α → List α) : Prop where
  perm : ∀ less l, (sort less l).Perm l
  sorted : ∀ less l, StrictWeakOn less l →
    (sort less l).Pairwise fun a b => less b a = false

/-! ## A concrete library instance, for evaluating the definitions on examples -/

/-- Insertion of `a` into a sorted list, after the entries that are not greater. -/
def insertSorted {α : Type} (less : α → α → Bool) (a : α) : List α → List α
  | [] => [a]
  | b :: l => if less a b then a :: b :: l else b :: insertSorted less a l

/-- Insertion sort, the algorithm `sort.Sort` runs on short slices. -/
def insertionSort {α : Type} (less : α → α → Bool) : List α → List α → List α
  | acc, [] => acc
  | acc, a :: l => insertionSort less (insertSorted less a acc) l

/-- Value of a string of decimal digits (`none` when empty or not all digits). -/
def parseDigits (cs : List Char) : Option Nat :=
  if cs = [] then none
  else cs.foldl (fun acc c => acc.bind fun n =>
    if c.isDigit then some (n * 10 + (c.toNat - 48)) else none) (some 0)

/-- Base 10 parsing of a signed 64 bit integer: optional sign, then digits. -/
def sampleParseInt (s : String) : Except error Int :=
  let r : Option Int := match s.data with
    | '-' :: cs => (parseDigits cs).map fun n => -(n : Int)
    | '+' :: cs => (parseDigits cs).map fun n => (n : Int)
    | cs => (parseDigits cs).map fun n => (n : Int)
  match r with
  | none => .error "strconv.ParseInt: invalid syntax"
  | some v =>
    if v < -(2 ^ 63) ∨ 2 ^ 63 ≤ v then .error "strconv.ParseInt: value out of range"
    else .ok v

/-- Base 10 parsing of an unsigned 64 bit integer: digits only. -/
def sampleParseUint (s : String) : Except error Nat :=
  match parseDigits s.data with
  | none => .error "strconv.ParseUint: invalid syntax"
  | some v => if 2 ^ 64 ≤ v then .error "strconv.ParseUint: value out of range" else .ok v

/-- Conversion of a natural number below `2^53` to the `float64` of that value. -/
def sampleFloatOfNat (n : Nat) : F64 :=
  if n = 0 then ⟨0⟩
  else
    let e := Nat.log2 n
    ⟨(e + 1023) * 2 ^ 52 + (n - 2 ^ e) * 2 ^ (52 - e)⟩

/-- Conversion of an integer of absolute value below `2^53` to `float64`. -/
def sampleFloatOfInt (i : Int) : F64 :=
  if i < 0 then ⟨2 ^ 63 + (sampleFloatOfNat i.natAbs).bits⟩ else sampleFloatOfNat i.natAbs

/-- Integer part of the absolute value of a finite `float64`. -/
def sampleTrunc (f : F64) : Nat :=
  let ex := f.mag / 2 ^ 52
  let m := if ex = 0 then f.mag else 2 ^ 52 + f.mag % 2 ^ 52
  let ex1 := if ex = 0 then 1 else ex
  if 1075 ≤ ex1 then m * 2 ^ (ex1 - 1075) else m / 2 ^ (1075 - ex1)

/-- Parsing of the special values and of decimal integers below `2^53` as `float64`. -/
def sampleParseFloat (s : String) : Except error F64 :=
  if s = "NaN" then .ok F64.NaN
  else if s = "Inf" ∨ s = "+Inf" then .ok ⟨F64.infMag⟩
  else if s = "-Inf" then .ok ⟨2 ^ 63 + F64.infMag⟩
  else match sampleParseInt s with
    | .ok v => if v.natAbs < 2 ^ 53 then .ok (sampleFloatOfInt v)
      else .error "strconv.ParseFloat: not covered"
    | .error _ => .error "strconv.ParseFloat: invalid syntax"

/-- Fixed notation with six decimals of a `float64` whose value is an integer. -/
def sampleFormatFloat (f : F64) : String :=
  if f.IsNaN then "NaN"
  else if f.mag = F64.infMag then (if f.neg then "-Inf" else "+Inf")
  else (if f.neg then "-" else "") ++ toString (sampleTrunc f) ++ ".000000"

/-- A small concrete instance of the library: decimal integer parsing, ASCII lower
casing, insertion sort, and floats restricted to NaN, the infinities and integers. -/
def sampleEnv : Env where
  ParseInt := sampleParseInt
  ParseUint := sampleParseUint
  ParseFloat := sampleParseFloat
  FormatFloat := sampleFormatFloat
  Sprintf_f := sampleFormatFloat
  ToLower := fun s => String.mk (s.data.map Char.toLower)
  int64OfFloat := fun f => if f.neg then -(sampleTrunc f : Int) else (sampleTrunc f : Int)
  uint64OfFloat := fun f => sampleTrunc f
  floatOfInt := sampleFloatOfInt
  floatOfUint := sampleFloatOfNat
  sortSort := fun less l => insertionSort less [] l

/-- Dynamic dispatch of `Set`: the element after the call and the returned error. -/
def Element.Set (env : Env) (e : Element) (value : Value) : Element × Option error :=
  match e with
  | .ofInt x => (.ofInt (x.Set env value).1, (x.Set env value).2)
  | .ofUint x => (.ofUint (x.Set env value).1, (x.Set env value).2)
  | .ofString x => (.ofString (x.Set env value).1, (x.Set env value).2)
  | .ofFloat x => (.ofFloat (x.Set env value).1, (x.Set env value).2)
  | .ofBool x => (.ofBool (x.Set env value).1, (x.Set env value).2)

/-- The index `i` passes the bounds test `!(i < 0 || i >= n)` of `Update`. -/
def inRange (n : Nat) (i : Int) : Bool := decide (0 ≤ i ∧ i < (n : Int))

/-- The zero value of the element struct of a type, as `make` leaves every element of a
freshly allocated slice. -/
def Element.zero : SeriesType → Element
  | .String => .ofString ⟨"", false⟩
  | .Int => .ofInt ⟨0, false, false⟩
  | .Uint => .ofUint ⟨0, false, false⟩
  | .Float => .ofFloat ⟨F64.zero, false⟩
  | .Bool => .ofBool ⟨false, false⟩

/-! ## `sort.Sort` of the Go releases up to 1.18, on short slices -/

/-- Exchange of the entries at positions `i` and `j`, the `Swap` of a slice. -/
def swapAt {α : Type} (l : List α) (i j : Nat) : List α :=
  match l[i]?, l[j]? with
  | some a, some b => (l.set i b).set j a
  | _, _ => l

/-- Inner loop of `insertionSort(data, 0, n)` of package sort, entered with `j`:
`for ; j > 0 && data.Less(j, j-1); j-- { data.Swap(j, j-1) }`. -/
def legacyInsertInner {α : Type} (less : α → α → Bool) : Nat → List α → List α
  | 0, l => l
  | j + 1, l =>
    match l[j + 1]?, l[j]? with
    | some x, some y => if less x y then legacyInsertInner less j (swapAt l (j + 1) j) else l
    | _, _ => l

/-- Outer loop of `insertionSort(data, 0, n)`, from `i` on: `for ; i < n; i++`. -/
def legacyInsertOuter {α : Type} (less : α → α → Bool) : Nat → Nat → List α → List α
  | 0, _, l => l
  | fuel + 1, i, l =>
    if i < l.length then legacyInsertOuter less fuel (i + 1) (legacyInsertInner less i l)
    else l

/-- The pass `for i := 6; i < n; i++ { if data.Less(i, i-6) { data.Swap(i, i-6) } }`
that `quickSort` runs before `insertionSort`, from `i` on. -/
def legacyShellPass {α : Type} (less : α → α → Bool) : Nat → Nat → List α → List α
  | 0, _, l => l
  | fuel + 1, i, l =>
    if i < l.length then
      match l[i]?, l[i - 6]? with
      | some x, some y =>
        legacyShellPass less fuel (i + 1) (if less x y then swapAt l i (i - 6) else l)
      | _, _ => l
    else l

/-- What `sort.Sort` of the Go releases up to 1.18 does on a slice of at most 12 entries
(`quickSort` skips its partitioning loop): the pass with gap 6, then `insertionSort`.
Longer slices are partitioned first, which is not part of this definition. -/
def legacySort {α : Type} (less : α → α → Bool) (l : List α) : List α :=
  if 1 < l.length then
    legacyInsertOuter less l.length 1 (legacyShellPass less l.length 6 l)
  else l

/-- The library instance `sampleEnv` with `sort.Sort` as in the Go releases up to 1.18. -/
def legacyEnv : Env := { sampleEnv with sortSort := fun less l => legacySort less l }

/-- A sorting function that meets the documented contract of `sort.Sort` and places equal
entries in the opposite of their input order: insertion sort of the reversed slice. -/
def reversingSort {α : Type} (less : α → α → Bool) (l : List α) : List α :=
  insertionSort less [] l.reverse

/-! ## Factorize -/

/-- Method `Val` of `IntElement` (`int(e.e)` keeps the value, `int` being 64 bits). -/
def IntElement.Val (e : IntElement) : Value :=
  if e.valid then
    if e.nan then .NaNElement else .int e.e
  else .nil

/-- Method `Val` of `uintElement`: the payload converted by `int(e.e)`. -/
def uintElement.Val (e : uintElement) : Value :=
  if e.valid then
    if e.nan then .NaNElement else .int (toInt64 e.e)
  else .nil

/-- Method `Val` of `stringElement`. -/
def stringElement.Val (e : stringElement) : Value :=
  if !e.IsValid then .nil else .string e.e

/-- Method `Val` of `floatElement`. -/
def floatElement.Val (e : floatElement) : Value :=
  if !e.IsValid then .nil else .float64 e.e

/-- Method `Val` of `boolElement`. -/
def boolElement.Val (e : boolElement) : Value :=
  if !e.valid then .nil else .bool e.e

/-- Dynamic dispatch of `Val`. -/
def Element.Val : Element → Value
  | .ofInt x => x.Val
  | .ofUint x => x.Val
  | .ofString x => x.Val
  | .ofFloat x => x.Val
  | .ofBool x => x.Val

/-- The locals `codes`, `uniques` and `uniquesMap` of `Factorize`; the map is the list of
its entries, the newest first (a key is only ever added when it is absent). -/
structure FactorizeState where
  codes : List Int
  uniques : List Value
  uniquesMap : List (String × Int)
  deriving DecidableEq, Repr

/-- The test `(!e.IsValid() || (e.IsNaN() && e.Type() == Float)) && dropna` of `Factorize`,
`dropna` being the constant `true`. -/
def Factorize.dropped (env : Env) (e : Element) : Bool :=
  (!e.IsValid || (e.IsNaN env && decide (e.Type_ = .Float))) && true

/-- First loop of `Factorize` (only run when `sort` is set), over the rows of
`sortedValues` from `i` on.  `.error st` is the exit through `goto exit`, taken when
`String()` fails; the `err` tested there is a new variable of the inner block, so the
outer `err` stays nil. -/
def Factorize.loop1 (env : Env) : List Element → Nat → FactorizeState →
    Except FactorizeState FactorizeState
  | [], _, st => .ok st
  | e :: rest, i, st =>
    if !Factorize.dropped env e then
      match e.String env with
      | .error _ => .error st
      | .ok se =>
        match st.uniquesMap.lookup se with
        | some u => Factorize.loop1 env rest (i + 1) { st with codes := st.codes.set i u }
        | none =>
          Factorize.loop1 env rest (i + 1)
            { st with
              uniques := st.uniques ++ [e.Val]
              uniquesMap := (se, (st.uniques.length : Int)) :: st.uniquesMap }
    else Factorize.loop1 env rest (i + 1) st

/-- Second loop of `Factorize`, over the rows of the Series from `i` on. -/
def Factorize.loop2 (env : Env) : List Element → Nat → FactorizeState →
    Except FactorizeState FactorizeState
  | [], _, st => .ok st
  | e :: rest, i, st =>
    if Factorize.dropped env e then
      Factorize.loop2 env rest (i + 1) { st with codes := st.codes.set i (-1) }
    else
      match e.String env with
      | .error _ => .error st
      | .ok se =>
        match st.uniquesMap.lookup se with
        | some u => Factorize.loop2 env rest (i + 1) { st with codes := st.codes.set i u }
        | none =>
          Factorize.loop2 env rest (i + 1)
            { codes := st.codes.set i (st.uniques.length : Int)
              uniques := st.uniques ++ [e.Val]
              uniquesMap := (se, (st.uniques.length : Int)) :: st.uniquesMap }

/-- The two Series returned at the end of `Factorize` when the outer `err` is nil. -/
def Factorize.result (env : Env) (s : Series) (st : FactorizeState) : Series × Series :=
  (New env (.ints st.codes) .Int "codes" [], New env (.slice st.uniques) s.Type_ "uniques" [])

/-- The two Series returned by `Factorize` when an error `err` is recorded. -/
def Factorize.failed (env : Env) (s : Series) (st : FactorizeState) (err : error) :
    Series × Series :=
  ({ New env (.ints st.codes) .Int "codes" [] with Err := some err },
   { New env (.slice st.uniques) s.Type_ "uniques" [] with Err := some err })

/-- Method `Factorize`: the pair `(codes, uniques)`; `none` is a panic of `Subset`. -/
def Series.Factorize (env : Env) (s : Series) (sort : bool) : Option (Series × Series) :=
  match s.Err with
  | some err => some (Factorize.failed env s ⟨[], [], []⟩ err)
  | none =>
    let st0 : FactorizeState := ⟨List.replicate s.Len 0, [], []⟩
    if sort then
      match s.Subset env (.ints (s.Order env false)) with
      | none => none
      | some sortedValues =>
        match sortedValues.Err with
        | some err => some (Factorize.failed env s st0 err)
        | none =>
          match Factorize.loop1 env sortedValues.elements.toList 0 st0 with
          | .error st => some (Factorize.result env s st)
          | .ok st1 =>
            match Factorize.loop2 env s.elements.toList 0 st1 with
            | .error st => some (Factorize.result env s st)
            | .ok st => some (Factorize.result env s st)
    else
      match Factorize.loop2 env s.elements.toList 0 st0 with
      | .error st => some (Factorize.result env s st)
      | .ok st => some (Factorize.result env s st)

/-- The payload of the element is one its Go type can hold, and a present String element
is not the empty text (`stringElement.Set` turns the empty text into Null). -/
def Element.wellFormed : Element → bool
  | .ofInt x => decide (-(2 ^ 63) ≤ x.e ∧ x.e < 2 ^ 63)
  | .ofUint x => decide (x.e < 2 ^ 64)
  | .ofString x => !x.valid || decide (x.e ≠ "")
  | .ofFloat _ => true
  | .ofBool _ => true

/-- Text form of an element: what `String()` returns (the empty text when it fails). -/
def Factorize.text (env : Env) (e : Element) : String :=
  match e.String env with
  | .ok t => t
  | .error _ => ""

/-- The distinct entries of a list, each at the place of its first occurrence. -/
def firstAppearances (l : List String) : List String := l.reverse.dedup.reverse

/-- The rows, after those of `es`, that bring a text form not seen before: scanning
`rows` in order, a row that is not dropped and whose text is new is appended. -/
def Factorize.firstRows (env : Env) : List Element → List Element → List Element
  | es, [] => es
  | es, e :: rest =>
    if Factorize.dropped env e then Factorize.firstRows env es rest
    else if Factorize.text env e ∈ es.map (Factorize.text env) then
      Factorize.firstRows env es rest
    else Factorize.firstRows env (es ++ [e]) rest

/-- Invariant of the loops of `Factorize`, `es` being the rows that brought the texts
recorded so far: `uniques` holds their values, their texts are pairwise distinct, and
`uniquesMap` sends each of these texts to its position and no other text anywhere. -/
structure Factorize.Inv (env : Env) (st : FactorizeState) (es : List Element) : Prop where
  uniques : st.uniques = es.map Element.Val
  nodup : (es.map (Factorize.text env)).Nodup
  lookup : ∀ t, st.uniquesMap.lookup t
    = if t ∈ es.map (Factorize.text env)
      then some (((es.map (Factorize.text env)).indexOf t : Nat) : Int) else none

/-- The rows of `sortedValues` in `Factorize`: the rows of the Series in the order given
by `Order(false)`. -/
def Factorize.sortedRows (env : Env) (s : Series) : List Element :=
  (s.Order env false).filterMap s.elements.Elem

/-- Value of a list of decimal digit characters read after the number `acc`. -/
def decimalValue (acc : Nat) (l : List Char) : Nat :=
  l.foldl (fun a c => a * 10 + (c.toNat - 48)) acc

/-! ## Copy, Append, Concat, Set, Records -/

/-- Method `Copy` (`none`: the type assertion on the storage panics).  The result holds
the elements in a freshly made slice; its `defaultValue` is the zero value, as the struct
literal of the source does not name the field. -/
def Series.Copy (s : Series) : Option Series :=
  let ret (els : Elements) : Series :=
    { Name := s.Name, elements := els, defaultValue := Value.nil, t := s.t, Err := s.Err }
  match s.t with
  | .String => s.elements.asString.map fun l => ret (.stringElements l)
  | .Float => s.elements.asFloat.map fun l => ret (.floatElements l)
  | .Bool => s.elements.asBool.map fun l => ret (.boolElements l)
  | .Int => s.elements.asInt.map fun l => ret (.intElements l)
  | .Uint => s.elements.asUint.map fun l => ret (.uintElements l)

/-- The statement `s.elements = append(s.elements.(T), news.elements.(T)...)` of `Append`
for the type `t` (`none`: a type assertion panics). -/
def Elements.append (t : SeriesType) (a b : Elements) : Option Elements :=
  match t with
  | .String =>
    match a.asString, b.asString with
    | some x, some y => some (.stringElements (x ++ y))
    | _, _ => none
  | .Int =>
    match a.asInt, b.asInt with
    | some x, some y => some (.intElements (x ++ y))
    | _, _ => none
  | .Uint =>
    match a.asUint, b.asUint with
    | some x, some y => some (.uintElements (x ++ y))
    | _, _ => none
  | .Float =>
    match a.asFloat, b.asFloat with
    | some x, some y => some (.floatElements (x ++ y))
    | _, _ => none
  | .Bool =>
    match a.asBool, b.asBool with
    | some x, some y => some (.boolElements (x ++ y))
    | _, _ => none

/-- Method `Append`, which has a pointer receiver: the result is the receiver after the
call (`none`: the call panics). -/
def Series.Append (env : Env) (s : Series) (values : Values) : Option Series :=
  match s.Err with
  | some _ => some s
  | none =>
    let news := NewDefault env values s.defaultValue s.t s.Name []
    (Elements.append s.t s.elements news.elements).map fun els => { s with elements := els }

/-- Method `Concat` (`none`: the call panics). -/
def Series.Concat (env : Env) (s x : Series) : Option Series :=
  match s.Err with
  | some _ => some s
  | none =>
    match x.Err with
    | some err => some { s with Err := some ("concat error: argument has errors: " ++ err) }
    | none =>
      match s.Copy with
      | none => none
      | some y => y.Append env (.Series x)

/-- Method `Set` of a Series (`none`: the call panics).  The bounds test records an error
and execution goes on to `s.elements.Elem(index)`.  The result shares its element storage
with the receiver. -/
def Series.Set (env : Env) (s : Series) (index : ℤ) (value : Value) : Option Series :=
  match s.Err with
  | some _ => some s
  | none =>
    let s1 : Series :=
      if index < 0 ∨ index ≥ s.elements.Len then
        { s with Err := some ("index out of bounds: " ++ toString index) }
      else s
    match s1.elements.Elem index with
    | none => none
    | some _ =>
      match value with
      | .nil => some { s1 with elements := s1.elements.SetElem env index.toNat s1.defaultValue }
      | _ => some { s1 with elements := s1.elements.SetElem env index.toNat value }

/-- The loop of `Records` over the elements from some row on. -/
def Records.loop (env : Env) (force : bool) : List Element → Except error (List String)
  | [] => .ok []
  | e :: rest =>
    match e.String env with
    | .error err =>
      if !force then .error err
      else
        match Records.loop env force rest with
        | .error err2 => .error err2
        | .ok ret => .ok ("" :: ret)
    | .ok val =>
      match Records.loop env force rest with
      | .error err2 => .error err2
      | .ok ret => .ok (val :: ret)

/-- Method `Records`. -/
def Series.Records (env : Env) (s : Series) (force : bool) : Except error (List String) :=
  Records.loop env force s.elements.toList

/-- Length of the `values` argument when it is a sequence (a slice or a Series); `none`
for `nil` and for a scalar. -/
def Values.seqLen : Values → Option Nat
  | .nil => none
  | .strings v => some v.length
  | .floats v => some v.length
  | .ints v => some v.length
  | .uints v => some v.length
  | .bools v => some v.length
  | .Series v => some v.Len
  | .slice v => some v.length
  | .scalar _ => none

/-- The input values of a sequence given to `NewDefault`, as the values handed to `Set` at
the positions of the input: the entries of a slice or the elements of a Series, a `nil`
entry of a slice of interfaces being replaced by the default `d`.  `none` for `nil` and
for a scalar, which are not sequences. -/
def Values.items (d : Value) : Values → Option (List Value)
  | .nil => none
  | .strings v => some (v.map Value.string)
  | .floats v => some (v.map Value.float64)
  | .ints v => some (v.map Value.int64)
  | .uints v => some (v.map Value.uint64)
  | .bools v => some (v.map Value.bool)
  | .Series v => some (v.elements.toList.map Value.Element)
  | .slice v => some (v.map fun val =>
      match val with
      | .nil => d
      | _ => val)
  | .scalar _ => none

/-- What package `strconv` documents of `ParseInt(s, 10, 64)` and `ParseUint(s, 10, 64)`
that is used here: the base 10 text of a number of the type parses to this number. -/
structure ParseSpec (env : Env) : Prop where
  int : ∀ v : Int, -(2 ^ 63) ≤ v → v < 2 ^ 63 → env.ParseInt (toString v) = .ok v
  uint : ∀ n : Nat, n < 2 ^ 64 → env.ParseUint (toString n) = .ok n

/-! ## Any, OrderUsingIndex, Map -/

/-- The loop of `Any` over the elements from some row on: the pair `(rs, err)` returned.
`rs` is still `false` whenever the loop goes on or returns an error. -/
def Any.loop (env : Env) (skipnan : bool) : List Element → bool × Option error
  | [] => (false, none)
  | e :: rest =>
    if !e.IsValid then Any.loop env skipnan rest
    else if !skipnan && e.IsNaN env then (true, none)
    else if skipnan && e.IsNaN env then Any.loop env skipnan rest
    else
      match e.Bool env with
      | .error err => (false, some err)
      | .ok v => if v then (true, none) else Any.loop env skipnan rest

/-- Method `Any`. -/
def Series.Any (env : Env) (s : Series) (skipnan : bool) : bool × Option error :=
  Any.loop env skipnan s.elements.toList

/-- First loop of `OrderUsingIndex` over the entries of `origIdx` that are used: the pair
`(ie, nasIdx)`; `none` when `s.elements.Elem(i)` panics. -/
def OrderUsingIndex.split (env : Env) (t : SeriesType) (els : Elements) :
    List ℤ → Option (List indexedElement × List ℤ)
  | [] => some ([], [])
  | i :: rest =>
    match els.Elem i with
    | none => none
    | some e =>
      match OrderUsingIndex.split env t els rest with
      | none => none
      | some r =>
        if Order.isNA env t e then some (r.1, i :: r.2)
        else some (⟨i, e⟩ :: r.1, r.2)

/-- Method `OrderUsingIndex` (`none`: the call panics). -/
def Series.OrderUsingIndex (env : Env) (s : Series) (reverse : bool) (origIdx : List ℤ) :
    Option (List ℤ) :=
  if origIdx.length = 0 then some (s.Order env reverse)
  else
    let slen : ℕ := if origIdx.length ≥ s.Len then s.Len else origIdx.length
    match OrderUsingIndex.split env s.t s.elements (origIdx.take slen) with
    | none => none
    | some r =>
      let less : indexedElement → indexedElement → bool :=
        if reverse then fun a b => indexedElements.Less env b a
        else fun a b => indexedElements.Less env a b
      some ((env.sortSort less r.1).map (fun e => e.index) ++ r.2)

/-- Method `Map`.  The function `f` is taken as a function of the element it is given
that does not write to it; `none` stands for a nil `Element` returned by `f`. -/
def Series.Map (env : Env) (s : Series) (f : Element → Option Element) : Series :=
  New env (.slice (s.elements.toList.map fun e =>
    match f e with
    | some v => Value.Element v
    | none => Value.nil)) s.Type_ s.Name []

/-! ## Type check of the test suite -/

/-- Test helper `checkTypes`: `true` when it returns `nil`, that is when every element of
`s` reports the type `s.t`. -/
def checkTypes (s : Series) : bool :=
  let types := s.elements.toList.map fun e => e.Type_
  types.all fun t => decide (t = s.t)

/-- The invariant of a Series: its storage is the slice type of `s.t` (the type assertions
`s.elements.(intElements)` and the like succeed) and `checkTypes` passes. -/
def Series.homogeneous (s : Series) : bool :=
  decide (s.elements.Type_ = s.t) && checkTypes s

/-! # Theorems -/

/-! ## Element comparisons -/

theorem Element.isNaN_of_not_valid (env : Env) (b : Element) (h : b.IsValid = false) :
    b.IsNaN env = true := by
  cases b <;>
    simp_all [Element.IsValid, Element.IsNaN, IntElement.IsValid, IntElement.IsNaN,
      uintElement.IsValid, uintElement.IsNaN, stringElement.IsValid, stringElement.IsNaN,
      floatElement.IsValid, floatElement.IsNaN, boolElement.IsValid, boolElement.IsNaN]

/-- C5: two Null elements are `Eq` and not `Neq`; when exactly one of two elements is
Null they are `Neq` and not `Eq`.  This holds for every receiver kind, whatever the kind
of the argument. -/
theorem C5_null_eq_neq (env : Env) (a b : Element) :
    (a.IsValid = false → b.IsValid = false → a.Eq env b = true ∧ a.Neq env b = false) ∧
    (a.IsValid ≠ b.IsValid → a.Eq env b = false ∧ a.Neq env b = true) := by
  constructor
  · intro ha hb
    cases a <;>
      simp_all [Element.IsValid, Element.Eq, Element.Neq, IntElement.IsValid, IntElement.Eq,
        IntElement.Neq, uintElement.IsValid, uintElement.Eq, uintElement.Neq,
        stringElement.IsValid, stringElement.Eq, stringElement.Neq, floatElement.IsValid,
        floatElement.Eq, floatElement.Neq, boolElement.IsValid, boolElement.Eq,
        boolElement.Neq]
  · intro hab
    cases a <;> cases hb : b.IsValid <;>
      simp_all [Element.IsValid, Element.Eq, Element.Neq, IntElement.IsValid, IntElement.Eq,
        IntElement.Neq, uintElement.IsValid, uintElement.Eq, uintElement.Neq,
        stringElement.IsValid, stringElement.Eq, stringElement.Neq, floatElement.IsValid,
        floatElement.Eq, floatElement.Neq, boolElement.IsValid, boolElement.Eq,
        boolElement.Neq]

/-- C5 on examples: two Null Int elements, and a Null against a present String element. -/
theorem C5_null_eq_neq_witness :
    ((Element.ofInt ⟨7, false, false⟩).Eq sampleEnv (.ofInt ⟨3, false, true⟩) = true ∧
      (Element.ofInt ⟨7, false, false⟩).Neq sampleEnv (.ofInt ⟨3, false, true⟩) = false) ∧
    ((Element.ofString ⟨"a", false⟩).Eq sampleEnv (.ofString ⟨"a", true⟩) = false ∧
      (Element.ofString ⟨"a", false⟩).Neq sampleEnv (.ofString ⟨"a", true⟩) = true) :=
  ⟨(C5_null_eq_neq sampleEnv (.ofInt ⟨7, false, false⟩) (.ofInt ⟨3, false, true⟩)).1 rfl rfl,
   (C5_null_eq_neq sampleEnv (.ofString ⟨"a", false⟩) (.ofString ⟨"a", true⟩)).2 (by decide)⟩

/-- C6: `Less`, `LessEq`, `Greater` and `GreaterEq` are all false as soon as one operand
is Null (any kinds), and, between two Int elements or two Uint elements, as soon as one
operand is in the NaN state. -/
theorem C6_incomparable_false (env : Env) :
    (∀ a b : Element, a.IsValid = false ∨ b.IsValid = false →
      a.Less env b = false ∧ a.LessEq env b = false ∧
      a.Greater env b = false ∧ a.GreaterEq env b = false) ∧
    (∀ x y : IntElement, x.nan = true ∨ y.nan = true →
      (Element.ofInt x).Less env (.ofInt y) = false ∧
      (Element.ofInt x).LessEq env (.ofInt y) = false ∧
      (Element.ofInt x).Greater env (.ofInt y) = false ∧
      (Element.ofInt x).GreaterEq env (.ofInt y) = false) ∧
    (∀ x y : uintElement, x.nan = true ∨ y.nan = true →
      (Element.ofUint x).Less env (.ofUint y) = false ∧
      (Element.ofUint x).LessEq env (.ofUint y) = false ∧
      (Element.ofUint x).Greater env (.ofUint y) = false ∧
      (Element.ofUint x).GreaterEq env (.ofUint y) = false) := by
  refine ⟨?_, ?_, ?_⟩
  · intro a b h
    rcases h with h | h
    · cases a <;>
        simp_all [Element.IsValid, Element.Less, Element.LessEq, Element.Greater,
          Element.GreaterEq, IntElement.IsValid, IntElement.IsNaN, IntElement.Less,
          IntElement.LessEq, IntElement.Greater, IntElement.GreaterEq, uintElement.IsValid,
          uintElement.IsNaN, uintElement.Less, uintElement.LessEq, uintElement.Greater,
          uintElement.GreaterEq, stringElement.IsValid, stringElement.Less,
          stringElement.LessEq, stringElement.Greater, stringElement.GreaterEq,
          floatElement.IsValid, floatElement.Less, floatElement.LessEq,
          floatElement.Greater, floatElement.GreaterEq, boolElement.IsValid,
          boolElement.Less, boolElement.LessEq, boolElement.Greater, boolElement.GreaterEq]
    · have hn := Element.isNaN_of_not_valid env b h
      cases a <;>
        simp_all [Element.Less, Element.LessEq, Element.Greater,
          Element.GreaterEq, IntElement.Less,
          IntElement.LessEq, IntElement.Greater, IntElement.GreaterEq,
          uintElement.Less, uintElement.LessEq, uintElement.Greater,
          uintElement.GreaterEq, stringElement.Less,
          stringElement.LessEq, stringElement.Greater, stringElement.GreaterEq,
          floatElement.Less, floatElement.LessEq,
          floatElement.Greater, floatElement.GreaterEq,
          boolElement.Less, boolElement.LessEq, boolElement.Greater, boolElement.GreaterEq]
  · intro x y h
    rcases h with h | h <;>
      simp [Element.Less, Element.LessEq, Element.Greater, Element.GreaterEq,
        Element.IsNaN, IntElement.IsNaN, IntElement.Less, IntElement.LessEq,
        IntElement.Greater, IntElement.GreaterEq, h]
  · intro x y h
    rcases h with h | h <;>
      simp [Element.Less, Element.LessEq, Element.Greater, Element.GreaterEq,
        Element.IsNaN, uintElement.IsNaN, uintElement.Less, uintElement.LessEq,
        uintElement.Greater, uintElement.GreaterEq, h]

/-- C6 on examples: a Null Float receiver, and an Int receiver in the NaN state. -/
theorem C6_incomparable_false_witness :
    ((Element.ofFloat ⟨F64.one, false⟩).Less sampleEnv (.ofFloat ⟨F64.zero, false⟩) = false ∧
      (Element.ofFloat ⟨F64.one, false⟩).LessEq sampleEnv (.ofFloat ⟨F64.zero, false⟩) = false ∧
      (Element.ofFloat ⟨F64.one, false⟩).Greater sampleEnv (.ofFloat ⟨F64.zero, false⟩) = false ∧
      (Element.ofFloat ⟨F64.one, false⟩).GreaterEq sampleEnv (.ofFloat ⟨F64.zero, false⟩)
        = false) ∧
    ((Element.ofInt ⟨1, true, true⟩).Less sampleEnv (.ofInt ⟨2, true, false⟩) = false ∧
      (Element.ofInt ⟨1, true, true⟩).LessEq sampleEnv (.ofInt ⟨2, true, false⟩) = false ∧
      (Element.ofInt ⟨1, true, true⟩).Greater sampleEnv (.ofInt ⟨2, true, false⟩) = false ∧
      (Element.ofInt ⟨1, true, true⟩).GreaterEq sampleEnv (.ofInt ⟨2, true, false⟩) = false) :=
  ⟨(C6_incomparable_false sampleEnv).1 _ _ (Or.inl rfl),
   (C6_incomparable_false sampleEnv).2.1 _ _ (Or.inl rfl)⟩

/-- C4 (the code departs from the claim): a NaN row of an Int Series keeps the payload it
had before, `0` for a fresh element, and `IntElement.Eq` compares that payload without
looking at the `nan` flag of the receiver.  So `Ints(["", "2", "1", "5", "NaN"]).Compare(Eq, 0)`
is true at the NaN row, and `NaN.Eq(0)` is true. -/
theorem C4_nan_row_compares_equal :
    (Ints sampleEnv (.strings ["", "2", "1", "5", "NaN"])).Compare sampleEnv .Eq
        (.scalar (.int 0))
      = Bools sampleEnv (.bools [false, false, false, false, true]) ∧
    (Ints sampleEnv (.strings ["", "2", "1", "5", "NaN"])).elements.Elem 4
      = some (.ofInt ⟨0, true, true⟩) ∧
    (Element.ofInt ⟨0, true, true⟩).NaNState = true ∧
    (Element.ofInt ⟨0, true, true⟩).Eq sampleEnv (.ofInt ⟨0, true, false⟩) = true := by
  decide

/-! ## Subset -/

theorem index_map {α β : Type} (f : α → β) (l : List α) (i : Int) :
    index (l.map f) i = (index l i).map f := by
  unfold index
  split <;> simp

theorem index_natCast {α : Type} (l : List α) (k : Nat) : index l (k : Int) = l[k]? := by
  unfold index
  simp

theorem index_isSome {α : Type} (l : List α) (i : Int) (h0 : 0 ≤ i) (h1 : i < l.length) :
    ∃ x, index l i = some x := by
  unfold index
  have h2 : i.toNat < l.length := by omega
  rw [if_neg (by omega)]
  exact ⟨l[i.toNat], by simp [h2]⟩

theorem subsetLoop_spec {α : Type} (l : List α) (idx : List Int)
    (h : ∀ i ∈ idx, 0 ≤ i ∧ i < l.length) :
    ∃ r, subsetLoop (some l) idx = some r ∧ r.length = idx.length ∧
      ∀ k (hk : k < idx.length), ∃ x, index r (k : Int) = some x ∧
        index l idx[k] = some x := by
  induction idx with
  | nil => exact ⟨[], rfl, rfl, fun k hk => absurd hk (by simp)⟩
  | cons i rest ih =>
    obtain ⟨r, hr, hlen, hget⟩ := ih (fun j hj => h j (List.mem_cons_of_mem _ hj))
    obtain ⟨x, hx⟩ := index_isSome l i (h i (List.mem_cons_self _ _)).1
      (h i (List.mem_cons_self _ _)).2
    refine ⟨x :: r, by simp [subsetLoop, hx, hr], by simp [hlen], ?_⟩
    intro k hk
    cases k with
    | zero => exact ⟨x, by simp [index], by simpa using hx⟩
    | succ k =>
      have hk2 : k < rest.length := by simpa using hk
      obtain ⟨y, hy1, hy2⟩ := hget k hk2
      refine ⟨y, ?_, by simpa using hy2⟩
      rw [index_natCast] at hy1 ⊢
      simpa using hy1

/-- C7: on an error-free Series whose storage has the Series type, `Subset` by an integer
list with all entries in `[0, Len)` returns (no panic) an error-free Series with the same
name and type, of length `len(idx)`, whose `k`-th element is the element of `s` at
position `idx[k]`.  `Subset` only reads `s`: it writes to a freshly made slice, which is
why the embedding is a function of `s` that returns the new Series. -/
theorem C7_subset_in_range (env : Env) (s : Series) (idx : List Int)
    (hErr : s.Err = none) (hWF : s.elements.Type_ = s.t)
    (hIdx : ∀ i ∈ idx, 0 ≤ i ∧ i < s.Len) :
    ∃ r, s.Subset env (.ints idx) = some r ∧ r.Err = none ∧ r.Name = s.Name ∧
      r.t = s.t ∧ r.elements.Type_ = s.t ∧ r.Len = idx.length ∧
      ∀ k (hk : k < idx.length), ∃ e, r.elements.Elem (k : Int) = some e ∧
        s.elements.Elem idx[k] = some e := by
  obtain ⟨name, els, dv, t, err⟩ := s
  simp only at hErr hWF
  subst hErr
  cases els with
  | intElements l =>
    simp only [Elements.Type_] at hWF
    subst hWF
    have hIdx2 : ∀ i ∈ idx, 0 ≤ i ∧ i < l.length := by
      simpa [Series.Len, Elements.Len, Elements.toList] using hIdx
    obtain ⟨r, hr, hlen, hget⟩ := subsetLoop_spec l idx hIdx2
    refine ⟨⟨name, .intElements r, .nil, .Int, none⟩, ?_, rfl, rfl, rfl, rfl, ?_, ?_⟩
    · simp [Series.Subset, parseIndexes, Elements.asInt, hr]
    · simp [Series.Len, Elements.Len, Elements.toList, hlen]
    · intro k hk
      obtain ⟨x, hx1, hx2⟩ := hget k hk
      exact ⟨.ofInt x, by simp [Elements.Elem, Elements.toList, index_map, hx1],
        by simp [Elements.Elem, Elements.toList, index_map, hx2]⟩
  | uintElements l =>
    simp only [Elements.Type_] at hWF
    subst hWF
    have hIdx2 : ∀ i ∈ idx, 0 ≤ i ∧ i < l.length := by
      simpa [Series.Len, Elements.Len, Elements.toList] using hIdx
    obtain ⟨r, hr, hlen, hget⟩ := subsetLoop_spec l idx hIdx2
    refine ⟨⟨name, .uintElements r, .nil, .Uint, none⟩, ?_, rfl, rfl, rfl, rfl, ?_, ?_⟩
    · simp [Series.Subset, parseIndexes, Elements.asUint, hr]
    · simp [Series.Len, Elements.Len, Elements.toList, hlen]
    · intro k hk
      obtain ⟨x, hx1, hx2⟩ := hget k hk
      exact ⟨.ofUint x, by simp [Elements.Elem, Elements.toList, index_map, hx1],
        by simp [Elements.Elem, Elements.toList, index_map, hx2]⟩
  | stringElements l =>
    simp only [Elements.Type_] at hWF
    subst hWF
    have hIdx2 : ∀ i ∈ idx, 0 ≤ i ∧ i < l.length := by
      simpa [Series.Len, Elements.Len, Elements.toList] using hIdx
    obtain ⟨r, hr, hlen, hget⟩ := subsetLoop_spec l idx hIdx2
    refine ⟨⟨name, .stringElements r, .nil, .String, none⟩, ?_, rfl, rfl, rfl, rfl, ?_, ?_⟩
    · simp [Series.Subset, parseIndexes, Elements.asString, hr]
    · simp [Series.Len, Elements.Len, Elements.toList, hlen]
    · intro k hk
      obtain ⟨x, hx1, hx2⟩ := hget k hk
      exact ⟨.ofString x, by simp [Elements.Elem, Elements.toList, index_map, hx1],
        by simp [Elements.Elem, Elements.toList, index_map, hx2]⟩
  | floatElements l =>
    simp only [Elements.Type_] at hWF
    subst hWF
    have hIdx2 : ∀ i ∈ idx, 0 ≤ i ∧ i < l.length := by
      simpa [Series.Len, Elements.Len, Elements.toList] using hIdx
    obtain ⟨r, hr, hlen, hget⟩ := subsetLoop_spec l idx hIdx2
    refine ⟨⟨name, .floatElements r, .nil, .Float, none⟩, ?_, rfl, rfl, rfl, rfl, ?_, ?_⟩
    · simp [Series.Subset, parseIndexes, Elements.asFloat, hr]
    · simp [Series.Len, Elements.Len, Elements.toList, hlen]
    · intro k hk
      obtain ⟨x, hx1, hx2⟩ := hget k hk
      exact ⟨.ofFloat x, by simp [Elements.Elem, Elements.toList, index_map, hx1],
        by simp [Elements.Elem, Elements.toList, index_map, hx2]⟩
  | boolElements l =>
    simp only [Elements.Type_] at hWF
    subst hWF
    have hIdx2 : ∀ i ∈ idx, 0 ≤ i ∧ i < l.length := by
      simpa [Series.Len, Elements.Len, Elements.toList] using hIdx
    obtain ⟨r, hr, hlen, hget⟩ := subsetLoop_spec l idx hIdx2
    refine ⟨⟨name, .boolElements r, .nil, .Bool, none⟩, ?_, rfl, rfl, rfl, rfl, ?_, ?_⟩
    · simp [Series.Subset, parseIndexes, Elements.asBool, hr]
    · simp [Series.Len, Elements.Len, Elements.toList, hlen]
    · intro k hk
      obtain ⟨x, hx1, hx2⟩ := hget k hk
      exact ⟨.ofBool x, by simp [Elements.Elem, Elements.toList, index_map, hx1],
        by simp [Elements.Elem, Elements.toList, index_map, hx2]⟩

/-- C7 on the first row of `TestSeries_Subset`. -/
theorem C7_subset_in_range_witness :
    ∃ r, (Strings sampleEnv (.strings ["A", "B", "C", "K", "D"])).Subset sampleEnv
        (.ints [2, 1, 4, 4, 0, 3]) = some r ∧ r.Err = none ∧
      r.Name = (Strings sampleEnv (.strings ["A", "B", "C", "K", "D"])).Name ∧
      r.t = (Strings sampleEnv (.strings ["A", "B", "C", "K", "D"])).t ∧
      r.elements.Type_ = (Strings sampleEnv (.strings ["A", "B", "C", "K", "D"])).t ∧
      r.Len = [2, 1, 4, 4, 0, (3 : Int)].length ∧
      ∀ k (hk : k < [2, 1, 4, 4, 0, (3 : Int)].length), ∃ e,
        r.elements.Elem (k : Int) = some e ∧
        (Strings sampleEnv (.strings ["A", "B", "C", "K", "D"])).elements.Elem
          [2, 1, 4, 4, 0, (3 : Int)][k] = some e :=
  C7_subset_in_range sampleEnv (Strings sampleEnv (.strings ["A", "B", "C", "K", "D"]))
    [2, 1, 4, 4, 0, 3] (by decide) (by decide) (by decide)

theorem subsetLoop_out_of_range {α : Type} (l : List α) (idx : List Int)
    (h : ∃ i ∈ idx, i < 0 ∨ (l.length : Int) ≤ i) : subsetLoop (some l) idx = none := by
  induction idx with
  | nil => simp at h
  | cons i rest ih =>
    unfold subsetLoop
    simp only
    cases hi : index l i with
    | none => rfl
    | some x =>
      have hin : ¬ (i < 0 ∨ (l.length : Int) ≤ i) := by
        intro hc
        unfold index at hi
        split at hi
        · simp at hi
        · rw [List.getElem?_eq_none (by omega)] at hi
          simp at hi
      have hrest : ∃ j ∈ rest, j < 0 ∨ (l.length : Int) ≤ j := by
        obtain ⟨j, hj, hjr⟩ := h
        rcases List.mem_cons.mp hj with rfl | hj2
        · exact absurd hjr hin
        · exact ⟨j, hj2, hjr⟩
      simp [ih hrest]

/-- C8 (the code departs from the claim): `Subset` of `Strings(["A", "B"])` by the `[]int` list `[2]` does not
return a Series carrying an error.  `parseIndexes` passes the list on unchecked and the
copying loop then indexes the element slice out of range, a run-time panic (`none`);
a negative entry does the same. -/
theorem C8_subset_out_of_range_panics :
    (Strings sampleEnv (.strings ["A", "B"])).Err = none ∧
    (Strings sampleEnv (.strings ["A", "B"])).Len = 2 ∧
    parseIndexes sampleEnv 2 (.ints [2]) = .ok [2] ∧
    (Strings sampleEnv (.strings ["A", "B"])).Subset sampleEnv (.ints [2]) = none ∧
    (Strings sampleEnv (.strings ["A", "B"])).Subset sampleEnv (.ints [0, -1]) = none :=
  ⟨by decide, by decide, rfl, by decide, by decide⟩

/-! ## Update -/

theorem Elements.SetElem_toList (env : Env) (es : Elements) (i : Nat) (value : Value) :
    (es.SetElem env i value).toList =
      match es.toList[i]? with
      | some e => es.toList.set i (e.Set env value).1
      | none => es.toList := by
  cases es with
  | intElements l =>
    simp only [Elements.SetElem, Elements.toList, List.getElem?_map]
    cases h : l[i]? <;> simp [Element.Set, List.map_set]
  | uintElements l =>
    simp only [Elements.SetElem, Elements.toList, List.getElem?_map]
    cases h : l[i]? <;> simp [Element.Set, List.map_set]
  | stringElements l =>
    simp only [Elements.SetElem, Elements.toList, List.getElem?_map]
    cases h : l[i]? <;> simp [Element.Set, List.map_set]
  | floatElements l =>
    simp only [Elements.SetElem, Elements.toList, List.getElem?_map]
    cases h : l[i]? <;> simp [Element.Set, List.map_set]
  | boolElements l =>
    simp only [Elements.SetElem, Elements.toList, List.getElem?_map]
    cases h : l[i]? <;> simp [Element.Set, List.map_set]

theorem Elements.SetElem_Type (env : Env) (es : Elements) (i : Nat) (value : Value) :
    (es.SetElem env i value).Type_ = es.Type_ := by
  cases es <;> rfl

theorem Elements.SetElem_Len (env : Env) (es : Elements) (i : Nat) (value : Value) :
    (es.SetElem env i value).Len = es.Len := by
  unfold Elements.Len
  rw [Elements.SetElem_toList]
  cases es.toList[i]? <;> simp

theorem Elements.SetElem_Elem_ne (env : Env) (es : Elements) (i : Nat) (value : Value)
    (j : Int) (h : j ≠ (i : Int)) : (es.SetElem env i value).Elem j = es.Elem j := by
  unfold Elements.Elem index
  rw [Elements.SetElem_toList]
  split
  · rfl
  · have hne : i ≠ j.toNat := by omega
    cases es.toList[i]? <;> simp [List.getElem?_set_ne hne]

theorem Elements.SetElem_Elem_eq (env : Env) (es : Elements) (i : Nat) (value : Value)
    (old : Element) (h : es.Elem (i : Int) = some old) :
    (es.SetElem env i value).Elem (i : Int) = some (old.Set env value).1 := by
  unfold Elements.Elem at h ⊢
  rw [index_natCast] at h ⊢
  rw [Elements.SetElem_toList, h]
  have hi : i < es.toList.length := by
    rcases Nat.lt_or_ge i es.toList.length with h1 | h1
    · exact h1
    · rw [List.getElem?_eq_none h1] at h
      simp at h
  simp [hi]

theorem Elements.Elem_isSome (es : Elements) (i : Int) (h0 : 0 ≤ i) (h1 : i < es.Len) :
    ∃ e, es.Elem i = some e :=
  index_isSome es.toList i h0 h1

theorem updateLoop.source_isSome (b : Backing) (nv es : Elements) (i : Int) (k : Nat)
    (hk : (k : Int) < nv.Len) : ∃ v, updateLoop.source b nv es i k = some v := by
  obtain ⟨v, hv⟩ := Elements.Elem_isSome nv k (by omega) hk
  cases b with
  | own => exact ⟨v, hv⟩
  | receiver =>
    cases hw : es.Elem (k : Int) with
    | none => exact ⟨v, by simp [updateLoop.source, hw, hv]⟩
    | some w =>
      by_cases hik : i = (k : Int)
      · exact ⟨w.entered, by simp [updateLoop.source, hw, hik]⟩
      · exact ⟨w, by simp [updateLoop.source, hw, hik]⟩

/-- The loop of `Update`: it returns, keeps type and length, records an error exactly when
some index is out of range, and touches only positions listed before the first such index. -/
theorem updateLoop_spec (env : Env) (b : Backing) (nv : Elements) (idx : List Int) :
    ∀ (es : Elements) (k : Nat), k + idx.length ≤ nv.Len →
      ∃ es1 err, updateLoop env b nv es idx k = some (es1, err) ∧
        es1.Type_ = es.Type_ ∧ es1.Len = es.Len ∧
        ((∀ i ∈ idx, 0 ≤ i ∧ i < es.Len) → err = none) ∧
        ((∃ i ∈ idx, i < 0 ∨ (es.Len : Int) ≤ i) → err.isSome = true) ∧
        (∀ j : Int, j ∉ idx.takeWhile (inRange es.Len) →
          es1.Elem j = es.Elem j) := by
  induction idx with
  | nil =>
    intro es k _
    exact ⟨es, none, rfl, rfl, rfl, fun _ => rfl, by simp, fun _ _ => rfl⟩
  | cons i rest ih =>
    intro es k hk
    by_cases hi : 0 ≤ i ∧ i < es.Len
    · have hk1 : (k : Int) < nv.Len := by
        simp only [List.length_cons] at hk
        omega
      obtain ⟨v, hv⟩ := updateLoop.source_isSome b nv es i k hk1
      have hk2 : (k + 1) + rest.length ≤ nv.Len := by
        simp only [List.length_cons] at hk
        omega
      obtain ⟨es1, err, h1, h2, h3, h4, h5, h6⟩ :=
        ih (es.SetElem env i.toNat (Value.Element v)) (k + 1) hk2
      simp only [Elements.SetElem_Len, Elements.SetElem_Type] at h2 h3 h4 h5 h6
      refine ⟨es1, err, ?_, h2, h3, ?_, ?_, ?_⟩
      · unfold updateLoop
        rw [if_neg (by omega), hv]
        exact h1
      · intro hall
        exact h4 fun j hj => hall j (List.mem_cons_of_mem _ hj)
      · rintro ⟨j, hj, hjr⟩
        rcases List.mem_cons.mp hj with rfl | hj2
        · omega
        · exact h5 ⟨j, hj2, hjr⟩
      · intro j hj
        rw [List.takeWhile_cons, if_pos (by simpa [inRange] using hi)] at hj
        have hji : j ≠ i := fun hc => hj (hc ▸ List.mem_cons_self _ _)
        have hjr : j ∉ rest.takeWhile (inRange es.Len) :=
          fun hc => hj (List.mem_cons_of_mem _ hc)
        rw [h6 j hjr]
        exact Elements.SetElem_Elem_ne env es i.toNat _ j (by omega)
    · refine ⟨es, some "set error: index out of range", ?_, rfl, rfl, ?_, fun _ => rfl,
        fun _ _ => rfl⟩
      · unfold updateLoop
        rw [if_pos (by omega)]
      · intro hall
        exact absurd (hall i (List.mem_cons_self _ _)) hi

theorem updateLoop_values (env : Env) (nv : Elements) (idx : List Int) :
    ∀ (es : Elements) (k : Nat), k + idx.length ≤ nv.Len →
      (∀ i ∈ idx, 0 ≤ i ∧ i < es.Len) → idx.Nodup →
      ∀ es1 err, updateLoop env .own nv es idx k = some (es1, err) →
      ∀ m (hm : m < idx.length), ∃ old v, es.Elem idx[m] = some old ∧
        nv.Elem ((k + m : Nat) : Int) = some v ∧
        es1.Elem idx[m] = some (old.Set env (Value.Element v)).1 := by
  induction idx with
  | nil => intro es k _ _ _ es1 err _ m hm; simp at hm
  | cons i rest ih =>
    intro es k hk hr hnd es1 err hloop m hm
    have hi := hr i (List.mem_cons_self _ _)
    have hk1 : (k : Int) < nv.Len := by
      simp only [List.length_cons] at hk
      omega
    obtain ⟨v, hv⟩ := Elements.Elem_isSome nv k (by omega) hk1
    have hk2 : (k + 1) + rest.length ≤ nv.Len := by
      simp only [List.length_cons] at hk
      omega
    obtain ⟨old, hold⟩ := Elements.Elem_isSome es i hi.1 hi.2
    have hitn : ((i.toNat : Nat) : Int) = i := by omega
    unfold updateLoop at hloop
    rw [if_neg (by omega), show updateLoop.source .own nv es i k = some v from hv] at hloop
    simp only at hloop
    have hr2 : ∀ j ∈ rest, 0 ≤ j ∧ j < (es.SetElem env i.toNat (Value.Element v)).Len := by
      intro j hj
      rw [Elements.SetElem_Len]
      exact hr j (List.mem_cons_of_mem _ hj)
    have hnd2 : rest.Nodup := (List.nodup_cons.mp hnd).2
    have hnotin : i ∉ rest := (List.nodup_cons.mp hnd).1
    cases m with
    | zero =>
      refine ⟨old, v, by simpa using hold, by simpa using hv, ?_⟩
      obtain ⟨es2, err2, h1, _, _, _, _, h6⟩ :=
        updateLoop_spec env .own nv rest (es.SetElem env i.toNat (Value.Element v)) (k + 1) hk2
      rw [h1] at hloop
      have hes : es2 = es1 := by
        have := Option.some.inj hloop
        exact congrArg Prod.fst this
      subst hes
      have hni : i ∉ rest.takeWhile
          (inRange (es.SetElem env i.toNat (Value.Element v)).Len) :=
        fun hc => hnotin (List.takeWhile_subset _ hc)
      simp only [List.getElem_cons_zero]
      rw [h6 i hni]
      have := Elements.SetElem_Elem_eq env es i.toNat (Value.Element v) old
        (by rw [hitn]; exact hold)
      rw [hitn] at this
      exact this
    | succ m =>
      have hm2 : m < rest.length := by simpa using hm
      obtain ⟨old2, v2, ho, hv2, hres⟩ :=
        ih (es.SetElem env i.toNat (Value.Element v)) (k + 1) hk2 hr2 hnd2 es1 err hloop m hm2
      have hne : rest[m] ≠ i := fun hc => hnotin (hc ▸ List.getElem_mem hm2)
      rw [Elements.SetElem_Elem_ne env es i.toNat _ rest[m] (by omega)] at ho
      refine ⟨old2, v2, by simpa using ho, ?_, by simpa using hres⟩
      have : k + 1 + m = k + (m + 1) := by omega
      rw [this] at hv2
      exact hv2

theorem Element.String_ok_of_valid (env : Env) (e : Element) (h : e.IsValid = true) :
    ∃ t, e.String env = .ok t := by
  cases e with
  | ofInt x =>
    simp only [Element.IsValid, IntElement.IsValid] at h
    simp only [Element.String, IntElement.String, h, if_true]
    split <;> exact ⟨_, rfl⟩
  | ofUint x =>
    simp only [Element.IsValid, uintElement.IsValid] at h
    simp only [Element.String, uintElement.String, h, if_true]
    split <;> exact ⟨_, rfl⟩
  | ofString x =>
    simp only [Element.IsValid] at h
    exact ⟨x.e, by simp [Element.String, stringElement.String, h]⟩
  | ofFloat x =>
    simp only [Element.IsValid] at h
    exact ⟨env.Sprintf_f x.e, by simp [Element.String, floatElement.String, h]⟩
  | ofBool x =>
    simp only [Element.IsValid, boolElement.IsValid] at h
    simp only [Element.String, boolElement.String, h]
    cases x.e <;> simp

theorem Elements.Elem_of_string (es : Elements) (h : es.Type_ = .String) (i : Int)
    (old : Element) (ho : es.Elem i = some old) : ∃ o, old = .ofString o := by
  cases es <;> simp only [Elements.Type_] at h <;> try cases h
  simp only [Elements.Elem, Elements.toList, index_map, Option.map_eq_some'] at ho
  obtain ⟨o, _, rfl⟩ := ho
  exact ⟨o, rfl⟩

/-- C9 (counterexample): `s.Update([]int{1, 2, 0}, s)` on `s = Strings(["A", "B", "C"])`.
The new values are the rows of `s` itself, read through pointers while the loop
overwrites them: row `1` receives `A`, then row `2` receives the new row `1`, then row
`0` the new row `2`.  The result is `[A A A]` without error, where the claim asks for
`[C A B]`: position `idx[1] = 2` holds `A`, and the text of row `1` of the argument was
`B`.  With the same argument in an array of its own (a copy) the result is `[C A B]`. -/
theorem C9_update_shared_storage :
    (Strings sampleEnv (.strings ["A", "B", "C"])).elements
      = .stringElements [⟨"A", true⟩, ⟨"B", true⟩, ⟨"C", true⟩] ∧
    (Strings sampleEnv (.strings ["A", "B", "C"])).Update sampleEnv (.ints [1, 2, 0])
        (Strings sampleEnv (.strings ["A", "B", "C"])) .receiver
      = some ⟨"", .stringElements [⟨"A", true⟩, ⟨"A", true⟩, ⟨"A", true⟩], .nil, .String,
          none⟩ ∧
    (Strings sampleEnv (.strings ["A", "B", "C"])).Update sampleEnv (.ints [1, 2, 0])
        (Strings sampleEnv (.strings ["A", "B", "C"])) .own
      = some ⟨"", .stringElements [⟨"C", true⟩, ⟨"A", true⟩, ⟨"B", true⟩], .nil, .String,
          none⟩ := by
  decide

/-- Rows that `Update` assigns from themselves, the argument being the receiver:
`s.Update([]int{0, 1, 2}, s)` on `s = Ints(["", "NaN", "3"])`.  `Set` first marks its
receiver Valid and not NaN and then reads the value, which is that same element, so the
Null row and the NaN row both become the Valid `0`.  With the argument in an array of
its own the three rows keep their states. -/
theorem Update_shared_rows :
    (Ints sampleEnv (.strings ["", "NaN", "3"])).elements.toList
      = [.ofInt ⟨0, false, false⟩, .ofInt ⟨0, true, true⟩, .ofInt ⟨3, true, false⟩] ∧
    ((Ints sampleEnv (.strings ["", "NaN", "3"])).Update sampleEnv (.ints [0, 1, 2])
        (Ints sampleEnv (.strings ["", "NaN", "3"])) .receiver).map
      (fun r => (r.Err, r.elements.toList))
      = some (none,
          [.ofInt ⟨0, true, false⟩, .ofInt ⟨0, true, false⟩, .ofInt ⟨3, true, false⟩]) ∧
    ((Ints sampleEnv (.strings ["", "NaN", "3"])).Update sampleEnv (.ints [0, 1, 2])
        (Ints sampleEnv (.strings ["", "NaN", "3"])) .own).map
      (fun r => (r.Err, r.elements.toList))
      = some (none,
          [.ofInt ⟨0, false, false⟩, .ofInt ⟨0, true, true⟩, .ofInt ⟨3, true, false⟩]) ∧
    ((Uints sampleEnv (.strings ["", "NaN", "3"])).Update sampleEnv (.ints [0, 1, 2])
        (Uints sampleEnv (.strings ["", "NaN", "3"])) .receiver).map
      (fun r => (r.Err, r.elements.toList))
      = some (none,
          [.ofUint ⟨0, true, false⟩, .ofUint ⟨0, true, true⟩, .ofUint ⟨3, true, false⟩]) := by
  decide

/-- C9 (amended): on an error-free String Series `s`, `Update` with pairwise distinct
in-range positions `idx` and an error-free Series `v` of `len(idx)` elements that is
stored in a backing array of its own (not the one of `s`) returns (no panic), without
error, a Series of the same length, name and type in which position `idx[k]` is Null
when `v[k]` is Null and otherwise holds the text `v[k].String()`, and every position not
in `idx` holds its previous element. -/
theorem C9_update_string (env : Env) (s v : Series) (idx : List Int)
    (hs : s.Err = none) (hv : v.Err = none) (hst : s.t = .String)
    (hWF : s.elements.Type_ = s.t) (hnd : idx.Nodup)
    (hr : ∀ i ∈ idx, 0 ≤ i ∧ i < s.Len) (hlen : idx.length = v.Len) :
    ∃ r, s.Update env (.ints idx) v .own = some r ∧ r.Err = none ∧ r.Len = s.Len ∧
      r.Name = s.Name ∧ r.t = s.t ∧ r.elements.Type_ = s.t ∧
      (∀ k (hk : k < idx.length), ∃ e x, v.elements.Elem (k : Int) = some e ∧
        r.elements.Elem idx[k] = some (.ofString x) ∧
        (e.IsValid = false → x.valid = false) ∧
        (e.IsValid = true → x.valid = true ∧ e.String env = .ok x.e)) ∧
      (∀ j : Int, j ∉ idx → r.elements.Elem j = s.elements.Elem j) := by
  have hk0 : 0 + idx.length ≤ v.elements.Len := by
    rw [hlen]
    simp [Series.Len]
  obtain ⟨es1, err, h1, h2, h3, h4, _, h6⟩ :=
    updateLoop_spec env .own v.elements idx s.elements 0 hk0
  have herr : err = none := h4 hr
  subst herr
  refine ⟨{ s with elements := es1, Err := none }, ?_, rfl, ?_, rfl, rfl, ?_, ?_, ?_⟩
  · simp [Series.Update, hs, hv, parseIndexes, hlen, h1]
  · simpa [Series.Len] using h3
  · simpa [hWF] using h2
  · intro k hk
    obtain ⟨old, e, ho, he, hres⟩ :=
      updateLoop_values env v.elements idx s.elements 0 hk0 hr hnd es1 none h1 k hk
    obtain ⟨o, rfl⟩ := Elements.Elem_of_string s.elements (hWF.trans hst) _ old ho
    simp only [Nat.zero_add] at he
    refine ⟨e, ((o.Set env (Value.Element e)).1), he, by simpa [Element.Set] using hres, ?_, ?_⟩
    · intro hinv
      simp [stringElement.Set, hinv]
    · intro hval
      obtain ⟨t, ht⟩ := Element.String_ok_of_valid env e hval
      simp [stringElement.Set, hval, ht]
  · intro j hj
    exact h6 j fun hc => hj (List.takeWhile_subset _ hc)

/-- C9 (amended) on a row of `TestSeries_Update`, with a Null among the new values. -/
theorem C9_update_string_witness :
    ∃ r, (Strings sampleEnv (.strings ["A", "B", "C", "K", "D"])).Update sampleEnv
        (.ints [1, 2, 4]) (Ints sampleEnv (.strings ["1", "", "3"])) .own = some r ∧
      r.Err = none ∧ r.Len = (Strings sampleEnv (.strings ["A", "B", "C", "K", "D"])).Len ∧
      r.Name = (Strings sampleEnv (.strings ["A", "B", "C", "K", "D"])).Name ∧
      r.t = (Strings sampleEnv (.strings ["A", "B", "C", "K", "D"])).t ∧
      r.elements.Type_ = (Strings sampleEnv (.strings ["A", "B", "C", "K", "D"])).t ∧
      (∀ k (hk : k < [1, 2, (4 : Int)].length), ∃ e x,
        (Ints sampleEnv (.strings ["1", "", "3"])).elements.Elem (k : Int) = some e ∧
        r.elements.Elem [1, 2, (4 : Int)][k] = some (.ofString x) ∧
        (e.IsValid = false → x.valid = false) ∧
        (e.IsValid = true → x.valid = true ∧ e.String sampleEnv = .ok x.e)) ∧
      (∀ j : Int, j ∉ [1, 2, (4 : Int)] →
        r.elements.Elem j
          = (Strings sampleEnv (.strings ["A", "B", "C", "K", "D"])).elements.Elem j) :=
  C9_update_string sampleEnv (Strings sampleEnv (.strings ["A", "B", "C", "K", "D"]))
    (Ints sampleEnv (.strings ["1", "", "3"])) [1, 2, 4] (by decide) (by decide) (by decide)
    (by decide) (by decide) (by decide) (by decide)

/-- C10 (counterexample): `Update` of `Strings(["A", "B"])` at the `[]int` list `[0, 5]` with `Strings(["X", "Y"])`
fails because index `5` is out of range, the two resolved indexes matching the two new
values; the returned Series carries the error, yet row `0` has already been overwritten
with `X`. -/
theorem C10_update_not_all_or_nothing :
    (Strings sampleEnv (.strings ["A", "B"])).elements
      = .stringElements [⟨"A", true⟩, ⟨"B", true⟩] ∧
    (Strings sampleEnv (.strings ["A", "B"])).Update sampleEnv (.ints [0, 5])
        (Strings sampleEnv (.strings ["X", "Y"])) .own
      = some ⟨"", .stringElements [⟨"X", true⟩, ⟨"B", true⟩], .nil, .String,
          some "set error: index out of range"⟩ := by
  decide

/-- C10 (amended): let `Update(indexes, newvalues)` be called on an error-free Series with
error-free `newvalues` and indexes that resolve to `idx`.  If `len(idx)` differs from
`newvalues.Len()`, the returned Series carries an error and has exactly the elements it
had before the call.  If the lengths agree and some entry of `idx` is out of range, the
returned Series carries an error, has the same length, and every position that is not
listed in `idx` before its first out-of-range entry holds its previous element. -/
theorem C10_update_failure (env : Env) (s v : Series) (indexes : Indexes) (idx : List Int)
    (b : Backing) (hs : s.Err = none) (hv : v.Err = none)
    (hp : parseIndexes env s.Len indexes = .ok idx) :
    (idx.length ≠ v.Len →
      ∃ r, s.Update env indexes v b = some r ∧ r.Err.isSome = true ∧
        r.elements = s.elements) ∧
    (idx.length = v.Len → (∃ i ∈ idx, i < 0 ∨ (s.Len : Int) ≤ i) →
      ∃ r, s.Update env indexes v b = some r ∧ r.Err.isSome = true ∧ r.Len = s.Len ∧
        ∀ j : Int, j ∉ idx.takeWhile (inRange s.Len) →
          r.elements.Elem j = s.elements.Elem j) := by
  constructor
  · intro hne
    exact ⟨{ s with Err := some "set error: dimensions mismatch" },
      by simp [Series.Update, hs, hv, hp, hne], rfl, rfl⟩
  · intro hlen hout
    have hk0 : 0 + idx.length ≤ v.elements.Len := by
      rw [hlen]
      simp [Series.Len]
    obtain ⟨es1, err, h1, _, h3, _, h5, h6⟩ :=
      updateLoop_spec env b v.elements idx s.elements 0 hk0
    exact ⟨{ s with elements := es1, Err := err },
      by simp [Series.Update, hs, hv, hp, hlen, h1], h5 hout, by simpa [Series.Len] using h3,
      h6⟩

/-- C10 (amended) on examples: one index for two values, and an index out of range. -/
theorem C10_update_failure_witness :
    (∃ r, (Strings sampleEnv (.strings ["A", "B"])).Update sampleEnv (.ints [0])
        (Strings sampleEnv (.strings ["X", "Y"])) .own = some r ∧ r.Err.isSome = true ∧
        r.elements = (Strings sampleEnv (.strings ["A", "B"])).elements) ∧
    (∃ r, (Strings sampleEnv (.strings ["A", "B"])).Update sampleEnv (.ints [0, 5])
        (Strings sampleEnv (.strings ["X", "Y"])) .own = some r ∧ r.Err.isSome = true ∧
        r.Len = (Strings sampleEnv (.strings ["A", "B"])).Len ∧
        ∀ j : Int, j ∉ [0, (5 : Int)].takeWhile
            (inRange (Strings sampleEnv (.strings ["A", "B"])).Len) →
          r.elements.Elem j = (Strings sampleEnv (.strings ["A", "B"])).elements.Elem j) :=
  ⟨(C10_update_failure sampleEnv (Strings sampleEnv (.strings ["A", "B"]))
      (Strings sampleEnv (.strings ["X", "Y"])) (.ints [0]) [0] .own (by decide) (by decide)
      rfl).1 (by decide),
   (C10_update_failure sampleEnv (Strings sampleEnv (.strings ["A", "B"]))
      (Strings sampleEnv (.strings ["X", "Y"])) (.ints [0, 5]) [0, 5] .own (by decide)
      (by decide)
      rfl).2 (by decide) (by decide)⟩

/-! ## Compare -/

theorem collect_ok {α β : Type} (f : α → Except error β) (g : α → β)
    (h : ∀ a, f a = .ok (g a)) (l : List α) : collect f l = .ok (l.map g) := by
  induction l with
  | nil => rfl
  | cons a rest ih => simp [collect, h, ih]

theorem padNil_neg_one (vals : List Value) : padNil vals (-1) = vals := by
  have h : (imax (vals.length : Int) (-1)).toNat - vals.length = 0 := by
    unfold imax
    split <;> omega
  simp [padNil, h]

theorem Bools_bools (env : Env) (bs : List Bool) :
    Bools env (.bools bs)
      = ⟨"", .boolElements (bs.map fun b => ⟨b, true⟩), .nil, .Bool, none⟩ := by
  simp [Bools, New, NewDefault, padNil_neg_one, setAll, boolElement.Set]

theorem Elements.toList_bool (l : List boolElement) :
    (Elements.boolElements l).toList = l.map Element.ofBool := rfl

/-- The comparison `compareElements` computes for a supported comparator. -/
theorem compareElements_ok (env : Env) (c : Comparator)
    (hc : c ∈ [Comparator.Eq, .Neq, .Greater, .GreaterEq, .Less, .LessEq]) :
    ∃ cmp : Element → Element → Bool, ∀ a b, compareElements env a b c = .ok (cmp a b) := by
  simp only [List.mem_cons, List.mem_singleton, List.not_mem_nil, or_false] at hc
  rcases hc with rfl | rfl | rfl | rfl | rfl | rfl
  · exact ⟨fun a b => a.Eq env b, fun _ _ => rfl⟩
  · exact ⟨fun a b => a.Neq env b, fun _ _ => rfl⟩
  · exact ⟨fun a b => a.Greater env b, fun _ _ => rfl⟩
  · exact ⟨fun a b => a.GreaterEq env b, fun _ _ => rfl⟩
  · exact ⟨fun a b => a.Less env b, fun _ _ => rfl⟩
  · exact ⟨fun a b => a.LessEq env b, fun _ _ => rfl⟩

theorem Compare.pairs_ok (env : Env) (c : Comparator) (cmp : Element → Element → Bool)
    (h : ∀ a b, compareElements env a b c = .ok (cmp a b)) :
    ∀ es ms : List Element, Compare.pairs env c es ms = .ok (List.zipWith cmp es ms) := by
  intro es
  induction es with
  | nil => intro ms; simp [Compare.pairs]
  | cons e es ih =>
    intro ms
    cases ms with
    | nil => simp [Compare.pairs]
    | cons m ms => simp [Compare.pairs, h, ih]

/-- With a comparison `cmp` that the closure of `Compare` computes for the comparator `c`:
the rows of the result for one coerced element, and for as many as the Series has. -/
theorem Compare.rows_of_cmp (env : Env) (s : Series) (c : Comparator) (x : Values)
    (cmp : Element → Element → Bool) (hs : s.Err = none) (hIn : c ≠ .In)
    (hcmp : ∀ a b, compareElements env a b c = .ok (cmp a b)) :
    (∀ m, (New env x s.t "" []).elements.toList = [m] →
      (s.Compare env c x).Err = none ∧ (s.Compare env c x).t = .Bool ∧
      (s.Compare env c x).elements.Type_ = .Bool ∧ (s.Compare env c x).Len = s.Len ∧
      ∀ (i : Nat) (e : Element), s.elements.Elem (i : Int) = some e →
        (s.Compare env c x).elements.Elem (i : Int) = some (.ofBool ⟨cmp e m, true⟩)) ∧
    (1 < (New env x s.t "" []).Len → (New env x s.t "" []).Len = s.Len →
      (s.Compare env c x).Err = none ∧ (s.Compare env c x).t = .Bool ∧
      (s.Compare env c x).elements.Type_ = .Bool ∧ (s.Compare env c x).Len = s.Len ∧
      ∀ (i : Nat) (e m : Element), s.elements.Elem (i : Int) = some e →
        (New env x s.t "" []).elements.Elem (i : Int) = some m →
        (s.Compare env c x).elements.Elem (i : Int) = some (.ofBool ⟨cmp e m, true⟩)) := by
  constructor
  · intro m hm
    have hC : s.Compare env c x
        = ⟨"", .boolElements ((s.elements.toList.map fun e => cmp e m).map fun b => ⟨b, true⟩),
            .nil, .Bool, none⟩ := by
      simp only [Series.Compare, hs, hIn, if_false, hm]
      rw [collect_ok _ (fun e => cmp e m) (fun e => hcmp e m)]
      exact Bools_bools env _
    rw [hC]
    refine ⟨rfl, rfl, rfl, by simp [Series.Len, Elements.Len, Elements.toList_bool], ?_⟩
    intro i e he
    simp only [Elements.Elem, index_natCast] at he ⊢
    simp [Elements.toList_bool, he]
  · intro h1 hlen
    have hC : s.Compare env c x
        = ⟨"", .boolElements ((List.zipWith cmp s.elements.toList
            (New env x s.t "" []).elements.toList).map fun b => ⟨b, true⟩),
            .nil, .Bool, none⟩ := by
      have hlen2 : ¬ (s.Len ≠ (New env x s.t "" []).Len) := by simp [hlen]
      simp only [Series.Compare, hs, hIn, if_false, hlen2]
      cases hms : (New env x s.t "" []).elements.toList with
      | nil => simp [Series.Len, Elements.Len, hms] at h1
      | cons m1 rest =>
        cases rest with
        | nil => simp [Series.Len, Elements.Len, hms] at h1
        | cons m2 rest =>
          simp only [Compare.pairs_ok env c cmp hcmp]
          exact Bools_bools env _
    rw [hC]
    have hl : (New env x s.t "" []).elements.toList.length = s.elements.toList.length := by
      simpa [Series.Len, Elements.Len] using hlen
    refine ⟨rfl, rfl, rfl, by simp [Series.Len, Elements.Len, Elements.toList_bool, hl], ?_⟩
    intro i e m he hm
    simp only [Elements.Elem, index_natCast] at he hm ⊢
    simp [Elements.toList_bool, List.getElem?_zipWith, he, hm]

/-- C3: on an error-free Series `s`, for a comparator among `Eq`, `Neq`, `Greater`,
`GreaterEq`, `Less`, `LessEq` and `comp` the comparando coerced to the type of `s`
(`New(comparando, s.t, "")`): if `comp` has exactly one element `m`, `Compare` is an
error-free Bool Series of length `s.Len()` whose entry `i` is the Valid Bool element
holding the element comparison of `s[i]` with `m`, that is `s[i].Eq(m)` for `Eq`,
`s[i].Neq(m)` for `Neq`, `s[i].Greater(m)` for `Greater`, `s[i].GreaterEq(m)` for
`GreaterEq`, `s[i].Less(m)` for `Less` and `s[i].LessEq(m)` for `LessEq`; if `comp` has
more than one element and as many as `s`, entry `i` is the same comparison of `s[i]`
with `comp[i]`. -/
theorem C3_compare_broadcast_pairwise (env : Env) (s : Series) (c : Comparator) (x : Values)
    (hs : s.Err = none)
    (hc : c ∈ [Comparator.Eq, .Neq, .Greater, .GreaterEq, .Less, .LessEq]) :
    (∀ m, (New env x s.t "" []).elements.toList = [m] →
      (s.Compare env c x).Err = none ∧ (s.Compare env c x).t = .Bool ∧
      (s.Compare env c x).elements.Type_ = .Bool ∧ (s.Compare env c x).Len = s.Len ∧
      ∀ (i : Nat) (e : Element), s.elements.Elem (i : Int) = some e →
        ∃ b, (s.Compare env c x).elements.Elem (i : Int) = some (.ofBool ⟨b, true⟩) ∧
          (c = .Eq → b = e.Eq env m) ∧ (c = .Neq → b = e.Neq env m) ∧
          (c = .Greater → b = e.Greater env m) ∧ (c = .GreaterEq → b = e.GreaterEq env m) ∧
          (c = .Less → b = e.Less env m) ∧ (c = .LessEq → b = e.LessEq env m)) ∧
    (1 < (New env x s.t "" []).Len → (New env x s.t "" []).Len = s.Len →
      (s.Compare env c x).Err = none ∧ (s.Compare env c x).t = .Bool ∧
      (s.Compare env c x).elements.Type_ = .Bool ∧ (s.Compare env c x).Len = s.Len ∧
      ∀ (i : Nat) (e m : Element), s.elements.Elem (i : Int) = some e →
        (New env x s.t "" []).elements.Elem (i : Int) = some m →
        ∃ b, (s.Compare env c x).elements.Elem (i : Int) = some (.ofBool ⟨b, true⟩) ∧
          (c = .Eq → b = e.Eq env m) ∧ (c = .Neq → b = e.Neq env m) ∧
          (c = .Greater → b = e.Greater env m) ∧ (c = .GreaterEq → b = e.GreaterEq env m) ∧
          (c = .Less → b = e.Less env m) ∧ (c = .LessEq → b = e.LessEq env m)) := by
  simp only [List.mem_cons, List.mem_singleton, List.not_mem_nil, or_false] at hc
  rcases hc with rfl | rfl | rfl | rfl | rfl | rfl
  · have h := Compare.rows_of_cmp env s .Eq x (fun a b => a.Eq env b) hs (by decide)
      (fun _ _ => rfl)
    exact ⟨fun m hm => ⟨(h.1 m hm).1, (h.1 m hm).2.1, (h.1 m hm).2.2.1, (h.1 m hm).2.2.2.1,
        fun i e he => ⟨_, (h.1 m hm).2.2.2.2 i e he, by simp⟩⟩,
      fun h1 hl => ⟨(h.2 h1 hl).1, (h.2 h1 hl).2.1, (h.2 h1 hl).2.2.1, (h.2 h1 hl).2.2.2.1,
        fun i e m he hm => ⟨_, (h.2 h1 hl).2.2.2.2 i e m he hm, by simp⟩⟩⟩
  · have h := Compare.rows_of_cmp env s .Neq x (fun a b => a.Neq env b) hs (by decide)
      (fun _ _ => rfl)
    exact ⟨fun m hm => ⟨(h.1 m hm).1, (h.1 m hm).2.1, (h.1 m hm).2.2.1, (h.1 m hm).2.2.2.1,
        fun i e he => ⟨_, (h.1 m hm).2.2.2.2 i e he, by simp⟩⟩,
      fun h1 hl => ⟨(h.2 h1 hl).1, (h.2 h1 hl).2.1, (h.2 h1 hl).2.2.1, (h.2 h1 hl).2.2.2.1,
        fun i e m he hm => ⟨_, (h.2 h1 hl).2.2.2.2 i e m he hm, by simp⟩⟩⟩
  · have h := Compare.rows_of_cmp env s .Greater x (fun a b => a.Greater env b) hs (by decide)
      (fun _ _ => rfl)
    exact ⟨fun m hm => ⟨(h.1 m hm).1, (h.1 m hm).2.1, (h.1 m hm).2.2.1, (h.1 m hm).2.2.2.1,
        fun i e he => ⟨_, (h.1 m hm).2.2.2.2 i e he, by simp⟩⟩,
      fun h1 hl => ⟨(h.2 h1 hl).1, (h.2 h1 hl).2.1, (h.2 h1 hl).2.2.1, (h.2 h1 hl).2.2.2.1,
        fun i e m he hm => ⟨_, (h.2 h1 hl).2.2.2.2 i e m he hm, by simp⟩⟩⟩
  · have h := Compare.rows_of_cmp env s .GreaterEq x (fun a b => a.GreaterEq env b) hs
      (by decide) (fun _ _ => rfl)
    exact ⟨fun m hm => ⟨(h.1 m hm).1, (h.1 m hm).2.1, (h.1 m hm).2.2.1, (h.1 m hm).2.2.2.1,
        fun i e he => ⟨_, (h.1 m hm).2.2.2.2 i e he, by simp⟩⟩,
      fun h1 hl => ⟨(h.2 h1 hl).1, (h.2 h1 hl).2.1, (h.2 h1 hl).2.2.1, (h.2 h1 hl).2.2.2.1,
        fun i e m he hm => ⟨_, (h.2 h1 hl).2.2.2.2 i e m he hm, by simp⟩⟩⟩
  · have h := Compare.rows_of_cmp env s .Less x (fun a b => a.Less env b) hs (by decide)
      (fun _ _ => rfl)
    exact ⟨fun m hm => ⟨(h.1 m hm).1, (h.1 m hm).2.1, (h.1 m hm).2.2.1, (h.1 m hm).2.2.2.1,
        fun i e he => ⟨_, (h.1 m hm).2.2.2.2 i e he, by simp⟩⟩,
      fun h1 hl => ⟨(h.2 h1 hl).1, (h.2 h1 hl).2.1, (h.2 h1 hl).2.2.1, (h.2 h1 hl).2.2.2.1,
        fun i e m he hm => ⟨_, (h.2 h1 hl).2.2.2.2 i e m he hm, by simp⟩⟩⟩
  · have h := Compare.rows_of_cmp env s .LessEq x (fun a b => a.LessEq env b) hs (by decide)
      (fun _ _ => rfl)
    exact ⟨fun m hm => ⟨(h.1 m hm).1, (h.1 m hm).2.1, (h.1 m hm).2.2.1, (h.1 m hm).2.2.2.1,
        fun i e he => ⟨_, (h.1 m hm).2.2.2.2 i e he, by simp⟩⟩,
      fun h1 hl => ⟨(h.2 h1 hl).1, (h.2 h1 hl).2.1, (h.2 h1 hl).2.2.1, (h.2 h1 hl).2.2.2.1,
        fun i e m he hm => ⟨_, (h.2 h1 hl).2.2.2.2 i e m he hm, by simp⟩⟩⟩
/-- C3 on examples: `Ints([1, 2, 3]).Compare(Greater, 2)` at row `2`, and
`Ints([1, 2, 3]).Compare(LessEq, []int{3, 2, 1})` at row `0`. -/
theorem C3_compare_broadcast_pairwise_witness :
    ((Ints sampleEnv (.ints [1, 2, 3])).Compare sampleEnv .Greater (.scalar (.int 2))).Err
      = none ∧
    ((Ints sampleEnv (.ints [1, 2, 3])).Compare sampleEnv .Greater (.scalar (.int 2))).Len
      = (Ints sampleEnv (.ints [1, 2, 3])).Len ∧
    (∃ b, ((Ints sampleEnv (.ints [1, 2, 3])).Compare sampleEnv .Greater
        (.scalar (.int 2))).elements.Elem ((2 : Nat) : Int) = some (.ofBool ⟨b, true⟩) ∧
      b = (Element.ofInt ⟨3, true, false⟩).Greater sampleEnv (.ofInt ⟨2, true, false⟩)) ∧
    ((Ints sampleEnv (.ints [1, 2, 3])).Compare sampleEnv .LessEq (.ints [3, 2, 1])).Err
      = none ∧
    (∃ b, ((Ints sampleEnv (.ints [1, 2, 3])).Compare sampleEnv .LessEq
        (.ints [3, 2, 1])).elements.Elem ((0 : Nat) : Int) = some (.ofBool ⟨b, true⟩) ∧
      b = (Element.ofInt ⟨1, true, false⟩).LessEq sampleEnv (.ofInt ⟨3, true, false⟩)) :=
  ⟨((C3_compare_broadcast_pairwise sampleEnv (Ints sampleEnv (.ints [1, 2, 3])) .Greater
      (.scalar (.int 2)) (by decide) (by decide)).1 (.ofInt ⟨2, true, false⟩) (by decide)).1,
   ((C3_compare_broadcast_pairwise sampleEnv (Ints sampleEnv (.ints [1, 2, 3])) .Greater
      (.scalar (.int 2)) (by decide) (by decide)).1 (.ofInt ⟨2, true, false⟩)
      (by decide)).2.2.2.1,
   (((C3_compare_broadcast_pairwise sampleEnv (Ints sampleEnv (.ints [1, 2, 3])) .Greater
      (.scalar (.int 2)) (by decide) (by decide)).1 (.ofInt ⟨2, true, false⟩)
      (by decide)).2.2.2.2 2 (.ofInt ⟨3, true, false⟩) (by decide)).elim
      fun b hb => ⟨b, hb.1, hb.2.2.2.1 rfl⟩,
   ((C3_compare_broadcast_pairwise sampleEnv (Ints sampleEnv (.ints [1, 2, 3])) .LessEq
      (.ints [3, 2, 1]) (by decide) (by decide)).2 (by decide) (by decide)).1,
   (((C3_compare_broadcast_pairwise sampleEnv (Ints sampleEnv (.ints [1, 2, 3])) .LessEq
      (.ints [3, 2, 1]) (by decide) (by decide)).2 (by decide) (by decide)).2.2.2.2 0
      (.ofInt ⟨1, true, false⟩) (.ofInt ⟨3, true, false⟩) (by decide) (by decide)).elim
      fun b hb => ⟨b, hb.1, hb.2.2.2.2.2.2 rfl⟩⟩

/-- Rows of the `TestSeries_Compare_*` tables on `Ints([0, 2, 1, 5, 9])`: each of the six
comparators against the scalar `"2"` and against `[]int{0, 2, 0, 5, 10}`, with the
results the tests expect. -/
theorem Compare_test_rows :
    (Ints sampleEnv (.ints [0, 2, 1, 5, 9])).Compare sampleEnv .Eq (.scalar (.string "2"))
      = Bools sampleEnv (.bools [false, true, false, false, false]) ∧
    (Ints sampleEnv (.ints [0, 2, 1, 5, 9])).Compare sampleEnv .Eq
        (.ints [0, 2, 0, 5, 10])
      = Bools sampleEnv (.bools [true, true, false, true, false]) ∧
    (Ints sampleEnv (.ints [0, 2, 1, 5, 9])).Compare sampleEnv .Neq (.scalar (.string "2"))
      = Bools sampleEnv (.bools [true, false, true, true, true]) ∧
    (Ints sampleEnv (.ints [0, 2, 1, 5, 9])).Compare sampleEnv .Neq
        (.ints [0, 2, 0, 5, 10])
      = Bools sampleEnv (.bools [false, false, true, false, true]) ∧
    (Ints sampleEnv (.ints [0, 2, 1, 5, 9])).Compare sampleEnv .Greater (.scalar (.string "2"))
      = Bools sampleEnv (.bools [false, false, false, true, true]) ∧
    (Ints sampleEnv (.ints [0, 2, 1, 5, 9])).Compare sampleEnv .Greater
        (.ints [0, 2, 0, 5, 10])
      = Bools sampleEnv (.bools [false, false, true, false, false]) ∧
    (Ints sampleEnv (.ints [0, 2, 1, 5, 9])).Compare sampleEnv .GreaterEq (.scalar (.string "2"))
      = Bools sampleEnv (.bools [false, true, false, true, true]) ∧
    (Ints sampleEnv (.ints [0, 2, 1, 5, 9])).Compare sampleEnv .GreaterEq
        (.ints [0, 2, 0, 5, 10])
      = Bools sampleEnv (.bools [true, true, true, true, false]) ∧
    (Ints sampleEnv (.ints [0, 2, 1, 5, 9])).Compare sampleEnv .Less (.scalar (.string "2"))
      = Bools sampleEnv (.bools [true, false, true, false, false]) ∧
    (Ints sampleEnv (.ints [0, 2, 1, 5, 9])).Compare sampleEnv .Less
        (.ints [0, 2, 0, 5, 10])
      = Bools sampleEnv (.bools [false, false, false, false, true]) ∧
    (Ints sampleEnv (.ints [0, 2, 1, 5, 9])).Compare sampleEnv .LessEq (.scalar (.string "2"))
      = Bools sampleEnv (.bools [true, true, true, false, false]) ∧
    (Ints sampleEnv (.ints [0, 2, 1, 5, 9])).Compare sampleEnv .LessEq
        (.ints [0, 2, 0, 5, 10])
      = Bools sampleEnv (.bools [true, true, false, true, true]) := by
  decide

/-! ## Sorting -/

theorem StrictWeakOn.mono {α : Type} {less : α → α → Bool} {l l1 : List α}
    (h : StrictWeakOn less l) (hsub : ∀ a ∈ l1, a ∈ l) : StrictWeakOn less l1 :=
  ⟨fun a ha => h.1 a (hsub a ha),
   fun a ha b hb c hc => h.2.1 a (hsub a ha) b (hsub b hb) c (hsub c hc),
   fun a ha b hb c hc => h.2.2 a (hsub a ha) b (hsub b hb) c (hsub c hc)⟩

/-- A comparison that reads off a key in a linear order is a strict weak ordering. -/
theorem strictWeakOn_of_key {α K : Type} [LinearOrder K] (less : α → α → Bool) (key : α → K)
    (l : List α) (h : ∀ a ∈ l, ∀ b ∈ l, less a b = decide (key a < key b)) :
    StrictWeakOn less l := by
  refine ⟨?_, ?_, ?_⟩
  · intro a ha
    simp [h a ha a ha]
  · intro a ha b hb c hc hab hbc
    rw [h a ha b hb] at hab
    rw [h b hb c hc] at hbc
    rw [h a ha c hc]
    simp only [decide_eq_true_eq] at hab hbc ⊢
    exact lt_trans hab hbc
  · intro a ha b hb c hc hab hbc
    rw [h a ha b hb] at hab
    rw [h b hb c hc] at hbc
    rw [h a ha c hc]
    simp only [decide_eq_false_iff_not, not_lt] at hab hbc ⊢
    exact le_trans hbc hab

theorem insertSorted_perm {α : Type} (less : α → α → Bool) (a : α) (l : List α) :
    (insertSorted less a l).Perm (a :: l) := by
  induction l with
  | nil => exact List.Perm.refl _
  | cons b l ih =>
    unfold insertSorted
    split
    · exact List.Perm.refl _
    · exact (List.Perm.cons b ih).trans (List.Perm.swap a b l)

theorem insertionSort_perm {α : Type} (less : α → α → Bool) (l : List α) :
    ∀ acc, (insertionSort less acc l).Perm (acc ++ l) := by
  induction l with
  | nil => intro acc; simp [insertionSort]
  | cons a l ih =>
    intro acc
    unfold insertionSort
    refine (ih _).trans ?_
    refine ((insertSorted_perm less a acc).append_right l).trans ?_
    simpa using (List.perm_middle : (acc ++ a :: l).Perm (a :: (acc ++ l))).symm

theorem insertSorted_sorted {α : Type} (less : α → α → Bool) (a : α) (l : List α)
    (hsw : StrictWeakOn less (a :: l))
    (hs : l.Pairwise fun x y => less y x = false) :
    (insertSorted less a l).Pairwise fun x y => less y x = false := by
  induction l with
  | nil => simp [insertSorted]
  | cons b l ih =>
    have ha : a ∈ a :: b :: l := List.mem_cons_self _ _
    have hb : b ∈ a :: b :: l := List.mem_cons_of_mem _ (List.mem_cons_self _ _)
    have hl : ∀ c ∈ l, c ∈ a :: b :: l :=
      fun c hc => List.mem_cons_of_mem _ (List.mem_cons_of_mem _ hc)
    obtain ⟨hbl, hsl⟩ := List.pairwise_cons.mp hs
    unfold insertSorted
    split
    · rename_i hab
      have hba : less b a = false := by
        cases hba : less b a
        · rfl
        · have := hsw.2.1 a ha b hb a ha hab hba
          rw [hsw.1 a ha] at this
          exact absurd this (by simp)
      refine List.pairwise_cons.mpr ⟨?_, hs⟩
      intro c hc
      rcases List.mem_cons.mp hc with rfl | hc2
      · exact hba
      · exact hsw.2.2 c (hl c hc2) b hb a ha (hbl c hc2) hba
    · rename_i hab
      have hab2 : less a b = false := by simpa using hab
      refine List.pairwise_cons.mpr ⟨?_, ?_⟩
      · intro c hc
        rcases List.mem_cons.mp ((insertSorted_perm less a l).subset hc) with rfl | hc2
        · exact hab2
        · exact hbl c hc2
      · refine ih (hsw.mono ?_) hsl
        intro c hc
        rcases List.mem_cons.mp hc with rfl | hc2
        · exact ha
        · exact hl c hc2

theorem insertionSort_sorted {α : Type} (less : α → α → Bool) (l : List α) :
    ∀ acc, StrictWeakOn less (acc ++ l) → (acc.Pairwise fun x y => less y x = false) →
      (insertionSort less acc l).Pairwise fun x y => less y x = false := by
  induction l with
  | nil => intro acc _ hs; simpa [insertionSort] using hs
  | cons a l ih =>
    intro acc hsw hs
    unfold insertionSort
    refine ih _ (hsw.mono ?_) (insertSorted_sorted less a acc (hsw.mono ?_) hs)
    · intro c hc
      rcases List.mem_append.mp hc with h1 | h1
      · rcases List.mem_cons.mp ((insertSorted_perm less a acc).subset h1) with rfl | h2
        · simp
        · simp [h2]
      · simp [h1]
    · intro c hc
      rcases List.mem_cons.mp hc with rfl | h2
      · simp
      · simp [h2]

/-- The sorting function of `sampleEnv` meets the contract of `sort.Sort`. -/
theorem sampleEnv_sortSpec : SortSpec sampleEnv.sortSort where
  perm := fun less l => by simpa [sampleEnv] using insertionSort_perm less l []
  sorted := fun less l hsw => by
    simpa [sampleEnv] using insertionSort_sorted less l [] (by simpa using hsw) List.Pairwise.nil

/-! ## Order -/

theorem strictWeakOn_of_key_rev {α K : Type} [LinearOrder K] (less : α → α → Bool)
    (key : α → K) (l : List α) (h : ∀ a ∈ l, ∀ b ∈ l, less a b = decide (key a < key b)) :
    StrictWeakOn (fun a b => less b a) l := by
  refine strictWeakOn_of_key (K := Kᵒᵈ) (fun a b => less b a)
    (fun a => OrderDual.toDual (key a)) l ?_
  intro a ha b hb
  simp [h b hb a ha]

theorem F64.lt_eq_key (a b : F64) (ha : a.IsNaN = false) (hb : b.IsNaN = false) :
    a.lt b = decide (a.key < b.key) := by
  simp [F64.lt, ha, hb]

/-- On rows of one type that are neither Null nor NaN, `Less` reads off a key in a linear
order: the payload (Int, Uint, Bool as 0 or 1), the position on the number line (Float),
or the text (String). -/
theorem Less_key (env : Env) (t : SeriesType) (l : List indexedElement)
    (h : ∀ x ∈ l, x.element.Type_ = t ∧ Order.isNA env t x.element = false) :
    (∃ key : indexedElement → Int, ∀ a ∈ l, ∀ b ∈ l,
      indexedElements.Less env a b = decide (key a < key b)) ∨
    (∃ key : indexedElement → String, ∀ a ∈ l, ∀ b ∈ l,
      indexedElements.Less env a b = decide (key a < key b)) := by
  cases t with
  | String =>
    right
    refine ⟨fun x => match x.element with
      | .ofString y => y.e
      | _ => "", ?_⟩
    intro a ha b hb
    obtain ⟨hta, hna⟩ := h a ha
    obtain ⟨htb, hnb⟩ := h b hb
    obtain ⟨ia, ea⟩ := a
    obtain ⟨ib, eb⟩ := b
    cases ea <;> simp only [Element.Type_] at hta <;> try cases hta
    cases eb <;> simp only [Element.Type_] at htb <;> try cases htb
    simp [Order.isNA, Element.IsValid, stringElement.IsValid] at hna hnb
    simp [indexedElements.Less, Element.Less, stringElement.Less, Element.IsValid,
      stringElement.IsValid, Element.String, stringElement.String, hna, hnb]
  | Int =>
    left
    refine ⟨fun x => match x.element with
      | .ofInt y => y.e
      | _ => 0, ?_⟩
    intro a ha b hb
    obtain ⟨hta, hna⟩ := h a ha
    obtain ⟨htb, hnb⟩ := h b hb
    obtain ⟨ia, ea⟩ := a
    obtain ⟨ib, eb⟩ := b
    cases ea <;> simp only [Element.Type_] at hta <;> try cases hta
    cases eb <;> simp only [Element.Type_] at htb <;> try cases htb
    simp [Order.isNA, Element.IsValid, IntElement.IsValid, Element.IsNaN,
      IntElement.IsNaN] at hna hnb
    simp [indexedElements.Less, Element.Less, IntElement.Less, Element.IsNaN,
      IntElement.IsNaN, Element.IsInf, IntElement.IsInf, Element.Int, IntElement.Int,
      hna, hnb]
  | Uint =>
    left
    refine ⟨fun x => match x.element with
      | .ofUint y => (y.e : Int)
      | _ => 0, ?_⟩
    intro a ha b hb
    obtain ⟨hta, hna⟩ := h a ha
    obtain ⟨htb, hnb⟩ := h b hb
    obtain ⟨ia, ea⟩ := a
    obtain ⟨ib, eb⟩ := b
    cases ea <;> simp only [Element.Type_] at hta <;> try cases hta
    cases eb <;> simp only [Element.Type_] at htb <;> try cases htb
    simp [Order.isNA, Element.IsValid, uintElement.IsValid, Element.IsNaN,
      uintElement.IsNaN] at hna hnb
    simp [indexedElements.Less, Element.Less, uintElement.Less, Element.IsNaN,
      uintElement.IsNaN, Element.IsInf, uintElement.IsInf, Element.Uint, uintElement.Uint,
      hna, hnb]
  | Float =>
    left
    refine ⟨fun x => match x.element with
      | .ofFloat y => y.e.key
      | _ => 0, ?_⟩
    intro a ha b hb
    obtain ⟨hta, hna⟩ := h a ha
    obtain ⟨htb, hnb⟩ := h b hb
    obtain ⟨ia, ea⟩ := a
    obtain ⟨ib, eb⟩ := b
    cases ea <;> simp only [Element.Type_] at hta <;> try cases hta
    cases eb <;> simp only [Element.Type_] at htb <;> try cases htb
    simp [Order.isNA, Element.IsValid, floatElement.IsValid, Element.IsNaN,
      floatElement.IsNaN] at hna hnb
    simp [indexedElements.Less, Element.Less, floatElement.Less, Element.IsNaN,
      floatElement.IsNaN, Element.IsValid, floatElement.IsValid, Element.Float,
      floatElement.Float, hna, hnb, F64.lt]
  | Bool =>
    left
    refine ⟨fun x => match x.element with
      | .ofBool y => if y.e then 1 else 0
      | _ => 0, ?_⟩
    intro a ha b hb
    obtain ⟨hta, hna⟩ := h a ha
    obtain ⟨htb, hnb⟩ := h b hb
    obtain ⟨ia, ea⟩ := a
    obtain ⟨ib, eb⟩ := b
    cases ea <;> simp only [Element.Type_] at hta <;> try cases hta
    cases eb <;> simp only [Element.Type_] at htb <;> try cases htb
    simp [Order.isNA, Element.IsValid, boolElement.IsValid] at hna hnb
    rename_i xa xb
    cases hxa : xa.e <;> cases hxb : xb.e <;>
      simp [indexedElements.Less, Element.Less, boolElement.Less, Element.IsNaN,
        boolElement.IsNaN, Element.IsValid, boolElement.IsValid, Element.Bool,
        boolElement.Bool, hna, hnb, hxa, hxb]

theorem Elements.toList_Type (es : Elements) : ∀ e ∈ es.toList, e.Type_ = es.Type_ := by
  intro e he
  cases es <;> simp only [Elements.toList, List.mem_map] at he <;>
    obtain ⟨x, _, rfl⟩ := he <;> rfl

/-- On an element of type `t`, the test of `Order` is: Null, or in the NaN state. -/
theorem Order.isNA_eq (env : Env) (t : SeriesType) (e : Element) (h : e.Type_ = t) :
    Order.isNA env t e = (e.Null || e.NaNState) := by
  subst h
  cases e with
  | ofInt x =>
    cases hv : x.valid <;>
      simp [Order.isNA, Element.Null, Element.NaNState, Element.IsValid, Element.Type_,
        IntElement.IsValid, Element.IsNaN, IntElement.IsNaN, hv]
  | ofUint x =>
    cases hv : x.valid <;>
      simp [Order.isNA, Element.Null, Element.NaNState, Element.IsValid, Element.Type_,
        uintElement.IsValid, Element.IsNaN, uintElement.IsNaN, hv]
  | ofString x =>
    cases hv : x.valid <;>
      simp [Order.isNA, Element.Null, Element.NaNState, Element.IsValid, Element.Type_,
        stringElement.IsValid, hv]
  | ofFloat x =>
    cases hv : x.valid <;>
      simp [Order.isNA, Element.Null, Element.NaNState, Element.IsValid, Element.Type_,
        floatElement.IsValid, Element.IsNaN, floatElement.IsNaN, hv]
  | ofBool x =>
    cases hv : x.valid <;>
      simp [Order.isNA, Element.Null, Element.NaNState, Element.IsValid, Element.Type_,
        boolElement.IsValid, hv]

/-- The two lists built by the first loop of `Order`. -/
theorem Order.split_spec (env : Env) (t : SeriesType) (es : List Element) :
    ∀ i0 : Nat,
      (∀ x ∈ (Order.split env t es i0).1, ∃ j : Nat, x.index = ((i0 + j : Nat) : Int) ∧
        es[j]? = some x.element ∧ Order.isNA env t x.element = false) ∧
      (Order.split env t es i0).2
        = ((List.range es.length).filter fun j =>
            match es[j]? with
            | some e => Order.isNA env t e
            | none => true).map fun j => ((i0 + j : Nat) : Int) := by
  induction es with
  | nil => intro i0; simp [Order.split]
  | cons e rest ih =>
    intro i0
    obtain ⟨ih1, ih2⟩ := ih (i0 + 1)
    have hshift : (List.map (fun j => ((i0 + 1 + j : Nat) : Int))
        (List.filter (fun j =>
            match rest[j]? with
            | some e => Order.isNA env t e
            | none => true) (List.range rest.length)))
        = List.map (fun j => ((i0 + j : Nat) : Int))
          (List.filter (fun j =>
            match (e :: rest)[j]? with
            | some e => Order.isNA env t e
            | none => true) (List.map Nat.succ (List.range rest.length))) := by
      have hf : ((fun j => ((i0 + j : Nat) : Int)) ∘ Nat.succ)
          = fun j => ((i0 + 1 + j : Nat) : Int) := by
        funext j
        simp only [Function.comp]
        congr 1
        omega
      have hp : ((fun j =>
            match (e :: rest)[j]? with
            | some e => Order.isNA env t e
            | none => true) ∘ Nat.succ)
          = fun j =>
            match rest[j]? with
            | some e => Order.isNA env t e
            | none => true := by
        funext j
        simp [Function.comp]
      rw [List.filter_map, List.map_map, hf, hp]
    constructor
    · intro x hx
      unfold Order.split at hx
      simp only at hx
      split at hx
      · obtain ⟨j, h1, h2, h3⟩ := ih1 x hx
        exact ⟨j + 1, by rw [h1]; congr 1; omega, by simpa using h2, h3⟩
      · rename_i hna
        rcases List.mem_cons.mp hx with rfl | hx2
        · exact ⟨0, by simp, by simp, by simpa using hna⟩
        · obtain ⟨j, h1, h2, h3⟩ := ih1 x hx2
          exact ⟨j + 1, by rw [h1]; congr 1; omega, by simpa using h2, h3⟩
    · unfold Order.split
      simp only
      rw [List.length_cons, List.range_succ_eq_map, List.filter_cons]
      split
      · rename_i hna
        simp only [List.getElem?_cons_zero, hna, if_true, List.map_cons, Nat.add_zero]
        rw [ih2, hshift]
      · rename_i hna
        simp only [List.getElem?_cons_zero, hna, Bool.false_eq_true, if_false]
        rw [ih2, hshift]

theorem takeWhile_eq_nil_of_all_false {α : Type} (p : α → Bool) (l : List α)
    (h : ∀ x ∈ l, p x = false) : l.takeWhile p = [] := by
  cases l with
  | nil => rfl
  | cons a l => simp [List.takeWhile_cons, h a (List.mem_cons_self _ _)]

/-- Rows kept for sorting by `Order`: each is a row of the Series, of the Series type,
and neither Null nor NaN. -/
theorem Order.split_rows (env : Env) (s : Series) (hWF : s.elements.Type_ = s.t) :
    ∀ x ∈ (Order.split env s.t s.elements.toList 0).1,
      s.elements.Elem x.index = some x.element ∧ x.element.Type_ = s.t ∧
      Order.isNA env s.t x.element = false ∧ s.rowNA x.index = false := by
  intro x hx
  obtain ⟨j, h1, h2, h3⟩ := (Order.split_spec env s.t s.elements.toList 0).1 x hx
  have hj : x.index = (j : Int) := by simpa using h1
  have hmem : x.element ∈ s.elements.toList := List.getElem?_mem h2
  have hty : x.element.Type_ = s.t := (Elements.toList_Type _ _ hmem).trans hWF
  have hE : s.elements.Elem x.index = some x.element := by
    rw [hj, Elements.Elem, index_natCast]
    exact h2
  refine ⟨hE, hty, h3, ?_⟩
  rw [Series.rowNA, hE]
  simp only
  rw [← Order.isNA_eq env s.t x.element hty]
  exact h3

/-- The rows set aside by `Order` are the Null and NaN rows, in increasing row order. -/
theorem Order.split_nas (env : Env) (s : Series) (hWF : s.elements.Type_ = s.t) :
    (Order.split env s.t s.elements.toList 0).2 = s.naRows := by
  rw [(Order.split_spec env s.t s.elements.toList 0).2]
  unfold Series.naRows Series.Len Elements.Len
  have hf : (fun j : Nat => ((0 + j : Nat) : Int)) = fun j : Nat => (j : Int) := by
    funext j
    simp
  rw [hf]
  have hfilt : (List.range s.elements.toList.length).filter (fun j =>
        match s.elements.toList[j]? with
        | some e => Order.isNA env s.t e
        | none => true)
      = (List.range s.elements.toList.length).filter (fun j : ℕ => s.rowNA (j : ℤ)) := by
    apply List.filter_congr
    intro j _
    rw [Series.rowNA, Elements.Elem, index_natCast]
    cases hj : s.elements.toList[j]? with
    | none => rfl
    | some e =>
      simp only
      exact Order.isNA_eq env s.t e
        ((Elements.toList_Type _ _ (List.getElem?_mem hj)).trans hWF)
  rw [hfilt]

theorem naRows_mem (s : Series) (i : Int) :
    i ∈ s.naRows ↔ (0 ≤ i ∧ i < s.Len ∧ s.rowNA i = true) := by
  unfold Series.naRows
  simp only [List.mem_map, List.mem_filter, List.mem_range]
  constructor
  · rintro ⟨j, ⟨hj, hna⟩, rfl⟩
    exact ⟨by omega, by omega, hna⟩
  · rintro ⟨h0, h1, hna⟩
    refine ⟨i.toNat, ⟨by omega, ?_⟩, by omega⟩
    have : ((i.toNat : Nat) : Int) = i := by omega
    rw [this]
    exact hna

theorem naRows_increasing (s : Series) : s.naRows.Pairwise (· < ·) := by
  unfold Series.naRows
  have h1 : (List.range s.Len).Pairwise (· < ·) := List.pairwise_lt_range _
  have h2 := h1.filter (fun i : ℕ => s.rowNA (i : ℤ))
  rw [List.pairwise_map]
  refine h2.imp ?_
  intro a b hab
  omega

/-- The comparison handed to `sort.Sort` by `Order` is a strict weak ordering of the rows
being sorted. -/
theorem Order.less_strictWeak (env : Env) (s : Series) (hWF : s.elements.Type_ = s.t)
    (reverse : Bool) :
    StrictWeakOn
      (if reverse then fun a b => indexedElements.Less env b a
        else fun a b => indexedElements.Less env a b)
      (Order.split env s.t s.elements.toList 0).1 := by
  have hrows := Order.split_rows env s hWF
  have hkey := Less_key env s.t (Order.split env s.t s.elements.toList 0).1
    (fun x hx => ⟨(hrows x hx).2.1, (hrows x hx).2.2.1⟩)
  cases reverse with
  | false =>
    simp only [Bool.false_eq_true, if_false]
    rcases hkey with ⟨key, hk⟩ | ⟨key, hk⟩
    · exact strictWeakOn_of_key _ key _ hk
    · exact strictWeakOn_of_key _ key _ (fun a ha b hb => by
        rw [hk a ha b hb]
        exact decide_eq_decide.mpr Iff.rfl)
  | true =>
    simp only [if_true]
    rcases hkey with ⟨key, hk⟩ | ⟨key, hk⟩
    · exact strictWeakOn_of_key_rev _ key _ hk
    · exact strictWeakOn_of_key_rev _ key _ (fun a ha b hb => by
        rw [hk a ha b hb]
        exact decide_eq_decide.mpr Iff.rfl)

/-- C2: the Null rows (any type) and the NaN rows (Int, Uint, Float) are exactly the
trailing entries of `Order(reverse)`, in increasing row order, and this tail is the same
list `naRows` for `reverse = false` and `reverse = true`: each result is a list of rows
that are neither Null nor NaN followed by `naRows`, which lists every Null or NaN row
once, in strictly increasing order. -/
theorem C2_order_tail (env : Env) (hsort : SortSpec env.sortSort) (s : Series)
    (hWF : s.elements.Type_ = s.t) :
    (∃ p, s.Order env false = p ++ s.naRows ∧ ∀ i ∈ p, s.rowNA i = false) ∧
    (∃ q, s.Order env true = q ++ s.naRows ∧ ∀ i ∈ q, s.rowNA i = false) ∧
    (∀ i : Int, i ∈ s.naRows ↔ (0 ≤ i ∧ i < s.Len ∧ s.rowNA i = true)) ∧
    s.naRows.Pairwise (· < ·) := by
  have hrows := Order.split_rows env s hWF
  have hnas := Order.split_nas env s hWF
  refine ⟨?_, ?_, naRows_mem s, naRows_increasing s⟩
  · refine ⟨_, by simp only [Series.Order]; rw [hnas], ?_⟩
    intro i hi
    obtain ⟨x, hx, rfl⟩ := List.mem_map.mp hi
    exact (hrows x ((hsort.perm _ _).subset hx)).2.2.2
  · refine ⟨_, by simp only [Series.Order]; rw [hnas], ?_⟩
    intro i hi
    obtain ⟨x, hx, rfl⟩ := List.mem_map.mp hi
    exact (hrows x ((hsort.perm _ _).subset hx)).2.2.2

/-- C1: let `p` be the leading part of `Order(reverse)` made of the rows that are neither
Null nor (for Int, Uint, Float) NaN.  For `reverse = false` no row of `p` is `Less` than
a row placed before it; for `reverse = true` no row of `p` is `Less` than a row placed
after it.  `sort.Sort` is taken with its documented contract `SortSpec`. -/
theorem C1_order_sorted (env : Env) (hsort : SortSpec env.sortSort) (s : Series)
    (hWF : s.elements.Type_ = s.t) :
    (((s.Order env false).takeWhile fun i => !s.rowNA i).Pairwise
      fun i j => s.rowLess env j i = false) ∧
    (((s.Order env true).takeWhile fun i => !s.rowNA i).Pairwise
      fun i j => s.rowLess env i j = false) := by
  have hrows := Order.split_rows env s hWF
  have hnas := Order.split_nas env s hWF
  have htake : ∀ less : indexedElement → indexedElement → Bool,
      ((env.sortSort less (Order.split env s.t s.elements.toList 0).1).map
          (fun e => e.index) ++ (Order.split env s.t s.elements.toList 0).2).takeWhile
          (fun i => !s.rowNA i)
        = (env.sortSort less (Order.split env s.t s.elements.toList 0).1).map
          (fun e => e.index) := by
    intro less
    rw [List.takeWhile_append_of_pos, takeWhile_eq_nil_of_all_false, List.append_nil]
    · intro i hi
      rw [hnas] at hi
      simp [((naRows_mem s i).mp hi).2.2]
    · intro i hi
      obtain ⟨x, hx, rfl⟩ := List.mem_map.mp hi
      simp [(hrows x ((hsort.perm _ _).subset hx)).2.2.2]
  have hless : ∀ a ∈ (Order.split env s.t s.elements.toList 0).1,
      ∀ b ∈ (Order.split env s.t s.elements.toList 0).1,
      s.rowLess env a.index b.index = indexedElements.Less env a b := by
    intro a ha b hb
    simp [Series.rowLess, (hrows a ha).1, (hrows b hb).1, indexedElements.Less]
  constructor
  · have hsw := Order.less_strictWeak env s hWF false
    simp only [Bool.false_eq_true, if_false] at hsw
    simp only [Series.Order, Bool.false_eq_true, if_false]
    rw [htake, List.pairwise_map]
    refine List.Pairwise.imp_of_mem ?_ (hsort.sorted _ _ hsw)
    intro a b ha hb hab
    rw [hless b ((hsort.perm _ _).subset hb) a ((hsort.perm _ _).subset ha)]
    exact hab
  · have hsw := Order.less_strictWeak env s hWF true
    simp only [if_true] at hsw
    simp only [Series.Order, if_true]
    rw [htake, List.pairwise_map]
    refine List.Pairwise.imp_of_mem ?_ (hsort.sorted _ _ hsw)
    intro a b ha hb hab
    rw [hless a ((hsort.perm _ _).subset ha) b ((hsort.perm _ _).subset hb)]
    exact hab

/-- C2 on the first row of `TestSeries_Order`, with insertion sort as `sort.Sort`. -/
theorem C2_order_tail_witness :
    (∃ p, (Ints sampleEnv (.strings ["2", "1", "3", "NaN", "4", ""])).Order sampleEnv false
        = p ++ (Ints sampleEnv (.strings ["2", "1", "3", "NaN", "4", ""])).naRows ∧
      ∀ i ∈ p, (Ints sampleEnv (.strings ["2", "1", "3", "NaN", "4", ""])).rowNA i = false) ∧
    (∃ q, (Ints sampleEnv (.strings ["2", "1", "3", "NaN", "4", ""])).Order sampleEnv true
        = q ++ (Ints sampleEnv (.strings ["2", "1", "3", "NaN", "4", ""])).naRows ∧
      ∀ i ∈ q, (Ints sampleEnv (.strings ["2", "1", "3", "NaN", "4", ""])).rowNA i = false) ∧
    (∀ i : Int, i ∈ (Ints sampleEnv (.strings ["2", "1", "3", "NaN", "4", ""])).naRows ↔
      (0 ≤ i ∧ i < (Ints sampleEnv (.strings ["2", "1", "3", "NaN", "4", ""])).Len ∧
        (Ints sampleEnv (.strings ["2", "1", "3", "NaN", "4", ""])).rowNA i = true)) ∧
    (Ints sampleEnv (.strings ["2", "1", "3", "NaN", "4", ""])).naRows.Pairwise (· < ·) :=
  C2_order_tail sampleEnv sampleEnv_sortSpec
    (Ints sampleEnv (.strings ["2", "1", "3", "NaN", "4", ""])) (by decide)

/-- C1 on the first row of `TestSeries_Order`, with insertion sort as `sort.Sort`. -/
theorem C1_order_sorted_witness :
    ((((Ints sampleEnv (.strings ["2", "1", "3", "NaN", "4", ""])).Order sampleEnv
        false).takeWhile
        fun i => !(Ints sampleEnv (.strings ["2", "1", "3", "NaN", "4", ""])).rowNA i).Pairwise
      fun i j =>
        (Ints sampleEnv (.strings ["2", "1", "3", "NaN", "4", ""])).rowLess sampleEnv j i
          = false) ∧
    ((((Ints sampleEnv (.strings ["2", "1", "3", "NaN", "4", ""])).Order sampleEnv
        true).takeWhile
        fun i => !(Ints sampleEnv (.strings ["2", "1", "3", "NaN", "4", ""])).rowNA i).Pairwise
      fun i j =>
        (Ints sampleEnv (.strings ["2", "1", "3", "NaN", "4", ""])).rowLess sampleEnv i j
          = false) :=
  C1_order_sorted sampleEnv sampleEnv_sortSpec
    (Ints sampleEnv (.strings ["2", "1", "3", "NaN", "4", ""])) (by decide)

/-- The repository test rows of `TestSeries_Order`, evaluated with insertion sort. -/
theorem Order_test_rows :
    (Ints sampleEnv (.strings ["2", "1", "3", "NaN", "4", ""])).Order sampleEnv false
      = [1, 0, 2, 4, 3, 5] ∧
    (Ints sampleEnv (.strings ["2", "1", "3", "NaN", "4", ""])).Order sampleEnv true
      = [4, 2, 0, 1, 3, 5] ∧
    (Ints sampleEnv (.strings ["2", "1", "3", "NaN", "4", ""])).naRows = [3, 5] ∧
    (Bools sampleEnv (.bools [true, false, false, false, true])).Order sampleEnv true
      = [0, 4, 1, 2, 3] := by
  decide

/-! ## Coercion by `Set` and conversions -/

theorem Element.IsValid_ofInt (x : IntElement) : (Element.ofInt x).IsValid = x.valid := rfl

theorem Element.IsValid_ofUint (x : uintElement) : (Element.ofUint x).IsValid = x.valid := rfl

theorem Element.IsValid_ofString (x : stringElement) :
    (Element.ofString x).IsValid = x.valid := rfl

theorem Element.IsValid_ofFloat (x : floatElement) :
    (Element.ofFloat x).IsValid = x.valid := rfl

theorem Element.IsValid_ofBool (x : boolElement) : (Element.ofBool x).IsValid = x.valid := rfl

/-- C14: a fresh Int element set from the string `t` is Null without error for the empty
string, in the NaN state without error for `NaN`, Valid with payload `v` without error
when `strconv.ParseInt(t, 10, 64)` gives `v`, and otherwise in the NaN state (still
`IsValid`) with the parse error returned.  The same holds for a fresh Uint element with
`strconv.ParseUint`. -/
theorem C14_set_from_string (env : Env) (t : String) :
    ((t = "" → IntElement.Set env ⟨0, false, false⟩ (.string t) = (⟨0, false, false⟩, none)) ∧
     (t = "NaN" → IntElement.Set env ⟨0, false, false⟩ (.string t) = (⟨0, true, true⟩, none)) ∧
     (t ≠ "" → t ≠ "NaN" → ∀ v, env.ParseInt t = .ok v →
        IntElement.Set env ⟨0, false, false⟩ (.string t) = (⟨v, true, false⟩, none)) ∧
     (t ≠ "" → t ≠ "NaN" → ∀ err, env.ParseInt t = .error err →
        IntElement.Set env ⟨0, false, false⟩ (.string t) = (⟨0, true, true⟩, some err) ∧
        (IntElement.Set env ⟨0, false, false⟩ (.string t)).1.IsValid = true)) ∧
    ((t = "" → uintElement.Set env ⟨0, false, false⟩ (.string t) = (⟨0, false, false⟩, none)) ∧
     (t = "NaN" → uintElement.Set env ⟨0, false, false⟩ (.string t) = (⟨0, true, true⟩, none)) ∧
     (t ≠ "" → t ≠ "NaN" → ∀ v, env.ParseUint t = .ok v →
        uintElement.Set env ⟨0, false, false⟩ (.string t) = (⟨v, true, false⟩, none)) ∧
     (t ≠ "" → t ≠ "NaN" → ∀ err, env.ParseUint t = .error err →
        uintElement.Set env ⟨0, false, false⟩ (.string t) = (⟨0, true, true⟩, some err) ∧
        (uintElement.Set env ⟨0, false, false⟩ (.string t)).1.IsValid = true)) := by
  refine ⟨⟨?_, ?_, ?_, ?_⟩, ⟨?_, ?_, ?_, ?_⟩⟩
  · rintro rfl
    simp [IntElement.Set, Nil]
  · rintro rfl
    simp [IntElement.Set, Nil, NaN]
  · intro h1 h2 v hv
    simp [IntElement.Set, Nil, NaN, h1, h2, hv]
  · intro h1 h2 err hv
    simp [IntElement.Set, Nil, NaN, h1, h2, hv, IntElement.IsValid]
  · rintro rfl
    simp [uintElement.Set, Nil]
  · rintro rfl
    simp [uintElement.Set, Nil, NaN]
  · intro h1 h2 v hv
    simp [uintElement.Set, Nil, NaN, h1, h2, hv]
  · intro h1 h2 err hv
    simp [uintElement.Set, Nil, NaN, h1, h2, hv, uintElement.IsValid]

/-- C14 on examples: the text `-12` for Int, and the unparsable text `a` for Uint. -/
theorem C14_set_from_string_witness :
    IntElement.Set sampleEnv ⟨0, false, false⟩ (.string "-12") = (⟨-12, true, false⟩, none) ∧
    (uintElement.Set sampleEnv ⟨0, false, false⟩ (.string "a")
        = (⟨0, true, true⟩, some "strconv.ParseUint: invalid syntax") ∧
      (uintElement.Set sampleEnv ⟨0, false, false⟩ (.string "a")).1.IsValid = true) :=
  ⟨(C14_set_from_string sampleEnv "-12").1.2.2.1 (by decide) (by decide) (-12) rfl,
   (C14_set_from_string sampleEnv "a").2.2.2.2 (by decide) (by decide)
     "strconv.ParseUint: invalid syntax" rfl⟩

/-- C15 (counterexample): a fresh Bool element set from the Valid Uint element `5`, and a
fresh Int element set from the Valid Float element `+Inf`, both end Null, with the error
of the failed conversion returned: the source is not Null but the result is. -/
theorem C15_valid_source_gives_null :
    (Element.ofUint ⟨5, true, false⟩).IsValid = true ∧
    (Element.zero .Bool).Set sampleEnv (.Element (.ofUint ⟨5, true, false⟩))
      = (.ofBool ⟨false, false⟩, some "can\x27t convert Int \x225\x22 to bool") ∧
    (Element.ofFloat ⟨⟨F64.infMag⟩, true⟩).IsValid = true ∧
    (Element.zero .Int).Set sampleEnv (.Element (.ofFloat ⟨⟨F64.infMag⟩, true⟩))
      = (.ofInt ⟨0, false, false⟩, some "can\x27t convert Inf to int64") := by
  decide

/-- C15 (amended): `Set(source)` on a fresh element of any type gives Null with no error
when the source is Null.  When the source is not Null, the result is non-Null exactly
when `Set` returns no error.  That is always so for String and Float targets.  An Int
(Uint) target ends Null exactly when the source is not `IsNaN` and its `Int()` (`Uint()`)
fails, a Bool target exactly when the source\x27s `Bool()` fails. -/
theorem C15_set_from_element (env : Env) (t : SeriesType) (src : Element) :
    (src.IsValid = false →
      ((Element.zero t).Set env (.Element src)).1.IsValid = false ∧
      ((Element.zero t).Set env (.Element src)).2 = none) ∧
    (src.IsValid = true →
      (((Element.zero t).Set env (.Element src)).1.IsValid = true ↔
        ((Element.zero t).Set env (.Element src)).2 = none)) ∧
    (src.IsValid = true → t = .String ∨ t = .Float →
      ((Element.zero t).Set env (.Element src)).1.IsValid = true) ∧
    (src.IsValid = true → t = .Int →
      (((Element.zero t).Set env (.Element src)).1.IsValid = false ↔
        src.IsNaN env = false ∧ ∃ err, src.Int env = .error err)) ∧
    (src.IsValid = true → t = .Uint →
      (((Element.zero t).Set env (.Element src)).1.IsValid = false ↔
        src.IsNaN env = false ∧ ∃ err, src.Uint env = .error err)) ∧
    (src.IsValid = true → t = .Bool →
      (((Element.zero t).Set env (.Element src)).1.IsValid = false ↔
        ∃ err, src.Bool env = .error err)) := by
  have hfloat : src.IsValid = true → ∃ f, src.Float env = .ok f := by
    intro h
    cases src with
    | ofInt x =>
      simp only [Element.IsValid, IntElement.IsValid] at h
      simp only [Element.Float, IntElement.Float, h, if_true]
      split <;> exact ⟨_, rfl⟩
    | ofUint x =>
      simp only [Element.IsValid, uintElement.IsValid] at h
      simp only [Element.Float, uintElement.Float, h, if_true]
      split <;> exact ⟨_, rfl⟩
    | ofString x =>
      simp only [Element.IsValid] at h
      simp only [Element.Float, stringElement.Float, h]
      simp only [Bool.not_true, Bool.false_eq_true, if_false]
      split <;> exact ⟨_, rfl⟩
    | ofFloat x =>
      simp only [Element.IsValid] at h
      exact ⟨x.e, by simp [Element.Float, floatElement.Float, h]⟩
    | ofBool x =>
      simp only [Element.IsValid, boolElement.IsValid] at h
      simp only [Element.Float, boolElement.Float, h]
      cases x.e <;> simp
  refine ⟨?_, ?_, ?_, ?_, ?_, ?_⟩
  · intro h
    cases t <;>
      simp [Element.zero, Element.Set, Element.IsValid_ofInt, Element.IsValid_ofUint,
        Element.IsValid_ofString, Element.IsValid_ofFloat, Element.IsValid_ofBool,
        stringElement.IsValid, IntElement.IsValid, uintElement.IsValid, floatElement.IsValid,
        boolElement.IsValid, stringElement.Set, IntElement.Set, uintElement.Set, floatElement.Set,
        boolElement.Set, h]
  · intro h
    cases t with
    | String =>
      obtain ⟨s, hs⟩ := Element.String_ok_of_valid env src h
      simp [Element.zero, Element.Set, Element.IsValid_ofInt, Element.IsValid_ofUint,
        Element.IsValid_ofString, Element.IsValid_ofFloat, Element.IsValid_ofBool,
        stringElement.IsValid, IntElement.IsValid, uintElement.IsValid, floatElement.IsValid,
        boolElement.IsValid, stringElement.Set, h, hs]
    | Int =>
      cases hn : src.IsNaN env <;> cases hi : src.Int env <;>
        simp [Element.zero, Element.Set, Element.IsValid_ofInt, Element.IsValid_ofUint,
        Element.IsValid_ofString, Element.IsValid_ofFloat, Element.IsValid_ofBool,
        stringElement.IsValid, IntElement.IsValid, uintElement.IsValid, floatElement.IsValid,
        boolElement.IsValid, IntElement.Set, h, hn, hi]
    | Uint =>
      cases hn : src.IsNaN env <;> cases hi : src.Uint env <;>
        simp [Element.zero, Element.Set, Element.IsValid_ofInt, Element.IsValid_ofUint,
        Element.IsValid_ofString, Element.IsValid_ofFloat, Element.IsValid_ofBool,
        stringElement.IsValid, IntElement.IsValid, uintElement.IsValid, floatElement.IsValid,
        boolElement.IsValid, uintElement.Set, h, hn, hi]
    | Float =>
      obtain ⟨f, hf⟩ := hfloat h
      simp [Element.zero, Element.Set, Element.IsValid_ofInt, Element.IsValid_ofUint,
        Element.IsValid_ofString, Element.IsValid_ofFloat, Element.IsValid_ofBool,
        stringElement.IsValid, IntElement.IsValid, uintElement.IsValid, floatElement.IsValid,
        boolElement.IsValid, floatElement.Set, h, hf]
    | Bool =>
      cases hi : src.Bool env <;>
        simp [Element.zero, Element.Set, Element.IsValid_ofInt, Element.IsValid_ofUint,
        Element.IsValid_ofString, Element.IsValid_ofFloat, Element.IsValid_ofBool,
        stringElement.IsValid, IntElement.IsValid, uintElement.IsValid, floatElement.IsValid,
        boolElement.IsValid, boolElement.Set, h, hi]
  · intro h ht
    rcases ht with rfl | rfl
    · obtain ⟨s, hs⟩ := Element.String_ok_of_valid env src h
      simp [Element.zero, Element.Set, Element.IsValid_ofInt, Element.IsValid_ofUint,
        Element.IsValid_ofString, Element.IsValid_ofFloat, Element.IsValid_ofBool,
        stringElement.IsValid, IntElement.IsValid, uintElement.IsValid, floatElement.IsValid,
        boolElement.IsValid, stringElement.Set, h, hs]
    · obtain ⟨f, hf⟩ := hfloat h
      simp [Element.zero, Element.Set, Element.IsValid_ofInt, Element.IsValid_ofUint,
        Element.IsValid_ofString, Element.IsValid_ofFloat, Element.IsValid_ofBool,
        stringElement.IsValid, IntElement.IsValid, uintElement.IsValid, floatElement.IsValid,
        boolElement.IsValid, floatElement.Set, h, hf]
  · rintro h rfl
    cases hn : src.IsNaN env <;> cases hi : src.Int env <;>
      simp [Element.zero, Element.Set, Element.IsValid_ofInt, Element.IsValid_ofUint,
        Element.IsValid_ofString, Element.IsValid_ofFloat, Element.IsValid_ofBool,
        stringElement.IsValid, IntElement.IsValid, uintElement.IsValid, floatElement.IsValid,
        boolElement.IsValid, IntElement.Set, h, hn, hi]
  · rintro h rfl
    cases hn : src.IsNaN env <;> cases hi : src.Uint env <;>
      simp [Element.zero, Element.Set, Element.IsValid_ofInt, Element.IsValid_ofUint,
        Element.IsValid_ofString, Element.IsValid_ofFloat, Element.IsValid_ofBool,
        stringElement.IsValid, IntElement.IsValid, uintElement.IsValid, floatElement.IsValid,
        boolElement.IsValid, uintElement.Set, h, hn, hi]
  · rintro h rfl
    cases hi : src.Bool env <;>
      simp [Element.zero, Element.Set, Element.IsValid_ofInt, Element.IsValid_ofUint,
        Element.IsValid_ofString, Element.IsValid_ofFloat, Element.IsValid_ofBool,
        stringElement.IsValid, IntElement.IsValid, uintElement.IsValid, floatElement.IsValid,
        boolElement.IsValid, boolElement.Set, h, hi]

/-- C15 (amended) on examples: a Null Uint source into an Int target, a Valid Bool source
into a String target, and the Valid Uint source `5` into a Bool target. -/
theorem C15_set_from_element_witness :
    (((Element.zero .Int).Set sampleEnv (.Element (.ofUint ⟨7, false, false⟩))).1.IsValid
        = false ∧
      ((Element.zero .Int).Set sampleEnv (.Element (.ofUint ⟨7, false, false⟩))).2 = none) ∧
    ((Element.zero .String).Set sampleEnv (.Element (.ofBool ⟨true, true⟩))).1.IsValid
      = true ∧
    (((Element.zero .Bool).Set sampleEnv (.Element (.ofUint ⟨5, true, false⟩))).1.IsValid
        = false ↔
      ∃ err, (Element.ofUint ⟨5, true, false⟩).Bool sampleEnv = .error err) :=
  ⟨(C15_set_from_element sampleEnv .Int (.ofUint ⟨7, false, false⟩)).1 rfl,
   (C15_set_from_element sampleEnv .String (.ofBool ⟨true, true⟩)).2.2.1 rfl (Or.inl rfl),
   (C15_set_from_element sampleEnv .Bool (.ofUint ⟨5, true, false⟩)).2.2.2.2.2 rfl rfl⟩

/-- C16 (counterexample): `String()` of a Null Int, Uint or Float element returns the
empty text with no error. -/
theorem C16_null_string_no_error :
    (Element.ofInt ⟨0, false, false⟩).IsValid = false ∧
    (Element.ofInt ⟨0, false, false⟩).String sampleEnv = .ok "" ∧
    (Element.ofUint ⟨0, false, false⟩).String sampleEnv = .ok "" ∧
    (Element.ofFloat ⟨F64.zero, false⟩).String sampleEnv = .ok "" :=
  ⟨rfl, rfl, rfl, rfl⟩

/-- C16 (amended): on a Null element of any type, `Int()`, `Uint()`, `Float()` and
`Bool()` return an error; `String()` returns an error on a Null String or Bool element,
and returns the empty text `Nil` without error on a Null Int, Uint or Float element. -/
theorem C16_null_conversions (env : Env) (e : Element) (h : e.IsValid = false) :
    (∃ err, e.Int env = .error err) ∧ (∃ err, e.Uint env = .error err) ∧
    (∃ err, e.Float env = .error err) ∧ (∃ err, e.Bool env = .error err) ∧
    (e.Type_ = .String ∨ e.Type_ = .Bool → ∃ err, e.String env = .error err) ∧
    (e.Type_ = .Int ∨ e.Type_ = .Uint ∨ e.Type_ = .Float → e.String env = .ok Nil) := by
  cases e with
  | ofInt x =>
    simp only [Element.IsValid, IntElement.IsValid] at h
    simp [Element.Int, Element.Uint, Element.Float, Element.Bool, Element.String,
      Element.Type_, IntElement.Int, IntElement.Uint, IntElement.Float, IntElement.Bool,
      IntElement.String, h]
  | ofUint x =>
    simp only [Element.IsValid, uintElement.IsValid] at h
    simp [Element.Int, Element.Uint, Element.Float, Element.Bool, Element.String,
      Element.Type_, uintElement.Int, uintElement.Uint, uintElement.Float, uintElement.Bool,
      uintElement.String, h]
  | ofString x =>
    simp only [Element.IsValid, stringElement.IsValid] at h
    simp [Element.Int, Element.Uint, Element.Float, Element.Bool, Element.String,
      Element.Type_, stringElement.Int, stringElement.Uint, stringElement.Float,
      stringElement.Bool, stringElement.String, stringElement.IsValid, h]
  | ofFloat x =>
    simp only [Element.IsValid, floatElement.IsValid] at h
    simp [Element.Int, Element.Uint, Element.Float, Element.Bool, Element.String,
      Element.Type_, floatElement.Int, floatElement.Uint, floatElement.Float,
      floatElement.Bool, floatElement.String, floatElement.IsValid, h, Nil]
  | ofBool x =>
    simp only [Element.IsValid, boolElement.IsValid] at h
    simp [Element.Int, Element.Uint, Element.Float, Element.Bool, Element.String,
      Element.Type_, boolElement.Int, boolElement.Uint, boolElement.Float,
      boolElement.Bool, boolElement.String, h]

/-- C16 (amended) on an example: the Null String element. -/
theorem C16_null_conversions_witness :
    (∃ err, (Element.ofString ⟨"x", false⟩).Int sampleEnv = .error err) ∧
    (∃ err, (Element.ofString ⟨"x", false⟩).Uint sampleEnv = .error err) ∧
    (∃ err, (Element.ofString ⟨"x", false⟩).Float sampleEnv = .error err) ∧
    (∃ err, (Element.ofString ⟨"x", false⟩).Bool sampleEnv = .error err) ∧
    ((Element.ofString ⟨"x", false⟩).Type_ = .String ∨
        (Element.ofString ⟨"x", false⟩).Type_ = .Bool →
      ∃ err, (Element.ofString ⟨"x", false⟩).String sampleEnv = .error err) ∧
    ((Element.ofString ⟨"x", false⟩).Type_ = .Int ∨
        (Element.ofString ⟨"x", false⟩).Type_ = .Uint ∨
        (Element.ofString ⟨"x", false⟩).Type_ = .Float →
      (Element.ofString ⟨"x", false⟩).String sampleEnv = .ok Nil) :=
  C16_null_conversions sampleEnv (.ofString ⟨"x", false⟩) rfl

/-! ## Order as a permutation -/

theorem Order.split_perm (env : Env) (t : SeriesType) (es : List Element) :
    ∀ i0 : Nat,
      (((Order.split env t es i0).1.map fun e => e.index) ++ (Order.split env t es i0).2).Perm
        ((List.range' i0 es.length).map fun j : ℕ => (j : ℤ)) := by
  induction es with
  | nil => intro i0; simp [Order.split]
  | cons e rest ih =>
    intro i0
    have h := ih (i0 + 1)
    unfold Order.split
    simp only [List.length_cons, List.range'_succ, List.map_cons]
    split
    · exact List.perm_middle.trans (List.Perm.cons _ h)
    · exact List.Perm.cons _ h

theorem rowIndexes_nodup (n : Nat) : ((List.range n).map fun j : ℕ => (j : ℤ)).Nodup := by
  refine List.Nodup.map ?_ (List.nodup_range n)
  intro a b hab
  exact Int.ofNat.inj hab

theorem rowIndexes_mem (n : Nat) (i : Int) :
    i ∈ ((List.range n).map fun j : ℕ => (j : ℤ)) ↔ 0 ≤ i ∧ i < n := by
  simp only [List.mem_map, List.mem_range]
  constructor
  · rintro ⟨j, hj, rfl⟩
    omega
  · rintro ⟨h0, h1⟩
    exact ⟨i.toNat, by omega, by omega⟩

theorem Order_perm (env : Env) (hsort : SortSpec env.sortSort) (s : Series) (reverse : Bool) :
    (s.Order env reverse).Perm ((List.range s.Len).map fun j : ℕ => (j : ℤ)) := by
  have h := Order.split_perm env s.t s.elements.toList 0
  rw [← List.range_eq_range'] at h
  refine List.Perm.trans ?_ h
  simp only [Series.Order]
  exact List.Perm.append_right _ (List.Perm.map _ (hsort.perm _ _))

/-- C17: for every Series and both values of `reverse`, `Order(reverse)` is a permutation
of the row indexes `0, 1, ..., Len - 1`: it has length `Len`, no repetition, and every
integer occurs once if it is a row index and not at all otherwise.  Of `sort.Sort` only
the documented fact that it rearranges its input is used. -/
theorem C17_order_permutation (env : Env) (hsort : SortSpec env.sortSort) (s : Series)
    (reverse : Bool) :
    (s.Order env reverse).Perm ((List.range s.Len).map fun j : ℕ => (j : ℤ)) ∧
    (s.Order env reverse).length = s.Len ∧
    (s.Order env reverse).Nodup ∧
    ∀ i : Int, (s.Order env reverse).count i = if 0 ≤ i ∧ i < s.Len then 1 else 0 := by
  have hp := Order_perm env hsort s reverse
  refine ⟨hp, by simpa using hp.length_eq, hp.nodup_iff.mpr (rowIndexes_nodup _), ?_⟩
  intro i
  rw [hp.count_eq]
  split
  · rename_i h
    exact List.count_eq_one_of_mem (rowIndexes_nodup _) ((rowIndexes_mem _ i).mpr h)
  · rename_i h
    exact List.count_eq_zero_of_not_mem fun hc => h ((rowIndexes_mem _ i).mp hc)

/-- C17 on the first row of `TestSeries_Order`, reversed, with insertion sort. -/
theorem C17_order_permutation_witness :
    ((Ints sampleEnv (.strings ["2", "1", "3", "NaN", "4", ""])).Order sampleEnv true).Perm
      ((List.range (Ints sampleEnv (.strings ["2", "1", "3", "NaN", "4", ""])).Len).map
        fun j : ℕ => (j : ℤ)) ∧
    ((Ints sampleEnv (.strings ["2", "1", "3", "NaN", "4", ""])).Order sampleEnv true).length
      = (Ints sampleEnv (.strings ["2", "1", "3", "NaN", "4", ""])).Len ∧
    ((Ints sampleEnv (.strings ["2", "1", "3", "NaN", "4", ""])).Order sampleEnv true).Nodup ∧
    ∀ i : Int,
      ((Ints sampleEnv (.strings ["2", "1", "3", "NaN", "4", ""])).Order sampleEnv true).count i
        = if 0 ≤ i ∧ i < (Ints sampleEnv (.strings ["2", "1", "3", "NaN", "4", ""])).Len
          then 1 else 0 :=
  C17_order_permutation sampleEnv sampleEnv_sortSpec
    (Ints sampleEnv (.strings ["2", "1", "3", "NaN", "4", ""])) true

/-! ## Compare with `In` -/

theorem Compare.inRow_ok (env : Env) (e : Element) (ms : List Element) :
    Compare.inRow env e ms = .ok (ms.any fun m => e.Eq env m) := by
  induction ms with
  | nil => rfl
  | cons m rest ih =>
    simp only [Compare.inRow, compareElements, List.any_cons]
    cases h : e.Eq env m <;> simp [ih]

/-- C20: on an error-free Series `s`, for a comparando of any length, `Compare(In, x)` is
an error-free Bool Series of length `s.Len()` whose entry `i` is true exactly when some
element `m` of the comparando coerced to the type of `s` (`New(x, s.t, "")`) has
`s[i].Eq(m)`. -/
theorem C20_compare_in (env : Env) (s : Series) (x : Values) (hs : s.Err = none) :
    (s.Compare env .In x).Err = none ∧ (s.Compare env .In x).t = .Bool ∧
    (s.Compare env .In x).elements.Type_ = .Bool ∧ (s.Compare env .In x).Len = s.Len ∧
    ∀ (i : Nat) (e : Element), s.elements.Elem (i : Int) = some e →
      ∃ b, (s.Compare env .In x).elements.Elem (i : Int) = some (.ofBool ⟨b, true⟩) ∧
        (b = true ↔ ∃ m ∈ (New env x s.t "" []).elements.toList, e.Eq env m = true) := by
  have hC : s.Compare env .In x
      = ⟨"", .boolElements ((s.elements.toList.map fun e =>
            (New env x s.t "" []).elements.toList.any fun m => e.Eq env m).map
            fun b => ⟨b, true⟩), .nil, .Bool, none⟩ := by
    simp only [Series.Compare, hs, if_true]
    rw [collect_ok _ (fun e => (New env x s.t "" []).elements.toList.any fun m => e.Eq env m)
      (fun e => Compare.inRow_ok env e _)]
    exact Bools_bools env _
  rw [hC]
  refine ⟨rfl, rfl, rfl, by simp [Series.Len, Elements.Len, Elements.toList_bool], ?_⟩
  intro i e he
  refine ⟨(New env x s.t "" []).elements.toList.any fun m => e.Eq env m, ?_, ?_⟩
  · simp only [Elements.Elem, index_natCast] at he ⊢
    simp [Elements.toList_bool, he]
  · simp [List.any_eq_true]

/-- C20 on a row of `TestSeries_Compare_Eq`: a membership set shorter than the Series. -/
theorem C20_compare_in_witness :
    ((Ints sampleEnv (.ints [0, 2, 1, 5, 9])).Compare sampleEnv .In (.ints [2, 99, 9])).Err
      = none ∧
    ((Ints sampleEnv (.ints [0, 2, 1, 5, 9])).Compare sampleEnv .In (.ints [2, 99, 9])).Len
      = (Ints sampleEnv (.ints [0, 2, 1, 5, 9])).Len ∧
    (Ints sampleEnv (.ints [0, 2, 1, 5, 9])).Compare sampleEnv .In (.ints [2, 99, 9])
      = Bools sampleEnv (.bools [false, true, false, false, true]) :=
  ⟨(C20_compare_in sampleEnv (Ints sampleEnv (.ints [0, 2, 1, 5, 9])) (.ints [2, 99, 9])
      (by decide)).1,
   (C20_compare_in sampleEnv (Ints sampleEnv (.ints [0, 2, 1, 5, 9])) (.ints [2, 99, 9])
      (by decide)).2.2.2.1,
   by decide⟩

/-! ## Order and its reverse -/

/-- C18 (counterexample): on the test row `Bools([true, false, false, false, true])` the
valid-row part of `Order(true)` is `[0, 4, 1, 2, 3]`, as `TestSeries_Order` expects, while
the reverse of the valid-row part `[1, 2, 3, 0, 4]` of `Order(false)` is
`[4, 0, 3, 2, 1]`: rows with equal values are not exchanged. -/
theorem C18_reverse_differs_on_ties :
    (Bools sampleEnv (.bools [true, false, false, false, true])).naRows = [] ∧
    (Bools sampleEnv (.bools [true, false, false, false, true])).Order sampleEnv false
      = [1, 2, 3, 0, 4] ∧
    (Bools sampleEnv (.bools [true, false, false, false, true])).Order sampleEnv true
      = [0, 4, 1, 2, 3] ∧
    ((Bools sampleEnv (.bools [true, false, false, false, true])).Order sampleEnv true).takeWhile
        (fun i => !(Bools sampleEnv (.bools [true, false, false, false, true])).rowNA i)
      ≠ (((Bools sampleEnv (.bools [true, false, false, false, true])).Order sampleEnv
          false).takeWhile
        (fun i => !(Bools sampleEnv (.bools [true, false, false, false, true])).rowNA i)).reverse := by
  decide

theorem eq_of_perm_of_pairwise {α : Type} (r : α → α → Prop) :
    ∀ (l1 l2 : List α), l1.Perm l2 → l1.Pairwise r → l2.Pairwise r →
      (∀ a ∈ l1, ∀ b ∈ l1, r a b → r b a → a = b) → l1 = l2 := by
  intro l1
  induction l1 with
  | nil =>
    intro l2 hp _ _ _
    exact (List.Perm.nil_eq hp)
  | cons a t1 ih =>
    intro l2 hp h1 h2 hanti
    cases l2 with
    | nil => exact absurd hp.length_eq (by simp)
    | cons b t2 =>
      obtain ⟨ha1, ht1⟩ := List.pairwise_cons.mp h1
      obtain ⟨hb2, ht2⟩ := List.pairwise_cons.mp h2
      have hab : a = b := by
        by_contra hne
        have ha2 : a ∈ t2 := by
          have : a ∈ b :: t2 := hp.subset (List.mem_cons_self _ _)
          rcases List.mem_cons.mp this with h | h
          · exact absurd h hne
          · exact h
        have hb1 : b ∈ t1 := by
          have : b ∈ a :: t1 := hp.symm.subset (List.mem_cons_self _ _)
          rcases List.mem_cons.mp this with h | h
          · exact absurd h.symm hne
          · exact h
        exact hne (hanti a (List.mem_cons_self _ _) b (List.mem_cons_of_mem _ hb1)
          (ha1 b hb1) (hb2 a ha2))
      subst hab
      have hpt : t1.Perm t2 := List.Perm.cons_inv hp
      rw [ih t2 hpt ht1 ht2 fun x hx y hy =>
        hanti x (List.mem_cons_of_mem _ hx) y (List.mem_cons_of_mem _ hy)]

theorem rowNA_false_range (s : Series) (i : Int) (h : s.rowNA i = false) :
    0 ≤ i ∧ i < s.Len := by
  by_contra hc
  have hnone : s.elements.Elem i = none := by
    unfold Elements.Elem index
    split
    · rfl
    · rw [List.getElem?_eq_none]
      unfold Series.Len Elements.Len at hc
      omega
  rw [Series.rowNA, hnone] at h
  exact absurd h (by simp)

/-- The valid-row part of `Order`: the sorted rows, before the Null and NaN rows. -/
theorem Order_validPart (env : Env) (hsort : SortSpec env.sortSort) (s : Series)
    (hWF : s.elements.Type_ = s.t) (less : indexedElement → indexedElement → Bool) :
    ((env.sortSort less (Order.split env s.t s.elements.toList 0).1).map
        (fun e => e.index) ++ (Order.split env s.t s.elements.toList 0).2).takeWhile
        (fun i => !s.rowNA i)
      = (env.sortSort less (Order.split env s.t s.elements.toList 0).1).map
        (fun e => e.index) := by
  have hrows := Order.split_rows env s hWF
  have hnas := Order.split_nas env s hWF
  rw [List.takeWhile_append_of_pos, takeWhile_eq_nil_of_all_false, List.append_nil]
  · intro i hi
    rw [hnas] at hi
    simp [((naRows_mem s i).mp hi).2.2]
  · intro i hi
    obtain ⟨x, hx, rfl⟩ := List.mem_map.mp hi
    simp [(hrows x ((hsort.perm _ _).subset hx)).2.2.2]

theorem Order.split_index_nodup (env : Env) (t : SeriesType) (es : List Element) :
    ((Order.split env t es 0).1.map fun e => e.index).Nodup := by
  have h := Order.split_perm env t es 0
  rw [← List.range_eq_range'] at h
  exact List.Nodup.of_append_left (h.nodup_iff.mpr (rowIndexes_nodup _))

/-- C18 (amended): when no two rows that are neither Null nor NaN have equal values (of
any two such rows one is `Less` than the other), the valid-row part of `Order(true)` is
exactly the reverse of the valid-row part of `Order(false)`. -/
theorem C18_reverse_without_ties (env : Env) (hsort : SortSpec env.sortSort) (s : Series)
    (hWF : s.elements.Type_ = s.t)
    (hties : ∀ i < s.Len, ∀ j < s.Len, i ≠ j →
      s.rowNA (i : Int) = false ∧ s.rowNA (j : Int) = false →
      s.rowLess env (i : Int) (j : Int) = true ∨ s.rowLess env (j : Int) (i : Int) = true) :
    ((s.Order env true).takeWhile fun i => !s.rowNA i)
      = ((s.Order env false).takeWhile fun i => !s.rowNA i).reverse := by
  have hrows := Order.split_rows env s hWF
  have hnd := Order.split_index_nodup env s.t s.elements.toList
  have hsw := Order.less_strictWeak env s hWF false
  simp only [Bool.false_eq_true, if_false] at hsw
  have hswr := Order.less_strictWeak env s hWF true
  simp only [if_true] at hswr
  have hA := hsort.sorted _ _ hsw
  have hB := hsort.sorted _ _ hswr
  have hpA := hsort.perm (fun a b => indexedElements.Less env a b)
    (Order.split env s.t s.elements.toList 0).1
  have hpB := hsort.perm (fun a b => indexedElements.Less env b a)
    (Order.split env s.t s.elements.toList 0).1
  -- of two distinct rows kept for sorting, one is `Less` than the other
  have htot : ∀ a ∈ (Order.split env s.t s.elements.toList 0).1,
      ∀ b ∈ (Order.split env s.t s.elements.toList 0).1, a.index ≠ b.index →
      indexedElements.Less env b a = false → indexedElements.Less env a b = true := by
    intro a ha b hb hne hba
    have hra := rowNA_false_range s a.index (hrows a ha).2.2.2
    have hrb := rowNA_false_range s b.index (hrows b hb).2.2.2
    have hia : ((a.index.toNat : Nat) : Int) = a.index := by omega
    have hib : ((b.index.toNat : Nat) : Int) = b.index := by omega
    have h := hties a.index.toNat (by omega) b.index.toNat (by omega) (by omega)
      ⟨by rw [hia]; exact (hrows a ha).2.2.2, by rw [hib]; exact (hrows b hb).2.2.2⟩
    rw [hia, hib] at h
    simp only [Series.rowLess, (hrows a ha).1, (hrows b hb).1] at h
    rcases h with h | h
    · exact h
    · rw [indexedElements.Less, h] at hba
      exact absurd hba (by simp)
  have hstrict : ∀ l : List indexedElement,
      l.Perm (Order.split env s.t s.elements.toList 0).1 →
      l.Pairwise (fun a b => indexedElements.Less env b a = false) →
      l.Pairwise (fun a b => indexedElements.Less env a b = true) := by
    intro l hp hl
    have hndl : (l.map fun e => e.index).Nodup := (hp.map _).nodup_iff.mpr hnd
    have hne : l.Pairwise (fun a b => a.index ≠ b.index) := by
      have := List.pairwise_map.mp hndl
      exact this
    refine List.Pairwise.imp_of_mem ?_ (hl.and hne)
    intro a b ha hb hab
    exact htot a (hp.subset ha) b (hp.subset hb) hab.2 hab.1
  have hBr : (env.sortSort (fun a b => indexedElements.Less env b a)
      (Order.split env s.t s.elements.toList 0).1).reverse.Pairwise
      (fun a b => indexedElements.Less env b a = false) :=
    List.pairwise_reverse.mpr hB
  have heq := eq_of_perm_of_pairwise (fun a b => indexedElements.Less env a b = true)
    _ _ ((List.reverse_perm _).trans (hpB.trans hpA.symm))
    (hstrict _ ((List.reverse_perm _).trans hpB) hBr) (hstrict _ hpA hA)
    (by
      intro a ha b hb hab hba
      have ha2 := ((List.reverse_perm _).trans hpB).subset ha
      have := hsw.2.1 a ha2 b (((List.reverse_perm _).trans hpB).subset hb) a ha2 hab hba
      rw [hsw.1 a ha2] at this
      exact absurd this (by simp))
  simp only [Series.Order, Bool.false_eq_true, if_false, if_true]
  rw [Order_validPart env hsort s hWF, Order_validPart env hsort s hWF, ← List.map_reverse,
    ← heq, List.reverse_reverse]

/-- C18 (amended) on a row of `TestSeries_Order` with pairwise distinct values. -/
theorem C18_reverse_without_ties_witness :
    (((Ints sampleEnv (.strings ["2", "1", "3", "NaN", "4", ""])).Order sampleEnv
        true).takeWhile
        fun i => !(Ints sampleEnv (.strings ["2", "1", "3", "NaN", "4", ""])).rowNA i)
      = (((Ints sampleEnv (.strings ["2", "1", "3", "NaN", "4", ""])).Order sampleEnv
          false).takeWhile
        fun i => !(Ints sampleEnv (.strings ["2", "1", "3", "NaN", "4", ""])).rowNA i).reverse :=
  C18_reverse_without_ties sampleEnv sampleEnv_sortSpec
    (Ints sampleEnv (.strings ["2", "1", "3", "NaN", "4", ""])) (by decide) (by decide)

/-! ## Stability of Order -/

theorem reversingSort_sortSpec {α : Type} :
    SortSpec (fun (less : α → α → Bool) l => reversingSort less l) where
  perm := fun less l => by
    simpa [reversingSort] using (insertionSort_perm less l.reverse []).trans (List.reverse_perm l)
  sorted := fun less l hsw => by
    have h : StrictWeakOn less ([] ++ l.reverse) :=
      hsw.mono fun a ha => by simpa using ha
    simpa [reversingSort] using insertionSort_sorted less l.reverse [] h List.Pairwise.nil

/-- C19 (the code departs from the claim): `Order` calls `sort.Sort`, which is documented
as not stable.  With `sort.Sort` as in the Go releases up to 1.18, `Order(false)` of
`Ints([2, 2, 3, 3, 3, 3, 1])` is `[6, 1, 0, 2, 3, 4, 5]`: rows `0` and `1` hold equal
values and come out as `1, 0`.  And the documented contract of `sort.Sort` alone allows
it on any input with ties: a sorting function that meets `SortSpec` orders the two equal
rows of `Ints([5, 5])` as `[1, 0]`. -/
theorem C19_order_not_stable :
    ((Ints legacyEnv (.ints [2, 2, 3, 3, 3, 3, 1])).Order legacyEnv false
        = [6, 1, 0, 2, 3, 4, 5] ∧
      (Ints legacyEnv (.ints [2, 2, 3, 3, 3, 3, 1])).rowNA 0 = false ∧
      (Ints legacyEnv (.ints [2, 2, 3, 3, 3, 3, 1])).rowNA 1 = false ∧
      (Ints legacyEnv (.ints [2, 2, 3, 3, 3, 3, 1])).rowLess legacyEnv 0 1 = false ∧
      (Ints legacyEnv (.ints [2, 2, 3, 3, 3, 3, 1])).rowLess legacyEnv 1 0 = false) ∧
    (∃ sort : (indexedElement → indexedElement → Bool) → List indexedElement →
        List indexedElement,
      SortSpec sort ∧
      (Ints sampleEnv (.ints [5, 5])).Order { sampleEnv with sortSort := sort } false
        = [1, 0]) :=
  ⟨by decide, fun less l => reversingSort less l, reversingSort_sortSpec, by decide⟩

/-! ## Factorize: list facts -/

theorem firstAppearances_nodup (l : List String) : (firstAppearances l).Nodup := by
  simp [firstAppearances, List.nodup_dedup]

theorem Factorize.firstRows_prefix (env : Env) (rows : List Element) :
    ∀ es : List Element, ∃ X, Factorize.firstRows env es rows = es ++ X ∧
      ∀ e ∈ X, e ∈ rows ∧ Factorize.dropped env e = false := by
  induction rows with
  | nil => intro es; exact ⟨[], by simp [Factorize.firstRows], by simp⟩
  | cons e rest ih =>
    intro es
    unfold Factorize.firstRows
    by_cases hd : Factorize.dropped env e = true
    · rw [if_pos hd]
      obtain ⟨X, hX, hm⟩ := ih es
      exact ⟨X, hX, fun x hx => ⟨List.mem_cons_of_mem _ (hm x hx).1, (hm x hx).2⟩⟩
    · rw [if_neg hd]
      by_cases hm : Factorize.text env e ∈ es.map (Factorize.text env)
      · rw [if_pos hm]
        obtain ⟨X, hX, hmX⟩ := ih es
        exact ⟨X, hX, fun x hx => ⟨List.mem_cons_of_mem _ (hmX x hx).1, (hmX x hx).2⟩⟩
      · rw [if_neg hm]
        obtain ⟨X, hX, hmX⟩ := ih (es ++ [e])
        refine ⟨e :: X, by simp [hX], ?_⟩
        intro x hx
        rcases List.mem_cons.mp hx with rfl | hx2
        · exact ⟨List.mem_cons_self _ _, by simpa using hd⟩
        · exact ⟨List.mem_cons_of_mem _ (hmX x hx2).1, (hmX x hx2).2⟩

/-- A kept row finds its text among the texts of `firstRows`. -/
theorem Factorize.firstRows_mem_text (env : Env) (rows : List Element) :
    ∀ (es : List Element) (e : Element), e ∈ rows → Factorize.dropped env e = false →
      Factorize.text env e ∈ (Factorize.firstRows env es rows).map (Factorize.text env) := by
  induction rows with
  | nil => intro es e he; simp at he
  | cons a rest ih =>
    intro es e he hk
    unfold Factorize.firstRows
    rcases List.mem_cons.mp he with rfl | he2
    · rw [if_neg (by simp [hk])]
      by_cases hm : Factorize.text env e ∈ es.map (Factorize.text env)
      · rw [if_pos hm]
        obtain ⟨X, hX, _⟩ := Factorize.firstRows_prefix env rest es
        rw [hX, List.map_append]
        exact List.mem_append_left _ hm
      · rw [if_neg hm]
        obtain ⟨X, hX, _⟩ := Factorize.firstRows_prefix env rest (es ++ [e])
        rw [hX]
        simp
    · split
      · exact ih es e he2 hk
      · split
        · exact ih es e he2 hk
        · exact ih _ e he2 hk

/-! ## Factorize: the loops -/

theorem Factorize.kept_valid (env : Env) (e : Element)
    (h : Factorize.dropped env e = false) : e.IsValid = true := by
  cases hv : e.IsValid
  · simp [Factorize.dropped, hv] at h
  · rfl

theorem Factorize.text_of_ok (env : Env) (e : Element) (t : String)
    (h : e.String env = .ok t) : Factorize.text env e = t := by
  simp [Factorize.text, h]

theorem Factorize.Inv.init (env : Env) (codes : List Int) :
    Factorize.Inv env ⟨codes, [], []⟩ [] :=
  ⟨rfl, by simp, fun t => by simp [List.lookup]⟩

/-- Recording a new text keeps the invariant. -/
theorem Factorize.Inv.push (env : Env) (st : FactorizeState) (es : List Element)
    (h : Factorize.Inv env st es) (e : Element)
    (hnew : Factorize.text env e ∉ es.map (Factorize.text env)) (codes : List Int) :
    Factorize.Inv env
      { codes := codes
        uniques := st.uniques ++ [e.Val]
        uniquesMap := (Factorize.text env e, (st.uniques.length : Int)) :: st.uniquesMap }
      (es ++ [e]) := by
  refine ⟨by simp [h.uniques], ?_, ?_⟩
  · rw [List.map_append, List.map_singleton]
    exact List.Nodup.append h.nodup (List.nodup_singleton _)
      (by simpa [List.Disjoint] using hnew)
  · intro t
    simp only [List.lookup, List.map_append, List.map_singleton]
    by_cases ht : t = Factorize.text env e
    · subst ht
      have hlen : st.uniques.length = (es.map (Factorize.text env)).length := by
        simp [h.uniques]
      simp [List.indexOf_append_of_not_mem hnew, hlen]
    · have hbeq : (t == Factorize.text env e) = false := by simpa using ht
      simp only [hbeq, h.lookup t, List.mem_append, List.mem_singleton, ht, or_false]
      split
      · rename_i hm
        rw [List.indexOf_append_of_mem hm]
      · rfl

theorem Factorize.loop2_spec (env : Env) (rows : List Element) :
    ∀ (i : Nat) (st : FactorizeState) (es : List Element), Factorize.Inv env st es →
      i + rows.length ≤ st.codes.length →
      ∃ st1, Factorize.loop2 env rows i st = .ok st1 ∧
        Factorize.Inv env st1 (Factorize.firstRows env es rows) ∧
        st1.codes.length = st.codes.length ∧
        (∀ j < i, st1.codes[j]? = st.codes[j]?) ∧
        (∀ (j : Nat) (e : Element), rows[j]? = some e →
          st1.codes[i + j]? = some (if Factorize.dropped env e then (-1 : Int)
            else ((((Factorize.firstRows env es rows).map (Factorize.text env)).indexOf
              (Factorize.text env e) : Nat) : Int))) := by
  induction rows with
  | nil =>
    intro i st es hinv _
    exact ⟨st, rfl, hinv, rfl, fun _ _ => rfl, fun j e he => by simp at he⟩
  | cons a rest ih =>
    intro i st es hinv hlen
    have hlen1 : i < st.codes.length := by
      simp only [List.length_cons] at hlen
      omega
    -- shape of the conclusion once the first row is processed into `st0`, `es0`
    have step : ∀ (st0 : FactorizeState) (es0 : List Element) (c : Int),
        Factorize.loop2 env (a :: rest) i st = Factorize.loop2 env rest (i + 1) st0 →
        Factorize.firstRows env es (a :: rest) = Factorize.firstRows env es0 rest →
        Factorize.Inv env st0 es0 → st0.codes = st.codes.set i c →
        (c = if Factorize.dropped env a then (-1 : Int)
            else ((((Factorize.firstRows env es0 rest).map (Factorize.text env)).indexOf
              (Factorize.text env a) : Nat) : Int)) →
        ∃ st1, Factorize.loop2 env (a :: rest) i st = .ok st1 ∧
          Factorize.Inv env st1 (Factorize.firstRows env es (a :: rest)) ∧
          st1.codes.length = st.codes.length ∧
          (∀ j < i, st1.codes[j]? = st.codes[j]?) ∧
          (∀ (j : Nat) (e : Element), (a :: rest)[j]? = some e →
            st1.codes[i + j]? = some (if Factorize.dropped env e then (-1 : Int)
              else ((((Factorize.firstRows env es (a :: rest)).map
                (Factorize.text env)).indexOf (Factorize.text env e) : Nat) : Int))) := by
      intro st0 es0 c hloop hrows hinv0 hcodes hc
      have hl0 : st0.codes.length = st.codes.length := by simp [hcodes]
      obtain ⟨st1, h1, h2, h3, h4, h5⟩ := ih (i + 1) st0 es0 hinv0 (by
        simp only [List.length_cons] at hlen
        omega)
      refine ⟨st1, by rw [hloop, h1], by rw [hrows]; exact h2, by rw [h3, hl0], ?_, ?_⟩
      · intro j hj
        rw [h4 j (by omega), hcodes, List.getElem?_set_ne (by omega)]
      · intro j e he
        cases j with
        | zero =>
          simp only [List.getElem?_cons_zero, Option.some.injEq] at he
          subst he
          rw [Nat.add_zero, h4 i (by omega), hcodes, List.getElem?_set_self hlen1, hrows, hc]
        | succ j =>
          simp only [List.getElem?_cons_succ] at he
          have := h5 j e he
          rw [hrows]
          rw [show i + (j + 1) = i + 1 + j by omega]
          exact this
    by_cases hd : Factorize.dropped env a = true
    · refine step { st with codes := st.codes.set i (-1) } es (-1) ?_ ?_ ?_ rfl ?_
      · simp [Factorize.loop2, hd]
      · simp [Factorize.firstRows, hd]
      · exact ⟨hinv.uniques, hinv.nodup, hinv.lookup⟩
      · simp [hd]
    · have hd2 : Factorize.dropped env a = false := by simpa using hd
      obtain ⟨se, hse⟩ := Element.String_ok_of_valid env a (Factorize.kept_valid env a hd2)
      have htext := Factorize.text_of_ok env a se hse
      by_cases hm : se ∈ es.map (Factorize.text env)
      · obtain ⟨X, hX, _⟩ := Factorize.firstRows_prefix env rest es
        refine step
          { st with
            codes := st.codes.set i (((es.map (Factorize.text env)).indexOf se : Nat) : Int) }
          es _ ?_ ?_ ?_ rfl ?_
        · simp [Factorize.loop2, hd2, hse, hinv.lookup se, hm]
        · simp [Factorize.firstRows, hd2, htext, hm]
        · exact ⟨hinv.uniques, hinv.nodup, hinv.lookup⟩
        · rw [if_neg hd, htext, hX, List.map_append, List.indexOf_append_of_mem hm]
      · obtain ⟨X, hX, _⟩ := Factorize.firstRows_prefix env rest (es ++ [a])
        have hnew : Factorize.text env a ∉ es.map (Factorize.text env) := by
          rw [htext]
          exact hm
        refine step
          { codes := st.codes.set i (st.uniques.length : Int)
            uniques := st.uniques ++ [a.Val]
            uniquesMap := (se, (st.uniques.length : Int)) :: st.uniquesMap }
          (es ++ [a]) _ ?_ ?_ ?_ rfl ?_
        · simp [Factorize.loop2, hd2, hse, hinv.lookup se, hm]
        · simp [Factorize.firstRows, hd2, htext, hm]
        · have := Factorize.Inv.push env st es hinv a hnew (st.codes.set i
            (st.uniques.length : Int))
          rw [htext] at this
          exact this
        · have hlenu : st.uniques.length = (es.map (Factorize.text env)).length := by
            simp [hinv.uniques]
          rw [if_neg hd, hX, List.map_append, List.map_append, List.map_singleton,
            List.append_assoc,
            List.indexOf_append_of_not_mem hnew, List.singleton_append,
            List.indexOf_cons_self, hlenu]
          simp

theorem Factorize.loop1_spec (env : Env) (rows : List Element) :
    ∀ (i : Nat) (st : FactorizeState) (es : List Element), Factorize.Inv env st es →
      ∃ st1, Factorize.loop1 env rows i st = .ok st1 ∧
        Factorize.Inv env st1 (Factorize.firstRows env es rows) ∧
        st1.codes.length = st.codes.length := by
  induction rows with
  | nil =>
    intro i st es hinv
    exact ⟨st, rfl, hinv, rfl⟩
  | cons a rest ih =>
    intro i st es hinv
    by_cases hd : Factorize.dropped env a = true
    · obtain ⟨st1, h1, h2, h3⟩ := ih (i + 1) st es hinv
      exact ⟨st1, by simp [Factorize.loop1, hd, h1], by simpa [Factorize.firstRows, hd] using h2,
        h3⟩
    · have hd2 : Factorize.dropped env a = false := by simpa using hd
      obtain ⟨se, hse⟩ := Element.String_ok_of_valid env a (Factorize.kept_valid env a hd2)
      have htext := Factorize.text_of_ok env a se hse
      by_cases hm : se ∈ es.map (Factorize.text env)
      · obtain ⟨st1, h1, h2, h3⟩ := ih (i + 1)
          { st with
            codes := st.codes.set i (((es.map (Factorize.text env)).indexOf se : Nat) : Int) }
          es ⟨hinv.uniques, hinv.nodup, hinv.lookup⟩
        refine ⟨st1, ?_, ?_, by simpa using h3⟩
        · simp [Factorize.loop1, hd2, hse, hinv.lookup se, hm, h1]
        · simpa [Factorize.firstRows, hd2, htext, hm] using h2
      · have hnew : Factorize.text env a ∉ es.map (Factorize.text env) := by
          rw [htext]
          exact hm
        have hpush := Factorize.Inv.push env st es hinv a hnew st.codes
        rw [htext] at hpush
        obtain ⟨st1, h1, h2, h3⟩ := ih (i + 1) _ (es ++ [a]) hpush
        refine ⟨st1, ?_, ?_, by simpa using h3⟩
        · simp [Factorize.loop1, hd2, hse, hinv.lookup se, hm, h1]
        · simpa [Factorize.firstRows, hd2, htext, hm] using h2

/-! ## Factorize: the returned Series -/

theorem setAll_toList (env : Env) (t : SeriesType) (vals : List Value) :
    (setAll env t vals).toList = vals.map fun v => ((Element.zero t).Set env v).1 := by
  cases t <;> simp [setAll, Elements.toList, Element.zero, Element.Set]

theorem New_ints (env : Env) (cs : List Int) (name : String) :
    New env (.ints cs) .Int name []
      = ⟨name, .intElements (cs.map fun c => ⟨toInt64 c, true, false⟩), .nil, .Int, none⟩ := by
  simp [New, NewDefault, padNil_neg_one, setAll, IntElement.Set]

theorem toInt64_of_range (x : Int) (h0 : -(2 ^ 63) ≤ x) (h1 : x < 2 ^ 63) : toInt64 x = x := by
  unfold toInt64
  omega

/-- Rows of `TestSeries_Factorize`, evaluated (text forms of `codes` and of `uniques`),
and an Int Series factorized with `sort` set. -/
theorem Factorize_test_rows :
    (((Strings sampleEnv (.strings ["b", "b", "a", "c", "b"])).Factorize sampleEnv false).map
      fun r => (r.1.elements.toList.map (Factorize.text sampleEnv),
        r.2.elements.toList.map (Factorize.text sampleEnv)))
      = some (["0", "0", "1", "2", "0"], ["b", "a", "c"]) ∧
    (((Strings sampleEnv (.strings ["b", "b", "a", "c", ""])).Factorize sampleEnv false).map
      fun r => (r.1.elements.toList.map (Factorize.text sampleEnv),
        r.2.elements.toList.map (Factorize.text sampleEnv)))
      = some (["0", "0", "1", "2", "-1"], ["b", "a", "c"]) ∧
    (((Ints sampleEnv (.ints [20, 20, 10, 30, 20])).Factorize sampleEnv true).map
      fun r => (r.1.elements.toList.map (Factorize.text sampleEnv),
        r.2.elements.toList.map (Factorize.text sampleEnv)))
      = some (["1", "1", "0", "2", "1"], ["10", "20", "30"]) := by
  decide

/-! ## Factorize with `sort` set -/

theorem subsetLoop_eq {α : Type} (l : List α) :
    ∀ (idx : List Int) (r : List α), subsetLoop (some l) idx = some r →
      r.map some = idx.map (index l) := by
  intro idx
  induction idx with
  | nil =>
    intro r h
    simp only [subsetLoop, Option.some.injEq] at h
    subst h
    rfl
  | cons i rest ih =>
    intro r h
    simp only [subsetLoop] at h
    cases hx : index l i with
    | none => simp [hx] at h
    | some x =>
      cases hxs : subsetLoop (some l) rest with
      | none => simp [hx, hxs] at h
      | some xs =>
        simp only [hx, hxs, Option.some.injEq] at h
        subst h
        simp [hx, ih xs hxs]

/-- On an error-free Series, `Subset` by a list of rows of the Series returns an
error-free Series of the same type holding the rows named, in the order of the list. -/
theorem Subset_rows (env : Env) (s : Series) (idx : List Int)
    (hErr : s.Err = none) (hWF : s.elements.Type_ = s.t)
    (hIdx : ∀ i ∈ idx, 0 ≤ i ∧ i < s.Len) :
    ∃ r, s.Subset env (.ints idx) = some r ∧ r.Err = none ∧
      r.elements.toList.map some = idx.map s.elements.Elem := by
  obtain ⟨name, els, dv, t, err⟩ := s
  simp only at hErr hWF
  subst hErr
  have key : ∀ {α : Type} (f : α → Element) (l r : List α),
      r.map some = idx.map (index l) →
      (r.map f).map some = idx.map (index (l.map f)) := by
    intro α f l r h
    have h2 := congrArg (List.map (Option.map f)) h
    simp only [List.map_map] at h2 ⊢
    rw [show (some ∘ f) = (Option.map f ∘ some) from rfl, h2]
    apply List.map_congr_left
    intro i _
    simp [index_map]
  cases els with
  | intElements l =>
    simp only [Elements.Type_] at hWF
    subst hWF
    obtain ⟨r, hr, -, -⟩ := subsetLoop_spec l idx
      (by simpa [Series.Len, Elements.Len, Elements.toList] using hIdx)
    exact ⟨⟨name, .intElements r, .nil, .Int, none⟩,
      by simp [Series.Subset, parseIndexes, Elements.asInt, hr], rfl,
      key _ l r (subsetLoop_eq l idx r hr)⟩
  | uintElements l =>
    simp only [Elements.Type_] at hWF
    subst hWF
    obtain ⟨r, hr, -, -⟩ := subsetLoop_spec l idx
      (by simpa [Series.Len, Elements.Len, Elements.toList] using hIdx)
    exact ⟨⟨name, .uintElements r, .nil, .Uint, none⟩,
      by simp [Series.Subset, parseIndexes, Elements.asUint, hr], rfl,
      key _ l r (subsetLoop_eq l idx r hr)⟩
  | stringElements l =>
    simp only [Elements.Type_] at hWF
    subst hWF
    obtain ⟨r, hr, -, -⟩ := subsetLoop_spec l idx
      (by simpa [Series.Len, Elements.Len, Elements.toList] using hIdx)
    exact ⟨⟨name, .stringElements r, .nil, .String, none⟩,
      by simp [Series.Subset, parseIndexes, Elements.asString, hr], rfl,
      key _ l r (subsetLoop_eq l idx r hr)⟩
  | floatElements l =>
    simp only [Elements.Type_] at hWF
    subst hWF
    obtain ⟨r, hr, -, -⟩ := subsetLoop_spec l idx
      (by simpa [Series.Len, Elements.Len, Elements.toList] using hIdx)
    exact ⟨⟨name, .floatElements r, .nil, .Float, none⟩,
      by simp [Series.Subset, parseIndexes, Elements.asFloat, hr], rfl,
      key _ l r (subsetLoop_eq l idx r hr)⟩
  | boolElements l =>
    simp only [Elements.Type_] at hWF
    subst hWF
    obtain ⟨r, hr, -, -⟩ := subsetLoop_spec l idx
      (by simpa [Series.Len, Elements.Len, Elements.toList] using hIdx)
    exact ⟨⟨name, .boolElements r, .nil, .Bool, none⟩,
      by simp [Series.Subset, parseIndexes, Elements.asBool, hr], rfl,
      key _ l r (subsetLoop_eq l idx r hr)⟩

theorem Factorize.firstRows_saturated (env : Env) (rows : List Element) :
    ∀ es : List Element,
      (∀ e ∈ rows, Factorize.dropped env e = false →
        Factorize.text env e ∈ es.map (Factorize.text env)) →
      Factorize.firstRows env es rows = es := by
  induction rows with
  | nil => intro es _; rfl
  | cons a rest ih =>
    intro es h
    unfold Factorize.firstRows
    have hrest := ih es (fun e he hd => h e (List.mem_cons_of_mem _ he) hd)
    split
    · exact hrest
    · rename_i hd
      rw [if_pos (h a (List.mem_cons_self _ _) (by simpa using hd))]
      exact hrest
theorem range_map_getElem? {α : Type} (l : List α) :
    (List.range l.length).map (fun j : ℕ => index l (j : ℤ)) = l.map some := by
  apply List.ext_getElem?
  intro k
  by_cases hk : k < l.length
  · simp [List.getElem?_map, List.getElem?_range hk, index_natCast, hk]
  · simp [List.getElem?_map, List.getElem?_eq_none (Nat.le_of_not_lt hk)]
    omega

theorem Factorize.sortedRows_perm (env : Env) (hsort : SortSpec env.sortSort) (s : Series) :
    (Factorize.sortedRows env s).Perm s.elements.toList := by
  have h := (Order_perm env hsort s false).filterMap s.elements.Elem
  refine h.trans ?_
  rw [List.filterMap_map]
  have h2 := congrArg (List.filterMap id) (range_map_getElem? s.elements.toList)
  simp only [List.filterMap_map] at h2
  rw [show (id ∘ some : Element → Option Element) = some from rfl, List.filterMap_some] at h2
  rw [← h2]
  exact List.Perm.of_eq rfl

theorem Order_in_range (env : Env) (hsort : SortSpec env.sortSort) (s : Series) :
    ∀ i ∈ s.Order env false, 0 ≤ i ∧ i < s.Len := by
  intro i hi
  have h := (Order_perm env hsort s false).subset hi
  simp only [List.mem_map, List.mem_range] at h
  obtain ⟨j, hj, rfl⟩ := h
  exact ⟨by omega, by exact_mod_cast hj⟩

/-- The run of `Factorize(true)` on an error-free Series: `Subset` does not panic, both
loops end normally, and the final state records the first appearances of the kept texts
among the rows taken in the order of `Order(false)`. -/
theorem Factorize.sorted (env : Env) (hsort : SortSpec env.sortSort) (s : Series)
    (hs : s.Err = none) (hWF : s.elements.Type_ = s.t) :
    ∃ st, s.Factorize env true = some (Factorize.result env s st) ∧
      Factorize.Inv env st (Factorize.firstRows env [] (Factorize.sortedRows env s)) ∧
      st.codes.length = s.Len ∧
      (∀ (j : Nat) (e : Element), s.elements.toList[j]? = some e →
        st.codes[j]? = some (if Factorize.dropped env e then (-1 : Int)
          else ((((Factorize.firstRows env [] (Factorize.sortedRows env s)).map
            (Factorize.text env)).indexOf (Factorize.text env e) : Nat) : Int))) := by
  obtain ⟨sv, hsv, hsvErr, hsvRows⟩ := Subset_rows env s (s.Order env false) hs hWF
    (Order_in_range env hsort s)
  have hrows : sv.elements.toList = Factorize.sortedRows env s := by
    have h2 := congrArg (List.filterMap id) hsvRows
    simp only [List.filterMap_map] at h2
    rw [show (id ∘ some : Element → Option Element) = some from rfl, List.filterMap_some] at h2
    rw [h2]
    rfl
  obtain ⟨st1, h1, hinv1, hlen1⟩ := Factorize.loop1_spec env sv.elements.toList 0
    ⟨List.replicate s.Len 0, [], []⟩ [] (Factorize.Inv.init env _)
  rw [hrows] at hinv1
  obtain ⟨st, h2, hinv2, hlen2, -, hcodes⟩ := Factorize.loop2_spec env s.elements.toList 0
    st1 _ hinv1 (by simp [hlen1, Series.Len, Elements.Len])
  have hsat := Factorize.firstRows_saturated env s.elements.toList
    (Factorize.firstRows env [] (Factorize.sortedRows env s))
    (fun e he hd => Factorize.firstRows_mem_text env _ [] e
      ((Factorize.sortedRows_perm env hsort s).symm.subset he) hd)
  rw [hsat] at hinv2 hcodes
  refine ⟨st, ?_, hinv2, by simpa [hlen1] using hlen2, ?_⟩
  · simp [Series.Factorize, hs, hsv, hsvErr, h1, h2]
  · intro j e hj
    simpa using hcodes j e hj

/-! ## Decimal text of integers -/

theorem digitChar_value (k : Nat) (hk : k < 10) : (Nat.digitChar k).toNat - 48 = k := by
  interval_cases k <;> rfl

theorem digitChar_isDigit (k : Nat) (hk : k < 10) : (Nat.digitChar k).isDigit = true := by
  interval_cases k <;> rfl

theorem decimalValue_toDigitsCore (fuel : Nat) :
    ∀ (n : Nat) (ds : List Char), n < fuel →
      decimalValue 0 (Nat.toDigitsCore 10 fuel n ds) = decimalValue n ds := by
  induction fuel with
  | zero => intro n ds h; omega
  | succ fuel ih =>
    intro n ds h
    have hd := digitChar_value (n % 10) (Nat.mod_lt _ (by norm_num))
    unfold Nat.toDigitsCore
    simp only
    split
    · rename_i h0
      simp only [decimalValue, List.foldl_cons, hd]
      congr 1
      omega
    · rename_i h0
      rw [ih (n / 10) _ (by omega)]
      simp only [decimalValue, List.foldl_cons, hd]
      congr 1
      omega

theorem isDigit_toDigitsCore (fuel : Nat) :
    ∀ (n : Nat) (ds : List Char), (∀ c ∈ ds, c.isDigit = true) →
      ∀ c ∈ Nat.toDigitsCore 10 fuel n ds, c.isDigit = true := by
  induction fuel with
  | zero => intro n ds h; simpa [Nat.toDigitsCore] using h
  | succ fuel ih =>
    intro n ds h
    have hd := digitChar_isDigit (n % 10) (Nat.mod_lt _ (by norm_num))
    have hds : ∀ c ∈ Nat.digitChar (n % 10) :: ds, c.isDigit = true := by
      intro c hc
      rcases List.mem_cons.mp hc with rfl | hc
      · exact hd
      · exact h c hc
    unfold Nat.toDigitsCore
    simp only
    split
    · exact hds
    · exact ih _ _ hds

theorem decimalValue_toString (n : Nat) : decimalValue 0 (toString n).data = n := by
  show decimalValue 0 (Nat.toDigits 10 n).asString.data = n
  simp only [List.asString, Nat.toDigits]
  rw [decimalValue_toDigitsCore (n + 1) n [] (by omega)]
  rfl

theorem isDigit_toString (n : Nat) : ∀ c ∈ (toString n).data, c.isDigit = true := by
  show ∀ c ∈ (Nat.toDigits 10 n).asString.data, c.isDigit = true
  simp only [List.asString, Nat.toDigits]
  exact isDigit_toDigitsCore _ _ _ (by simp)

theorem toString_nat_ne_NaN (n : Nat) : toString n ≠ NaN := by
  intro h
  have := isDigit_toString n 'N' (by rw [h]; decide)
  exact absurd this (by decide)

theorem toString_int_ne_NaN (a : Int) : toString a ≠ NaN := by
  cases a with
  | ofNat n => exact toString_nat_ne_NaN n
  | negSucc n =>
    intro h
    have h2 : "-" ++ toString (n + 1) = NaN := h
    have := congrArg String.data h2
    simp [NaN] at this

theorem map_eq_self_of_mem {α : Type} (f : α → α) (l : List α) (hf : ∀ v ∈ l, f v = v) :
    l.map f = l := by
  induction l with
  | nil => rfl
  | cons a rest ih =>
    rw [List.map_cons, hf a (List.mem_cons_self _ _),
      ih (fun v hv => hf v (List.mem_cons_of_mem _ hv))]

theorem truePositions_mem (m : List Bool) :
    ∀ (i : Nat) (x : Int), x ∈ truePositions m i ↔
      ∃ j : Nat, x = ((i + j : Nat) : Int) ∧ m[j]? = some true := by
  induction m with
  | nil => intro i x; simp [truePositions]
  | cons b rest ih =>
    intro i x
    have hshift : (∃ j : Nat, x = ((i + j : Nat) : Int) ∧ (b :: rest)[j]? = some true) ↔
        ((x = (i : Int) ∧ b = true) ∨
          ∃ j : Nat, x = ((i + 1 + j : Nat) : Int) ∧ rest[j]? = some true) := by
      constructor
      · rintro ⟨j, hx, hj⟩
        cases j with
        | zero => exact Or.inl ⟨by simpa using hx, by simpa using hj⟩
        | succ k =>
          refine Or.inr ⟨k, ?_, by simpa using hj⟩
          rw [hx]
          push_cast
          ring
      · rintro (⟨hx, hb⟩ | ⟨j, hx, hj⟩)
        · exact ⟨0, by simpa using hx, by simpa using hb⟩
        · refine ⟨j + 1, ?_, by simpa using hj⟩
          rw [hx]
          push_cast
          ring
    rw [hshift]
    cases b with
    | true => simp [truePositions, ih]
    | false => simp [truePositions, ih]

theorem truePositions_increasing (m : List Bool) :
    ∀ i : Nat, (truePositions m i).Pairwise (· < ·) := by
  induction m with
  | nil => intro i; simp [truePositions]
  | cons b rest ih =>
    intro i
    cases b with
    | false => simpa [truePositions] using ih (i + 1)
    | true =>
      simp only [truePositions, if_true, List.pairwise_cons]
      refine ⟨?_, ih (i + 1)⟩
      intro x hx
      obtain ⟨j, hj, -⟩ := (truePositions_mem rest (i + 1) x).mp hx
      rw [hj]
      push_cast
      omega

/-- C22: for a length `l` and a boolean mask `m`, index resolution returns an error when
`len(m) != l`; otherwise it returns a list that is strictly increasing and holds exactly
the positions `i` of `[0, l)` with `m[i] = true`.  `Subset` of an error-free Series by a
mask of the length of the Series then returns, without an out-of-range access, an
error-free Series. -/
theorem C22_mask_resolution (env : Env) (l : Nat) (m : List Bool) :
    (m.length ≠ l → ∃ err, parseIndexes env l (.bools m) = .error err) ∧
    (m.length = l → ∃ idx, parseIndexes env l (.bools m) = .ok idx ∧
      idx.Pairwise (· < ·) ∧
      ∀ i : Int, i ∈ idx ↔ (0 ≤ i ∧ i < l ∧ m[i.toNat]? = some true)) ∧
    (∀ s : Series, s.Err = none → s.elements.Type_ = s.t → m.length = s.Len →
      ∃ r, s.Subset env (.bools m) = some r ∧ r.Err = none) := by
  have hmem : ∀ i : Int, i ∈ truePositions m 0 ↔
      (0 ≤ i ∧ i < m.length ∧ m[i.toNat]? = some true) := by
    intro i
    rw [truePositions_mem]
    constructor
    · rintro ⟨j, hj, hm⟩
      have hlt : j < m.length := by
        by_contra hc
        rw [List.getElem?_eq_none (by omega)] at hm
        exact absurd hm (by simp)
      subst hj
      refine ⟨by omega, by simp; omega, by simpa using hm⟩
    · rintro ⟨h0, -, hm⟩
      exact ⟨i.toNat, by simp; omega, hm⟩
  refine ⟨?_, ?_, ?_⟩
  · intro h
    exact ⟨"indexing error: index dimensions mismatch",
      by simp [parseIndexes, parseIndexes.ofBools, h]⟩
  · intro h
    subst h
    exact ⟨truePositions m 0, by simp [parseIndexes, parseIndexes.ofBools],
      truePositions_increasing m 0, hmem⟩
  · intro s hs hWF hlen
    have heq : s.Subset env (.bools m) = s.Subset env (.ints (truePositions m 0)) := by
      simp [Series.Subset, hs, parseIndexes, parseIndexes.ofBools, hlen]
    rw [heq]
    obtain ⟨r, hr, hErr, -⟩ := Subset_rows env s (truePositions m 0) hs hWF
      (fun i hi => by
        have := (hmem i).mp hi
        exact ⟨this.1, by rw [← hlen]; exact this.2.1⟩)
    exact ⟨r, hr, hErr⟩

/-- C22 on the mask row of `TestSeries_Subset`. -/
theorem C22_mask_resolution_witness :
    (∃ err, parseIndexes sampleEnv 3 (.bools [true, false, false, true, true]) = .error err) ∧
    (∃ idx, parseIndexes sampleEnv 5 (.bools [true, false, false, true, true]) = .ok idx ∧
      idx.Pairwise (· < ·) ∧
      ∀ i : Int, i ∈ idx ↔
        (0 ≤ i ∧ i < (5 : Nat) ∧ [true, false, false, true, true][i.toNat]? = some true)) ∧
    (∃ r, (Strings sampleEnv (.strings ["A", "B", "C", "K", "D"])).Subset sampleEnv
        (.bools [true, false, false, true, true]) = some r ∧ r.Err = none) ∧
    parseIndexes sampleEnv 5 (.bools [true, false, false, true, true]) = .ok [0, 3, 4] :=
  ⟨(C22_mask_resolution sampleEnv 3 [true, false, false, true, true]).1 (by decide),
   (C22_mask_resolution sampleEnv 5 [true, false, false, true, true]).2.1 (by decide),
   (C22_mask_resolution sampleEnv 5 [true, false, false, true, true]).2.2
      (Strings sampleEnv (.strings ["A", "B", "C", "K", "D"])) (by decide) (by decide)
      (by decide),
   rfl⟩

/-! ## Compare with a comparando of another length -/

theorem setAll_Len (env : Env) (t : SeriesType) (vals : List Value) :
    (setAll env t vals).Len = vals.length := by
  simp [Elements.Len, setAll_toList]

theorem New_seqLen (env : Env) (x : Values) (t : SeriesType) (name : String) (n : Nat)
    (hx : x.seqLen = some n) : (New env x t name []).Len = n := by
  cases x <;>
    simp_all [Values.seqLen, New, NewDefault, padNil_neg_one, Series.Len, Elements.Len,
      setAll_toList]

/-- C21 as stated fails for a sequence of one element: `Ints([0, 2, 1, 5, 9])` compared
by `Eq` with the slice `[2]`, whose length `1` differs from `5`, gives the error-free Bool
Series `[false, true, false, false, false]`: the single element is compared with every
row. -/
theorem C21_single_element_sequence_broadcast :
    (Ints sampleEnv (.ints [0, 2, 1, 5, 9])).Err = none ∧
    (Ints sampleEnv (.ints [0, 2, 1, 5, 9])).Len = 5 ∧
    (Values.ints [2]).seqLen = some 1 ∧
    (Ints sampleEnv (.ints [0, 2, 1, 5, 9])).Compare sampleEnv .Eq (.ints [2])
      = Bools sampleEnv (.bools [false, true, false, false, false]) ∧
    ((Ints sampleEnv (.ints [0, 2, 1, 5, 9])).Compare sampleEnv .Eq (.ints [2])).Err = none := by
  decide

/-- C21 (amended): on an error-free Series `s`, for a comparator other than `In` and a
comparando that is a sequence whose length differs from `s.Len()` and from `1`, `Compare`
returns an empty Series of the type of `s` carrying the error
`can't compare: length mismatch`. -/
theorem C21_compare_length_mismatch (env : Env) (s : Series) (c : Comparator) (x : Values)
    (n : Nat) (hs : s.Err = none) (hc : c ≠ .In) (hx : x.seqLen = some n) (hn : n ≠ s.Len)
    (h1 : n ≠ 1) :
    (s.Compare env c x).Err = some "can\x27t compare: length mismatch" ∧
    (s.Compare env c x).Len = 0 ∧ (s.Compare env c x).t = s.t := by
  have hlen := New_seqLen env x s.t "" n hx
  have hfail : s.Compare env c x
      = { s.Empty env with Err := some "can\x27t compare: length mismatch" } := by
    simp only [Series.Compare, hs, hc, if_false]
    have hlen2 : (New env x s.t "" []).elements.toList.length = n := hlen
    match hm : (New env x s.t "" []).elements.toList with
    | [] =>
      simp [hlen, Ne.symm hn]
    | [m] =>
      rw [hm] at hlen2
      exact absurd hlen2.symm h1
    | m :: m2 :: rest =>
      simp [hlen, Ne.symm hn]
  rw [hfail]
  refine ⟨rfl, ?_, rfl⟩
  simp [Series.Empty, New, NewDefault, padNil_neg_one, Series.Len, setAll_Len]

/-- C21 (amended) on a sequence of three elements against a Series of five rows. -/
theorem C21_compare_length_mismatch_witness :
    ((Ints sampleEnv (.ints [0, 2, 1, 5, 9])).Compare sampleEnv .Less (.ints [0, 2, 0])).Err
      = some "can\x27t compare: length mismatch" ∧
    ((Ints sampleEnv (.ints [0, 2, 1, 5, 9])).Compare sampleEnv .Less (.ints [0, 2, 0])).Len = 0 ∧
    ((Ints sampleEnv (.ints [0, 2, 1, 5, 9])).Compare sampleEnv .Less (.ints [0, 2, 0])).t
      = (Ints sampleEnv (.ints [0, 2, 1, 5, 9])).t :=
  C21_compare_length_mismatch sampleEnv (Ints sampleEnv (.ints [0, 2, 1, 5, 9])) .Less
    (.ints [0, 2, 0]) 3 (by decide) (by decide) rfl (by decide) (by decide)

/-! ## Set on a Series -/

/-- On an error-free Series, `Set` at an index outside `[0, Len)` does not return: after
recording the error it evaluates `s.elements.Elem(index)`, which panics. -/
theorem Set_out_of_range (env : Env) (s : Series) (i : Int) (v : Value) (hs : s.Err = none)
    (hi : i < 0 ∨ (s.Len : Int) ≤ i) : s.Set env i v = none := by
  have hE : s.elements.Elem i = none := by
    unfold Elements.Elem index
    split
    · rfl
    · rename_i h0
      apply List.getElem?_eq_none
      have : (s.elements.toList.length : Int) ≤ i := by
        rcases hi with h | h
        · omega
        · exact h
      omega
  have hcond : i < 0 ∨ i ≥ (s.elements.Len : Int) := by
    rcases hi with h | h
    · exact Or.inl h
    · exact Or.inr h
  simp [Series.Set, hs, hcond, hE]

/-- C23 (the code departs from the claim): `Set` tests the index and records
`index out of bounds`, but does not return there: it goes on to `s.elements.Elem(index)`,
which indexes the slice out of range, a run-time panic (`none`).  On `Ints([1, 2, 3])`
this happens for the index `3` and for the index `-1`, while the index `2` is assigned
without error. -/
theorem C23_set_out_of_range_panics :
    (Ints sampleEnv (.ints [1, 2, 3])).Err = none ∧
    (Ints sampleEnv (.ints [1, 2, 3])).Len = 3 ∧
    (Ints sampleEnv (.ints [1, 2, 3])).Set sampleEnv 3 (.int 9) = none ∧
    (Ints sampleEnv (.ints [1, 2, 3])).Set sampleEnv (-1) (.int 9) = none ∧
    ((Ints sampleEnv (.ints [1, 2, 3])).Set sampleEnv 2 (.int 9)).map
      (fun r => (r.Err, r.elements.toList))
      = some (none, [.ofInt ⟨1, true, false⟩, .ofInt ⟨2, true, false⟩,
          .ofInt ⟨9, true, false⟩]) :=
  ⟨rfl, by decide, Set_out_of_range sampleEnv _ 3 _ rfl (by decide),
    Set_out_of_range sampleEnv _ (-1) _ rfl (by decide), by decide⟩

/-- C24 (the code departs from the claim): `NewDefault` never stores its `defaultValue`
argument in the Series it returns, so the `s.defaultValue` that `Set` uses for a `nil`
value is always `nil`.  On `NewDefault([1, 2], 7, Int, "x")`, `Set(0, nil)` leaves row `0`
Null (payload `1`, not valid), where the default `7` coerced to Int is the valid
element `7`. -/
theorem C24_default_not_stored :
    (∀ (env : Env) (values : Values) (d : Value) (t : SeriesType) (name : String)
        (size : List Int), (NewDefault env values d t name size).defaultValue = Value.nil) ∧
    ((NewDefault sampleEnv (.ints [1, 2]) (.int 7) .Int "x" []).Set sampleEnv 0 .nil).map
      (fun r => (r.Err, r.elements.toList))
      = some (none, [.ofInt ⟨1, false, false⟩, .ofInt ⟨2, true, false⟩]) ∧
    ((Element.zero .Int).Set sampleEnv (.int 7)).1 = .ofInt ⟨7, true, false⟩ := by
  refine ⟨?_, by decide, by decide⟩
  intro env values d t name size
  cases values <;> rfl

/-! ## Sticky error -/

/-- C27: on a Series whose error is set, `Subset`, `Set`, `Update`, `Compare` and `Concat`
return the Series itself (same name, elements, type and error) for all arguments, also
for arguments that would otherwise fail or panic, and `Append` leaves the Series as it
is. -/
theorem C27_sticky_error (env : Env) (s : Series) (err : error) (hs : s.Err = some err) :
    (∀ indexes : Indexes, s.Subset env indexes = some s) ∧
    (∀ (i : Int) (v : Value), s.Set env i v = some s) ∧
    (∀ (indexes : Indexes) (newvalues : Series) (b : Backing),
      s.Update env indexes newvalues b = some s) ∧
    (∀ (c : Comparator) (x : Values), s.Compare env c x = s) ∧
    (∀ x : Series, s.Concat env x = some s) ∧
    (∀ values : Values, s.Append env values = some s) := by
  refine ⟨?_, ?_, ?_, ?_, ?_, ?_⟩
  · intro indexes
    simp [Series.Subset, hs]
  · intro i v
    simp [Series.Set, hs]
  · intro indexes newvalues b
    simp [Series.Update, hs]
  · intro c x
    simp [Series.Compare, hs]
  · intro x
    simp [Series.Concat, hs]
  · intro values
    simp [Series.Append, hs]

/-- C27 on the Series with an error that `Subset` returns for a mask of the wrong length. -/
theorem C27_sticky_error_witness :
    (Strings sampleEnv (.strings ["A", "B"])).Subset sampleEnv (.bools [true])
      = some ⟨"", .stringElements [⟨"A", true⟩, ⟨"B", true⟩], .nil, .String,
          some "indexing error: index dimensions mismatch"⟩ ∧
    (∀ indexes : Indexes,
      Series.Subset sampleEnv ⟨"", .stringElements [⟨"A", true⟩, ⟨"B", true⟩], .nil, .String,
        some "indexing error: index dimensions mismatch"⟩ indexes
      = some ⟨"", .stringElements [⟨"A", true⟩, ⟨"B", true⟩], .nil, .String,
          some "indexing error: index dimensions mismatch"⟩) ∧
    (∀ (i : Int) (v : Value),
      Series.Set sampleEnv ⟨"", .stringElements [⟨"A", true⟩, ⟨"B", true⟩], .nil, .String,
        some "indexing error: index dimensions mismatch"⟩ i v
      = some ⟨"", .stringElements [⟨"A", true⟩, ⟨"B", true⟩], .nil, .String,
          some "indexing error: index dimensions mismatch"⟩) :=
  ⟨by decide,
   (C27_sticky_error sampleEnv ⟨"", .stringElements [⟨"A", true⟩, ⟨"B", true⟩], .nil, .String,
      some "indexing error: index dimensions mismatch"⟩
      "indexing error: index dimensions mismatch" rfl).1,
   (C27_sticky_error sampleEnv ⟨"", .stringElements [⟨"A", true⟩, ⟨"B", true⟩], .nil, .String,
      some "indexing error: index dimensions mismatch"⟩
      "indexing error: index dimensions mismatch" rfl).2.1⟩

/-! ## Records -/

theorem Records.loop_ok (env : Env) (force : Bool) (f : Element → String) (l : List Element)
    (h : ∀ e ∈ l, e.String env = .ok (f e)) : Records.loop env force l = .ok (l.map f) := by
  induction l with
  | nil => rfl
  | cons a rest ih =>
    simp only [Records.loop, h a (List.mem_cons_self _ _),
      ih (fun e he => h e (List.mem_cons_of_mem _ he)), List.map_cons]

/-- C29: for a list `vs` of 64-bit signed integers, `Ints(vs).Records(true)` returns,
without error, the base-10 texts of `vs` in order; for a list `bs` of booleans,
`Bools(bs).Records(true)` returns their texts `true` / `false` in order. -/
theorem C29_records_ints_bools (env : Env) (vs : List Int) (bs : List Bool)
    (hvs : ∀ v ∈ vs, -(2 ^ 63) ≤ v ∧ v < 2 ^ 63) :
    (Ints env (.ints vs)).Records env true = .ok (vs.map toString) ∧
    (Bools env (.bools bs)).Records env true
      = .ok (bs.map fun b => if b then "true" else "false") := by
  constructor
  · have hI : (Ints env (.ints vs)).elements.toList
        = vs.map fun v => Element.ofInt ⟨v, true, false⟩ := by
      simp only [Ints, New_ints, Elements.toList, List.map_map]
      apply List.map_congr_left
      intro v hv
      simp [toInt64_of_range v (hvs v hv).1 (hvs v hv).2]
    rw [Series.Records, hI,
      Records.loop_ok env true (fun e => match e with
        | .ofInt x => toString x.e
        | _ => "") _ (by
          intro e he
          obtain ⟨v, -, rfl⟩ := List.mem_map.mp he
          simp [Element.String, IntElement.String]),
      List.map_map]
    rfl
  · have hB : (Bools env (.bools bs)).elements.toList
        = bs.map fun b => Element.ofBool ⟨b, true⟩ := by
      simp [Bools_bools, Elements.toList]
    rw [Series.Records, hB,
      Records.loop_ok env true (fun e => match e with
        | .ofBool x => if x.e then "true" else "false"
        | _ => "") _ (by
          intro e he
          obtain ⟨b, -, rfl⟩ := List.mem_map.mp he
          cases b <;> simp [Element.String, boolElement.String]),
      List.map_map]
    rfl

/-- C29 on the lists `[1, -2, 30]` and `[true, false, true]`. -/
theorem C29_records_ints_bools_witness :
    (Ints sampleEnv (.ints [1, -2, 30])).Records sampleEnv true = .ok ["1", "-2", "30"] ∧
    (Bools sampleEnv (.bools [true, false, true])).Records sampleEnv true
      = .ok ["true", "false", "true"] :=
  C29_records_ints_bools sampleEnv [1, -2, 30] [true, false, true] (by decide)

/-! ## The constructors -/

theorem Element.zero_Set_nil (env : Env) (t : SeriesType) :
    ((Element.zero t).Set env .nil).1 = Element.zero t := by
  cases t <;> rfl

theorem NewDefault_items (env : Env) (x : Values) (d : Value) (t : SeriesType) (name : String)
    (size : List Int) (items : List Value) (hx : x.items d = some items) :
    NewDefault env x d t name size
      = ⟨name, setAll env t (padNil items (match size with
          | [n] => n
          | _ => -1)), .nil, t, none⟩ := by
  cases x <;> simp_all [Values.items, NewDefault]

theorem padNil_length (vals : List Value) (k : Int) :
    (padNil vals k).length = (max (vals.length : Int) k).toNat := by
  simp only [padNil, List.length_append, List.length_replicate, imax]
  split <;> omega

/-- C25 as stated fails when a default is given: `NewDefault([1, 2], 7, Int, "x", 4)` has
length `4` and its rows `2` and `3` are Null, not the default `7` coerced to Int. -/
theorem C25_padding_ignores_default :
    (NewDefault sampleEnv (.ints [1, 2]) (.int 7) .Int "x" [4]).elements.toList
      = [.ofInt ⟨1, true, false⟩, .ofInt ⟨2, true, false⟩, .ofInt ⟨0, false, false⟩,
          .ofInt ⟨0, false, false⟩] ∧
    (NewDefault sampleEnv (.ints [1, 2]) (.int 7) .Int "x" [4]).Err = none ∧
    ((Element.zero .Int).Set sampleEnv (.int 7)).1 = .ofInt ⟨7, true, false⟩ := by
  decide

/-- C25 (amended): for an input sequence with the values `items` (`n` of them), a size
`k` and a default `d`, `NewDefault(values, d, t, name, k)` is error-free, has length
`max(n, k)`, its first `n` elements are the input values coerced to the type `t` (what
`Set` makes of each on a fresh element), and every element at a position `>= n` is Null,
whatever the default. -/
theorem C25_newdefault_padding (env : Env) (x : Values) (d : Value) (t : SeriesType)
    (name : String) (k : Int) (items : List Value) (hx : x.items d = some items) :
    (NewDefault env x d t name [k]).Err = none ∧
    (NewDefault env x d t name [k]).t = t ∧
    (NewDefault env x d t name [k]).Len = (max (items.length : Int) k).toNat ∧
    (NewDefault env x d t name [k]).elements.toList
      = items.map (fun v => ((Element.zero t).Set env v).1)
        ++ List.replicate ((max (items.length : Int) k).toNat - items.length)
          (Element.zero t) ∧
    (Element.zero t).IsValid = false := by
  rw [NewDefault_items env x d t name [k] items hx]
  refine ⟨rfl, rfl, ?_, ?_, by cases t <;> rfl⟩
  · simp only [Series.Len, setAll_Len, padNil_length]
  · simp only [setAll_toList, padNil, List.map_append, List.map_replicate,
      Element.zero_Set_nil]
    congr 2
    simp only [imax]
    split <;> omega

/-- C25 (amended) on the padded row of `TestSeries_Compare_Eq`, `New([0, 2, 1, 5, 9], Int,
"", 6)`, with a default added. -/
theorem C25_newdefault_padding_witness :
    (NewDefault sampleEnv (.ints [0, 2, 1, 5, 9]) (.int 7) .Int "" [6]).Err = none ∧
    (NewDefault sampleEnv (.ints [0, 2, 1, 5, 9]) (.int 7) .Int "" [6]).t = .Int ∧
    (NewDefault sampleEnv (.ints [0, 2, 1, 5, 9]) (.int 7) .Int "" [6]).Len
      = (max (([0, 2, 1, 5, 9].map Value.int64).length : Int) 6).toNat ∧
    (NewDefault sampleEnv (.ints [0, 2, 1, 5, 9]) (.int 7) .Int "" [6]).elements.toList
      = ([0, 2, 1, 5, 9].map Value.int64).map
          (fun v => ((Element.zero .Int).Set sampleEnv v).1)
        ++ List.replicate ((max (([0, 2, 1, 5, 9].map Value.int64).length : Int) 6).toNat
            - ([0, 2, 1, 5, 9].map Value.int64).length) (Element.zero .Int) ∧
    (Element.zero .Int).IsValid = false :=
  C25_newdefault_padding sampleEnv (.ints [0, 2, 1, 5, 9]) (.int 7) .Int "" 6
    ([0, 2, 1, 5, 9].map Value.int64) rfl

theorem padNil_getElem? (vals : List Value) (k : Int) (i : Nat) (v : Value)
    (h : vals[i]? = some v) : (padNil vals k)[i]? = some v := by
  have hi : i < vals.length := (List.getElem?_eq_some.mp h).1
  rw [padNil, List.getElem?_append_left hi]
  exact h

theorem New_getElem? (env : Env) (x : Values) (t : SeriesType) (name : String)
    (size : List Int) (items : List Value) (i : Nat) (v : Value)
    (hx : x.items .nil = some items) (hv : items[i]? = some v) :
    (New env x t name size).elements.toList[i]? = some ((Element.zero t).Set env v).1 := by
  rw [New, NewDefault_items env x .nil t name size items hx]
  simp only [setAll_toList, List.getElem?_map, padNil_getElem? _ _ i _ hv, Option.map_some']

/-- C26 as stated fails: `Ints(["1", "a"])` is built from a string that `ParseInt`
rejects, so `Set` returns an error for row `1`, yet the Series carries no error and row
`1` is in the NaN state; `New` on a slice holding a value of an unsupported type likewise
carries no error, and the row is Null. -/
theorem C26_failed_coercion_not_recorded :
    ((Element.zero .Int).Set sampleEnv (.string "a")).2.isSome = true ∧
    (Ints sampleEnv (.strings ["1", "a"])).Err = none ∧
    (Ints sampleEnv (.strings ["1", "a"])).elements.toList
      = [.ofInt ⟨1, true, false⟩, .ofInt ⟨0, true, true⟩] ∧
    ((Element.zero .Int).Set sampleEnv .other).2.isSome = true ∧
    (New sampleEnv (.slice [.other]) .Int "" []).Err = none ∧
    (New sampleEnv (.slice [.other]) .Int "" []).elements.toList
      = [.ofInt ⟨0, false, false⟩] := by
  decide

/-- C26 (amended): `NewDefault` and `New` always return a Series whose error field is
empty; the errors returned by the `Set` of the elements are dropped.  A value that fails
to coerce shows only in the state of its row: in an Int Series a string other than the
two sentinels that `ParseInt` rejects gives a row in the NaN state, and in a Series of any
type a value of an unsupported type gives a Null row. -/
theorem C26_constructor_records_no_error (env : Env) (values : Values) (d : Value)
    (t : SeriesType) (name : String) (size : List Int) :
    (NewDefault env values d t name size).Err = none ∧
    (New env values t name size).Err = none ∧
    (∀ (v : List String) (i : Nat) (str : String), v[i]? = some str → str ≠ Nil →
      str ≠ NaN → (∃ err, env.ParseInt str = .error err) →
      (New env (.strings v) .Int name size).elements.toList[i]?
        = some (.ofInt ⟨0, true, true⟩)) ∧
    (∀ (vs : List Value) (i : Nat), vs[i]? = some .other →
      ∃ e, (New env (.slice vs) t name size).elements.toList[i]? = some e ∧
        e.IsValid = false) := by
  have hErr : ∀ dv : Value, (NewDefault env values dv t name size).Err = none := by
    intro dv
    cases values <;> rfl
  refine ⟨hErr d, hErr .nil, ?_, ?_⟩
  · intro v i str hv h1 h2 ⟨err, hp⟩
    rw [New_getElem? env (.strings v) .Int name size _ i (.string str) rfl
      (by rw [List.getElem?_map, hv]; rfl)]
    simp [Element.zero, Element.Set, IntElement.Set, h1, h2, hp]
  · intro vs i hv
    refine ⟨_, New_getElem? env (.slice vs) t name size _ i .other rfl
      (by rw [List.getElem?_map, hv]; rfl), ?_⟩
    cases t <;> rfl

/-- C26 (amended) on `Ints(["1", "a"])` and on a slice holding a value of an unsupported
type. -/
theorem C26_constructor_records_no_error_witness :
    (NewDefault sampleEnv (.strings ["1", "a"]) (.int 7) .Int "" []).Err = none ∧
    (New sampleEnv (.strings ["1", "a"]) .Int "" []).elements.toList[1]?
      = some (.ofInt ⟨0, true, true⟩) ∧
    (∃ e, (New sampleEnv (.slice [.int 1, .other]) .Int "" []).elements.toList[1]? = some e ∧
      e.IsValid = false) :=
  ⟨(C26_constructor_records_no_error sampleEnv (.strings ["1", "a"]) (.int 7) .Int "" []).1,
   (C26_constructor_records_no_error sampleEnv (.strings ["1", "a"]) (.int 7) .Int "" []).2.2.1
      ["1", "a"] 1 "a" rfl (by decide) (by decide) ⟨_, rfl⟩,
   (C26_constructor_records_no_error sampleEnv (.strings ["1", "a"]) (.int 7) .Int "" []).2.2.2
      [.int 1, .other] 1 rfl⟩

/-! ## Parsing the decimal text of an integer -/

theorem toDigitsCore_ne_nil (fuel : Nat) :
    ∀ (n : Nat) (ds : List Char), ds ≠ [] → Nat.toDigitsCore 10 fuel n ds ≠ [] := by
  induction fuel with
  | zero => intro n ds h; simpa [Nat.toDigitsCore] using h
  | succ fuel ih =>
    intro n ds _
    unfold Nat.toDigitsCore
    simp only
    split
    · simp
    · exact ih _ _ (by simp)

theorem toString_nat_data_ne_nil (n : Nat) : (toString n).data ≠ [] := by
  show (Nat.toDigits 10 n).asString.data ≠ []
  simp only [List.asString, Nat.toDigits]
  unfold Nat.toDigitsCore
  simp only
  split
  · simp
  · exact toDigitsCore_ne_nil _ _ _ (by simp)

theorem toString_nat_ne_Nil (n : Nat) : toString n ≠ Nil := by
  intro h
  exact toString_nat_data_ne_nil n (by rw [h]; rfl)

theorem toString_int_ne_Nil (a : Int) : toString a ≠ Nil := by
  cases a with
  | ofNat n => exact toString_nat_ne_Nil n
  | negSucc n =>
    intro h
    have h2 : "-" ++ toString (n + 1) = Nil := h
    have := congrArg String.data h2
    simp [Nil] at this

theorem parseDigits_of_digits (cs : List Char) (hne : cs ≠ [])
    (hd : ∀ c ∈ cs, c.isDigit = true) : parseDigits cs = some (decimalValue 0 cs) := by
  have key : ∀ (l : List Char) (acc : Nat), (∀ c ∈ l, c.isDigit = true) →
      l.foldl (fun (a : Option Nat) c => a.bind fun n =>
        if c.isDigit then some (n * 10 + (c.toNat - 48)) else none) (some acc)
        = some (decimalValue acc l) := by
    intro l
    induction l with
    | nil => intro acc _; rfl
    | cons c rest ih =>
      intro acc h
      simp only [List.foldl_cons, Option.some_bind, h c (List.mem_cons_self _ _), if_true]
      rw [ih _ (fun x hx => h x (List.mem_cons_of_mem _ hx))]
      rfl
  unfold parseDigits
  rw [if_neg hne]
  exact key cs 0 hd

theorem parseDigits_toString (n : Nat) : parseDigits (toString n).data = some n := by
  rw [parseDigits_of_digits _ (toString_nat_data_ne_nil n) (isDigit_toString n),
    decimalValue_toString]

theorem sampleParseUint_toString (n : Nat) (h : n < 2 ^ 64) :
    sampleParseUint (toString n) = .ok n := by
  simp only [sampleParseUint, parseDigits_toString]
  rw [if_neg (by omega)]

theorem sampleParseInt_toString (v : Int) (h0 : -(2 ^ 63) ≤ v) (h1 : v < 2 ^ 63) :
    sampleParseInt (toString v) = .ok v := by
  cases v with
  | ofNat n =>
    have hdata : (toString (Int.ofNat n)).data = (toString n).data := rfl
    have hc : ¬ ((n : Int) < -(2 ^ 63) ∨ 2 ^ 63 ≤ (n : Int)) := by
      have : (n : Int) = Int.ofNat n := rfl
      omega
    unfold sampleParseInt
    rw [hdata]
    split
    · rename_i cs hcs
      have := isDigit_toString n '-' (by rw [hcs]; simp)
      exact absurd this (by decide)
    · rename_i cs hcs
      have := isDigit_toString n '+' (by rw [hcs]; simp)
      exact absurd this (by decide)
    · rw [parseDigits_toString]
      show (if (n : Int) < -(2 ^ 63) ∨ 2 ^ 63 ≤ (n : Int) then
        Except.error "strconv.ParseInt: value out of range" else Except.ok (n : Int)) = _
      rw [if_neg hc]
      rfl
  | negSucc n =>
    have hdata : (toString (Int.negSucc n)).data = '-' :: (toString (n + 1)).data := rfl
    have hv : Int.negSucc n = -((n + 1 : Nat) : Int) := rfl
    have hc : ¬ (-((n + 1 : Nat) : Int) < -(2 ^ 63) ∨ 2 ^ 63 ≤ -((n + 1 : Nat) : Int)) := by
      omega
    unfold sampleParseInt
    rw [hdata]
    simp only [parseDigits_toString]
    show (if -((n + 1 : Nat) : Int) < -(2 ^ 63) ∨ 2 ^ 63 ≤ -((n + 1 : Nat) : Int) then
      Except.error "strconv.ParseInt: value out of range"
      else Except.ok (-((n + 1 : Nat) : Int))) = _
    rw [if_neg hc]
    rfl

theorem sampleEnv_parseSpec : ParseSpec sampleEnv where
  int := sampleParseInt_toString
  uint := sampleParseUint_toString

/-! ## Records and back -/

/-- A row of an Int or Uint Series, its text from `String()`, and the fresh element of
the same type set to this text: the text is produced without error, the new element is
Null, or in the NaN state, exactly when the row is, and a present row outside the NaN
state is recovered as it was. -/
theorem Records.recreate_row (env : Env) (hparse : ParseSpec env) (e : Element)
    (hk : e.Type_ = .Int ∨ e.Type_ = .Uint) (hw : e.wellFormed = true) :
    e.String env = .ok (Factorize.text env e) ∧
    ((Element.zero e.Type_).Set env (.string (Factorize.text env e))).1.Null = e.Null ∧
    ((Element.zero e.Type_).Set env (.string (Factorize.text env e))).1.NaNState
      = e.NaNState ∧
    (e.Null = false → e.NaNState = false →
      ((Element.zero e.Type_).Set env (.string (Factorize.text env e))).1 = e) := by
  cases e with
  | ofInt x =>
    obtain ⟨v, valid, nan⟩ := x
    simp only [Element.wellFormed, decide_eq_true_eq] at hw
    cases valid with
    | false =>
      simp [Element.String, IntElement.String, Factorize.text, Element.zero, Element.Type_,
        Element.Set, IntElement.Set, Element.Null, Element.NaNState, Element.IsValid,
        IntElement.IsValid]
    | true =>
      cases nan with
      | true =>
        simp [Element.String, IntElement.String, Factorize.text, Element.zero, Element.Type_,
          Element.Set, IntElement.Set, Element.Null, Element.NaNState, Element.IsValid,
          IntElement.IsValid, NaN, Nil]
      | false =>
        simp [Element.String, IntElement.String, Factorize.text, Element.zero, Element.Type_,
          Element.Set, IntElement.Set, Element.Null, Element.NaNState, Element.IsValid,
          IntElement.IsValid, toString_int_ne_Nil, toString_int_ne_NaN,
          hparse.int v hw.1 hw.2]
  | ofUint x =>
    obtain ⟨v, valid, nan⟩ := x
    simp only [Element.wellFormed, decide_eq_true_eq] at hw
    cases valid with
    | false =>
      simp [Element.String, uintElement.String, Factorize.text, Element.zero, Element.Type_,
        Element.Set, uintElement.Set, Element.Null, Element.NaNState, Element.IsValid,
        uintElement.IsValid]
    | true =>
      cases nan with
      | true =>
        simp [Element.String, uintElement.String, Factorize.text, Element.zero, Element.Type_,
          Element.Set, uintElement.Set, Element.Null, Element.NaNState, Element.IsValid,
          uintElement.IsValid, NaN, Nil]
      | false =>
        simp [Element.String, uintElement.String, Factorize.text, Element.zero, Element.Type_,
          Element.Set, uintElement.Set, Element.Null, Element.NaNState, Element.IsValid,
          uintElement.IsValid, toString_nat_ne_Nil, toString_nat_ne_NaN, hparse.uint v hw]
  | ofString x => simp [Element.Type_] at hk
  | ofFloat x => simp [Element.Type_] at hk
  | ofBool x => simp [Element.Type_] at hk

/-- C30: for an Int or Uint Series `s`, `s.Records(true)` returns without error, and the
Series of the same type built from the returned texts has the length of `s` and, row by
row, the state of `s`: a Null row is Null, a NaN row is NaN, and a present row outside the
NaN state is the same element, with the same value.  `strconv.ParseInt` and
`strconv.ParseUint` are taken with their documented behaviour `ParseSpec`; each row is
well formed (`Element.wellFormed`: the payload fits its Go type). -/
theorem C30_records_recreate (env : Env) (hparse : ParseSpec env) (s : Series)
    (name : String) (hkind : s.t = .Int ∨ s.t = .Uint) (hWF : s.elements.Type_ = s.t)
    (hEl : ∀ e ∈ s.elements.toList, e.wellFormed = true) :
    ∃ recs, s.Records env true = .ok recs ∧
      (New env (.strings recs) s.t name []).Err = none ∧
      (New env (.strings recs) s.t name []).t = s.t ∧
      (New env (.strings recs) s.t name []).Len = s.Len ∧
      ∀ (i : Nat) (e : Element), s.elements.toList[i]? = some e →
        ∃ e2, (New env (.strings recs) s.t name []).elements.toList[i]? = some e2 ∧
          e2.Null = e.Null ∧ e2.NaNState = e.NaNState ∧
          (e.Null = false → e.NaNState = false → e2 = e) := by
  have hty : ∀ e ∈ s.elements.toList, e.Type_ = s.t :=
    fun e he => (Elements.toList_Type _ e he).trans hWF
  have hrow : ∀ e ∈ s.elements.toList, _ := fun e he =>
    Records.recreate_row env hparse e (by rw [hty e he]; exact hkind) (hEl e he)
  refine ⟨s.elements.toList.map (Factorize.text env),
    Records.loop_ok env true (Factorize.text env) _ (fun e he => (hrow e he).1),
    ?_, ?_, ?_, ?_⟩
  · rw [New, NewDefault_items env (.strings _) .nil s.t name [] _ rfl]
  · rw [New, NewDefault_items env (.strings _) .nil s.t name [] _ rfl]
  · rw [New_seqLen env (.strings _) s.t name _ rfl]
    simp [Series.Len, Elements.Len]
  · intro i e hi
    have he : e ∈ s.elements.toList := List.mem_iff_getElem?.mpr ⟨i, hi⟩
    have h := (hrow e he).2
    rw [hty e he] at h
    refine ⟨_, New_getElem? env (.strings _) s.t name [] _ i
      (.string (Factorize.text env e)) rfl ?_, h⟩
    rw [List.getElem?_map, List.getElem?_map, hi]
    rfl
/-- C30 on the Int row `["1", "2", "3", "a", "b", ""]` of `TestSeries_Records`. -/
theorem C30_records_recreate_witness :
    ∃ recs, (Ints sampleEnv (.strings ["1", "2", "3", "a", "b", ""])).Records sampleEnv true
        = .ok recs ∧
      (New sampleEnv (.strings recs)
        (Ints sampleEnv (.strings ["1", "2", "3", "a", "b", ""])).t "" []).Err = none ∧
      (New sampleEnv (.strings recs)
        (Ints sampleEnv (.strings ["1", "2", "3", "a", "b", ""])).t "" []).t
        = (Ints sampleEnv (.strings ["1", "2", "3", "a", "b", ""])).t ∧
      (New sampleEnv (.strings recs)
        (Ints sampleEnv (.strings ["1", "2", "3", "a", "b", ""])).t "" []).Len
        = (Ints sampleEnv (.strings ["1", "2", "3", "a", "b", ""])).Len ∧
      ∀ (i : Nat) (e : Element),
        (Ints sampleEnv (.strings ["1", "2", "3", "a", "b", ""])).elements.toList[i]? = some e →
        ∃ e2, (New sampleEnv (.strings recs)
            (Ints sampleEnv (.strings ["1", "2", "3", "a", "b", ""])).t "" []).elements.toList[i]?
            = some e2 ∧
          e2.Null = e.Null ∧ e2.NaNState = e.NaNState ∧
          (e.Null = false → e.NaNState = false → e2 = e) :=
  C30_records_recreate sampleEnv sampleEnv_parseSpec
    (Ints sampleEnv (.strings ["1", "2", "3", "a", "b", ""])) "" (by decide) (by decide)
    (by decide)

/-- Rows of `TestSeries_Records`, evaluated, and the Series built back from the texts. -/
theorem Records_test_rows :
    (Ints sampleEnv (.strings ["1", "2", "3", "a", "b", ""])).Records sampleEnv true
      = .ok ["1", "2", "3", "NaN", "NaN", ""] ∧
    (Uints sampleEnv (.strings ["1", "2", "3", "a", "b", ""])).Records sampleEnv true
      = .ok ["1", "2", "3", "NaN", "NaN", ""] ∧
    Ints sampleEnv (.strings ["1", "2", "3", "NaN", "NaN", ""])
      = Ints sampleEnv (.strings ["1", "2", "3", "a", "b", ""]) :=
  ⟨rfl, rfl, by decide⟩

/-! ## Concat -/

/-- C28: for error-free Series `a` and `b`, `a.Concat(b)` returns (no panic) an
error-free Series with the name and type of `a`, of length `a.Len() + b.Len()`, whose
elements are those of `a` followed by the elements of `b` coerced into the type of `a`
(what `Set` makes of each on a fresh element), in order.  `Concat` works on `a.Copy()`,
a freshly made slice, so `a` is not written to: the embedding is a function of `a` and
`b` that returns the new Series.  The storage of `a` has the type of `a`. -/
theorem C28_concat (env : Env) (a b : Series) (ha : a.Err = none) (hb : b.Err = none)
    (hWF : a.elements.Type_ = a.t) :
    ∃ r, a.Concat env b = some r ∧ r.Err = none ∧ r.Name = a.Name ∧ r.t = a.t ∧
      r.elements.Type_ = a.t ∧ r.Len = a.Len + b.Len ∧
      r.elements.toList = a.elements.toList
        ++ b.elements.toList.map fun e => ((Element.zero a.t).Set env (.Element e)).1 := by
  obtain ⟨name, els, dv, t, err⟩ := a
  simp only at ha hWF
  subst ha
  cases els with
  | intElements l =>
    simp only [Elements.Type_] at hWF
    subst hWF
    refine ⟨⟨name, .intElements (l ++ b.elements.toList.map fun e =>
        (IntElement.Set env ⟨0, false, false⟩ (.Element e)).1), .nil, .Int, none⟩,
      ?_, rfl, rfl, rfl, rfl, ?_, ?_⟩
    · simp [Series.Concat, hb, Series.Copy, Elements.asInt, Series.Append, NewDefault,
        padNil_neg_one, setAll, Elements.append]
    · simp [Series.Len, Elements.Len, Elements.toList]
    · simp [Elements.toList, Element.zero, Element.Set]
  | uintElements l =>
    simp only [Elements.Type_] at hWF
    subst hWF
    refine ⟨⟨name, .uintElements (l ++ b.elements.toList.map fun e =>
        (uintElement.Set env ⟨0, false, false⟩ (.Element e)).1), .nil, .Uint, none⟩,
      ?_, rfl, rfl, rfl, rfl, ?_, ?_⟩
    · simp [Series.Concat, hb, Series.Copy, Elements.asUint, Series.Append, NewDefault,
        padNil_neg_one, setAll, Elements.append]
    · simp [Series.Len, Elements.Len, Elements.toList]
    · simp [Elements.toList, Element.zero, Element.Set]
  | stringElements l =>
    simp only [Elements.Type_] at hWF
    subst hWF
    refine ⟨⟨name, .stringElements (l ++ b.elements.toList.map fun e =>
        (stringElement.Set env ⟨"", false⟩ (.Element e)).1), .nil, .String, none⟩,
      ?_, rfl, rfl, rfl, rfl, ?_, ?_⟩
    · simp [Series.Concat, hb, Series.Copy, Elements.asString, Series.Append, NewDefault,
        padNil_neg_one, setAll, Elements.append]
    · simp [Series.Len, Elements.Len, Elements.toList]
    · simp [Elements.toList, Element.zero, Element.Set]
  | floatElements l =>
    simp only [Elements.Type_] at hWF
    subst hWF
    refine ⟨⟨name, .floatElements (l ++ b.elements.toList.map fun e =>
        (floatElement.Set env ⟨F64.zero, false⟩ (.Element e)).1), .nil, .Float, none⟩,
      ?_, rfl, rfl, rfl, rfl, ?_, ?_⟩
    · simp [Series.Concat, hb, Series.Copy, Elements.asFloat, Series.Append, NewDefault,
        padNil_neg_one, setAll, Elements.append]
    · simp [Series.Len, Elements.Len, Elements.toList]
    · simp [Elements.toList, Element.zero, Element.Set]
  | boolElements l =>
    simp only [Elements.Type_] at hWF
    subst hWF
    refine ⟨⟨name, .boolElements (l ++ b.elements.toList.map fun e =>
        (boolElement.Set env ⟨false, false⟩ (.Element e)).1), .nil, .Bool, none⟩,
      ?_, rfl, rfl, rfl, rfl, ?_, ?_⟩
    · simp [Series.Concat, hb, Series.Copy, Elements.asBool, Series.Append, NewDefault,
        padNil_neg_one, setAll, Elements.append]
    · simp [Series.Len, Elements.Len, Elements.toList]
    · simp [Elements.toList, Element.zero, Element.Set]
/-- C28 on the Int row of `TestSeries_Concat`. -/
theorem C28_concat_witness :
    ∃ r, (Ints sampleEnv (.strings ["1", "2", "3"])).Concat sampleEnv
        (Ints sampleEnv (.strings ["a", "4", "c"])) = some r ∧
      r.Err = none ∧ r.Name = (Ints sampleEnv (.strings ["1", "2", "3"])).Name ∧
      r.t = (Ints sampleEnv (.strings ["1", "2", "3"])).t ∧
      r.elements.Type_ = (Ints sampleEnv (.strings ["1", "2", "3"])).t ∧
      r.Len = (Ints sampleEnv (.strings ["1", "2", "3"])).Len
        + (Ints sampleEnv (.strings ["a", "4", "c"])).Len ∧
      r.elements.toList = (Ints sampleEnv (.strings ["1", "2", "3"])).elements.toList
        ++ (Ints sampleEnv (.strings ["a", "4", "c"])).elements.toList.map fun e =>
          ((Element.zero (Ints sampleEnv (.strings ["1", "2", "3"])).t).Set sampleEnv
            (.Element e)).1 :=
  C28_concat sampleEnv (Ints sampleEnv (.strings ["1", "2", "3"]))
    (Ints sampleEnv (.strings ["a", "4", "c"])) rfl rfl (by decide)

/-- Rows of `TestSeries_Concat`, evaluated: the texts of the concatenation. -/
theorem Concat_test_rows :
    ((Ints sampleEnv (.strings ["1", "2", "3"])).Concat sampleEnv
        (Ints sampleEnv (.strings ["a", "4", "c"]))).map
      (fun r => (r.Err, r.elements.toList.map (Factorize.text sampleEnv)))
      = some (none, ["1", "2", "3", "NaN", "4", "NaN"]) ∧
    ((Strings sampleEnv (.strings ["1", "2", "3"])).Concat sampleEnv
        (Strings sampleEnv (.strings ["a", "b", "c"]))).map
      (fun r => (r.Err, r.elements.toList.map (Factorize.text sampleEnv)))
      = some (none, ["1", "2", "3", "a", "b", "c"]) ∧
    ((Bools sampleEnv (.strings ["1", "1", "0"])).Concat sampleEnv
        (Bools sampleEnv (.strings ["0", "0", "0"]))).map
      (fun r => (r.Err, r.elements.toList.map (Factorize.text sampleEnv)))
      = some (none, ["true", "true", "false", "false", "false", "false"]) := by
  decide

/-! ## Validity and NaN of an element -/

/-- C34: for an element of any type, `IsValid() = false` implies `IsNaN() = true`; for an
Int or Uint element `IsNaN()` holds exactly when the element is Null or in the NaN state,
and for a Bool element exactly when it is Null. -/
theorem C34_isnan_of_states (env : Env) (e : Element) :
    (e.IsValid = false → e.IsNaN env = true) ∧
    (e.Type_ = .Int ∨ e.Type_ = .Uint →
      (e.IsNaN env = true ↔ (e.Null = true ∨ e.NaNState = true))) ∧
    (e.Type_ = .Bool → (e.IsNaN env = true ↔ e.Null = true)) := by
  cases e with
  | ofInt x =>
    cases hv : x.valid <;> cases hn : x.nan <;>
      simp [Element.IsValid, IntElement.IsValid, Element.IsNaN, IntElement.IsNaN,
        Element.Type_, Element.Null, Element.NaNState, hv, hn]
  | ofUint x =>
    cases hv : x.valid <;> cases hn : x.nan <;>
      simp [Element.IsValid, uintElement.IsValid, Element.IsNaN, uintElement.IsNaN,
        Element.Type_, Element.Null, Element.NaNState, hv, hn]
  | ofString x =>
    cases hv : x.valid <;>
      simp [Element.IsValid, stringElement.IsValid, Element.IsNaN, stringElement.IsNaN,
        Element.Type_, hv]
  | ofFloat x =>
    cases hv : x.valid <;>
      simp [Element.IsValid, floatElement.IsValid, Element.IsNaN, floatElement.IsNaN,
        Element.Type_, hv]
  | ofBool x =>
    cases hv : x.valid <;>
      simp [Element.IsValid, boolElement.IsValid, Element.IsNaN, boolElement.IsNaN,
        Element.Type_, Element.Null, hv]

/-- C34 on the Null Int element, the Int element in the NaN state and the Null Bool
element. -/
theorem C34_isnan_of_states_witness :
    (Element.ofInt ⟨0, false, false⟩).IsNaN sampleEnv = true ∧
    ((Element.ofInt ⟨0, true, true⟩).IsNaN sampleEnv = true ↔
      ((Element.ofInt ⟨0, true, true⟩).Null = true ∨
        (Element.ofInt ⟨0, true, true⟩).NaNState = true)) ∧
    ((Element.ofBool ⟨false, false⟩).IsNaN sampleEnv = true ↔
      (Element.ofBool ⟨false, false⟩).Null = true) :=
  ⟨(C34_isnan_of_states sampleEnv (.ofInt ⟨0, false, false⟩)).1 rfl,
   (C34_isnan_of_states sampleEnv (.ofInt ⟨0, true, true⟩)).2.1 (Or.inl rfl),
   (C34_isnan_of_states sampleEnv (.ofBool ⟨false, false⟩)).2.2 rfl⟩

/-- Rows of `TestSeries_IsNaN`, evaluated. -/
theorem IsNaN_test_rows :
    (Ints sampleEnv (.strings ["2", "1", "3", "NaN", "4", "NaN"])).elements.toList.map
      (fun e => e.IsNaN sampleEnv) = [false, false, false, true, false, true] ∧
    (Uints sampleEnv (.strings ["2", "1", "3", "NaN", "4", "NaN"])).elements.toList.map
      (fun e => e.IsNaN sampleEnv) = [false, false, false, true, false, true] ∧
    (Bools sampleEnv (.strings ["1", "0", "A"])).elements.toList.map
      (fun e => e.IsNaN sampleEnv) = [false, false, true] := by
  decide

/-! ## Numeric values set into a Bool element -/

/-- C32 as stated fails for a floating-point NaN and for the narrow integer types: `Set`
of a `float64` NaN on a Bool element gives Valid false, not true, and `Set` of an `int32`
(or `int8`, `int16`, `uint8`, `uint16`, `uint32`) value gives Null with an error. -/
theorem C32_nan_gives_false :
    F64.NaN.IsNaN = true ∧
    (boolElement.Set sampleEnv ⟨false, false⟩ (.float64 F64.NaN)) = (⟨false, true⟩, none) ∧
    (boolElement.Set sampleEnv ⟨false, false⟩ (.float32 F64.NaN)) = (⟨false, true⟩, none) ∧
    (boolElement.Set sampleEnv ⟨false, false⟩ (.intN 5)).1 = ⟨false, false⟩ ∧
    (boolElement.Set sampleEnv ⟨false, false⟩ (.intN 5)).2.isSome = true ∧
    (boolElement.Set sampleEnv ⟨false, false⟩ (.uintN 5)).1 = ⟨false, false⟩ := by
  decide

/-- C32 (amended): `Set` on a Bool element, whatever the element held before, of an
`int`, `int64`, `uint` or `uint64` value gives Valid false for zero and Valid true for any
other value; of a `float32` or `float64` value it gives Valid false for zero (of either
sign) and for NaN, and Valid true for any other value; none of these returns an error.
A value of type `int8`, `int16`, `int32`, `uint8`, `uint16` or `uint32` gives Null and an
error. -/
theorem C32_bool_set_numeric (env : Env) (e0 : boolElement) :
    (∀ v : Int, e0.Set env (.int v) = (⟨decide (v ≠ 0), true⟩, none) ∧
      e0.Set env (.int64 v) = (⟨decide (v ≠ 0), true⟩, none)) ∧
    (∀ n : Nat, e0.Set env (.uint n) = (⟨decide (n ≠ 0), true⟩, none) ∧
      e0.Set env (.uint64 n) = (⟨decide (n ≠ 0), true⟩, none)) ∧
    (∀ f : F64, e0.Set env (.float64 f) = (⟨!f.IsNaN && decide (f.mag ≠ 0), true⟩, none) ∧
      e0.Set env (.float32 f) = (⟨!f.IsNaN && decide (f.mag ≠ 0), true⟩, none)) ∧
    (∀ v : Int, (e0.Set env (.intN v)).1 = ⟨false, false⟩ ∧
      (e0.Set env (.intN v)).2.isSome = true) ∧
    (∀ n : Nat, (e0.Set env (.uintN n)).1 = ⟨false, false⟩ ∧
      (e0.Set env (.uintN n)).2.isSome = true) := by
  have hfloat : ∀ f : F64, boolElement.setFloat { e0 with valid := true, e := false } f
      = (⟨!f.IsNaN && decide (f.mag ≠ 0), true⟩, none) := by
    intro f
    have hkey : f.key = 0 ↔ f.mag = 0 := by
      unfold F64.key
      split <;> omega
    have hz1 : F64.zero.IsNaN = false := by decide
    have hz2 : F64.zero.key = 0 := by decide
    have heqz : f.eq F64.zero = (!f.IsNaN && decide (f.mag = 0)) := by
      simp only [F64.eq, hz1, hz2, Bool.not_false, Bool.and_true]
      rw [decide_eq_decide.mpr hkey]
    have heqf : f.eq f = !f.IsNaN := by
      simp [F64.eq]
    cases hn : f.IsNaN with
    | true => simp [boolElement.setFloat, heqz, heqf, hn]
    | false =>
      by_cases hm : f.mag = 0
      · simp [boolElement.setFloat, heqz, heqf, hn, hm]
      · simp [boolElement.setFloat, heqz, heqf, hn, hm]
  refine ⟨?_, ?_, ?_, ?_, ?_⟩
  · intro v
    by_cases h : v = 0 <;> simp [boolElement.Set, h]
  · intro n
    by_cases h : n = 0 <;> simp [boolElement.Set, h]
  · intro f
    exact ⟨hfloat f, hfloat f⟩
  · intro v
    exact ⟨rfl, rfl⟩
  · intro n
    exact ⟨rfl, rfl⟩

/-! ## Signed integers given to a Uint Series -/

/-- C33: a signed integer `v` given to a Uint Series, as a scalar (`int`, `int8`..`int64`)
or inside an integer slice, is stored as a Valid element, outside the NaN state, with
payload `v mod 2^64`; `Set` returns no error and the Series carries none (`-1` is stored
as `18446744073709551615`).  Two Uint elements built this way from `v` and `w` are `Eq`
exactly when `v` and `w` are congruent modulo `2^64`. -/
theorem C33_uint_from_signed (env : Env) (v w : Int) (vs : List Int) (name : String) :
    ((toUint64 v : Nat) : Int) = v % 2 ^ 64 ∧
    toUint64 (-1) = 18446744073709551615 ∧
    (Element.zero .Uint).Set env (.int v) = (.ofUint ⟨toUint64 v, true, false⟩, none) ∧
    (Element.zero .Uint).Set env (.intN v) = (.ofUint ⟨toUint64 v, true, false⟩, none) ∧
    (Element.zero .Uint).Set env (.int64 v) = (.ofUint ⟨toUint64 v, true, false⟩, none) ∧
    New env (.scalar (.int v)) .Uint name []
      = ⟨name, .uintElements [⟨toUint64 v, true, false⟩], .nil, .Uint, none⟩ ∧
    New env (.ints vs) .Uint name []
      = ⟨name, .uintElements (vs.map fun x => ⟨toUint64 x, true, false⟩), .nil, .Uint,
          none⟩ ∧
    ((Element.ofUint ⟨toUint64 v, true, false⟩).Eq env (.ofUint ⟨toUint64 w, true, false⟩)
        = true ↔ v % 2 ^ 64 = w % 2 ^ 64) := by
  have hmod : ∀ x : Int, ((toUint64 x : Nat) : Int) = x % 2 ^ 64 := by
    intro x
    unfold toUint64
    omega
  refine ⟨hmod v, by decide, rfl, rfl, rfl, ?_, ?_, ?_⟩
  · simp [New, NewDefault, setAll, uintElement.Set]
  · simp [New, NewDefault, padNil_neg_one, setAll, uintElement.Set]
  · simp only [Element.Eq, uintElement.Eq, Element.IsValid, uintElement.IsValid,
      Element.IsInf, uintElement.IsInf, Element.Uint, uintElement.Uint]
    simp only [bne_self_eq_false, Bool.false_eq_true, if_false, Bool.not_true, Bool.and_self,
      Bool.and_true, Bool.not_false, if_true, decide_eq_true_eq]
    rw [← hmod v, ← hmod w]
    omega

/-- Rows of `TestUints` and `TestSeries_Compare_Eq` with signed integers in a Uint Series,
evaluated. -/
theorem Uints_test_rows :
    (Uints sampleEnv (.scalar (.int (-1)))).elements.toList.map (Factorize.text sampleEnv)
      = ["18446744073709551615"] ∧
    (New sampleEnv (.ints [0, 2, 1, -5, 9]) .Uint "" []).Compare sampleEnv .Eq
        (.ints [0, 2, 0, -5, 10])
      = Bools sampleEnv (.bools [true, true, false, true, false]) := by
  decide

/-! ## Set as an overwrite -/

/-- C38 (the code departs from the claim): `uintElement.Set` starts with `e.valid = true`
and, unlike `IntElement.Set`, never resets `e.nan`.  A Uint row in the NaN state that is
set to the integer `5`, by `Series.Set` or by `Update`, keeps its `nan` flag: it reports
`IsNaN() = true` and the text `NaN`, where the same `Set` on a fresh element gives a
Valid `5`.  The same call on an Int Series gives the Valid `5`. -/
theorem C38_uint_set_keeps_nan :
    ((Uints sampleEnv (.strings ["NaN"])).Set sampleEnv 0 (.int 5)).map
      (fun r => (r.Err, r.elements.toList)) = some (none, [.ofUint ⟨5, true, true⟩]) ∧
    ((Uints sampleEnv (.strings ["NaN"])).Update sampleEnv (.ints [0])
      (Uints sampleEnv (.ints [5])) .own).map
      (fun r => (r.Err, r.elements.toList)) = some (none, [.ofUint ⟨5, true, true⟩]) ∧
    (Element.ofUint ⟨5, true, true⟩).IsNaN sampleEnv = true ∧
    Factorize.text sampleEnv (.ofUint ⟨5, true, true⟩) = "NaN" ∧
    (uintElement.Set sampleEnv ⟨0, false, false⟩ (.int 5)).1 = ⟨5, true, false⟩ ∧
    (uintElement.Set sampleEnv ⟨0, true, true⟩ (.int 5)).1 = ⟨5, true, true⟩ ∧
    ((Ints sampleEnv (.strings ["NaN"])).Set sampleEnv 0 (.int 5)).map
      (fun r => (r.Err, r.elements.toList)) = some (none, [.ofInt ⟨5, true, false⟩]) := by
  decide

/-! ## A Series coerced into its own type -/

/-- A fresh element of the type of `e` set to the element `e` (Int, Uint, String or
Bool): it is Null, or in the NaN state, exactly when `e` is, and a present `e` outside
the NaN state is recovered as it is. -/
theorem recoerce_row (env : Env) (e : Element) (hk : e.Type_ ≠ .Float) :
    ((Element.zero e.Type_).Set env (.Element e)).1.Null = e.Null ∧
    ((Element.zero e.Type_).Set env (.Element e)).1.NaNState = e.NaNState ∧
    (e.Null = false → e.NaNState = false →
      ((Element.zero e.Type_).Set env (.Element e)).1 = e) := by
  cases e with
  | ofInt x =>
    obtain ⟨v, valid, nan⟩ := x
    cases valid <;> cases nan <;>
      simp [Element.zero, Element.Type_, Element.Set, IntElement.Set, Element.IsValid,
        IntElement.IsValid, Element.IsNaN, IntElement.IsNaN, Element.Int, IntElement.Int,
        Element.Null, Element.NaNState]
  | ofUint x =>
    obtain ⟨v, valid, nan⟩ := x
    cases valid <;> cases nan <;>
      simp [Element.zero, Element.Type_, Element.Set, uintElement.Set, Element.IsValid,
        uintElement.IsValid, Element.IsNaN, uintElement.IsNaN, Element.Uint, uintElement.Uint,
        Element.Null, Element.NaNState]
  | ofString x =>
    obtain ⟨v, valid⟩ := x
    cases valid <;>
      simp [Element.zero, Element.Type_, Element.Set, stringElement.Set, Element.IsValid,
        stringElement.IsValid, Element.String, stringElement.String, Element.Null,
        Element.NaNState]
  | ofFloat x => simp [Element.Type_] at hk
  | ofBool x =>
    obtain ⟨v, valid⟩ := x
    cases valid <;>
      simp [Element.zero, Element.Type_, Element.Set, boolElement.Set, Element.IsValid,
        boolElement.IsValid, Element.Bool, boolElement.Bool, Element.Null, Element.NaNState]

/-- C31: for a Series `s` of type Int, Uint, Bool or String, `New(s, s.Type(), name)` is
an error-free Series of the type and the length of `s` in which each row has the state of
the same row of `s`: Null where `s` is Null, NaN where `s` is NaN, and otherwise the same
element, with the same value.  The storage of `s` has the type of `s`. -/
theorem C31_recoerce_identity (env : Env) (s : Series) (name : String)
    (hk : s.t ≠ .Float) (hWF : s.elements.Type_ = s.t) :
    (New env (.Series s) s.Type_ name []).Err = none ∧
    (New env (.Series s) s.Type_ name []).t = s.t ∧
    (New env (.Series s) s.Type_ name []).Len = s.Len ∧
    ∀ (i : Nat) (e : Element), s.elements.toList[i]? = some e →
      ∃ e2, (New env (.Series s) s.Type_ name []).elements.toList[i]? = some e2 ∧
        e2.Null = e.Null ∧ e2.NaNState = e.NaNState ∧
        (e.Null = false → e.NaNState = false → e2 = e) := by
  refine ⟨?_, ?_, New_seqLen env (.Series s) s.t name _ rfl, ?_⟩
  · rw [Series.Type_, New, NewDefault_items env (.Series s) .nil s.t name [] _ rfl]
  · rw [Series.Type_, New, NewDefault_items env (.Series s) .nil s.t name [] _ rfl]
  · intro i e hi
    have hty : e.Type_ = s.t :=
      (Elements.toList_Type _ e (List.mem_iff_getElem?.mpr ⟨i, hi⟩)).trans hWF
    have h := recoerce_row env e (by rw [hty]; exact hk)
    rw [hty] at h
    exact ⟨_, New_getElem? env (.Series s) s.t name [] _ i (.Element e) rfl
      (by rw [List.getElem?_map, hi]; rfl), h⟩

/-- C31 on the Series of `TestSeries_New`, `Ints(["a", "4", "c"])`. -/
theorem C31_recoerce_identity_witness :
    (New sampleEnv (.Series (Ints sampleEnv (.strings ["a", "4", "c"])))
      (Ints sampleEnv (.strings ["a", "4", "c"])).Type_ "" []).Err = none ∧
    (New sampleEnv (.Series (Ints sampleEnv (.strings ["a", "4", "c"])))
      (Ints sampleEnv (.strings ["a", "4", "c"])).Type_ "" []).t
      = (Ints sampleEnv (.strings ["a", "4", "c"])).t ∧
    (New sampleEnv (.Series (Ints sampleEnv (.strings ["a", "4", "c"])))
      (Ints sampleEnv (.strings ["a", "4", "c"])).Type_ "" []).Len
      = (Ints sampleEnv (.strings ["a", "4", "c"])).Len ∧
    ∀ (i : Nat) (e : Element),
      (Ints sampleEnv (.strings ["a", "4", "c"])).elements.toList[i]? = some e →
      ∃ e2, (New sampleEnv (.Series (Ints sampleEnv (.strings ["a", "4", "c"])))
          (Ints sampleEnv (.strings ["a", "4", "c"])).Type_ "" []).elements.toList[i]?
          = some e2 ∧
        e2.Null = e.Null ∧ e2.NaNState = e.NaNState ∧
        (e.Null = false → e.NaNState = false → e2 = e) :=
  C31_recoerce_identity sampleEnv (Ints sampleEnv (.strings ["a", "4", "c"])) ""
    (by decide) (by decide)

/-- The Series of `TestSeries_New`, evaluated: the texts of `New(a, a.t, a.Name)`. -/
theorem New_test_rows :
    (New sampleEnv (.Series (Ints sampleEnv (.strings ["a", "4", "c"]))) .Int ""
      []).elements.toList.map (Factorize.text sampleEnv) = ["NaN", "4", "NaN"] ∧
    New sampleEnv (.Series (Ints sampleEnv (.strings ["A", "", "1", "2"]))) .Int "" []
      = Ints sampleEnv (.strings ["A", "", "1", "2"]) := by
  decide

/-! ## Any -/

theorem Any.loop_int (env : Env) (l : List IntElement) :
    Any.loop env true (l.map .ofInt)
      = (l.any fun x => x.valid && !x.nan && decide (x.e ≠ 0), none) := by
  induction l with
  | nil => rfl
  | cons x rest ih =>
    obtain ⟨v, valid, nan⟩ := x
    cases valid <;> cases nan <;>
      simp [Any.loop, Element.IsValid, IntElement.IsValid, Element.IsNaN, IntElement.IsNaN,
        Element.Bool, IntElement.Bool, ih]
    by_cases hv : v = 0 <;> simp [hv]

theorem Any.loop_uint (env : Env) (l : List uintElement) :
    Any.loop env true (l.map .ofUint)
      = match (l.filter fun x => x.valid && !x.nan && decide (x.e ≠ 0)).head? with
        | none => (false, none)
        | some x =>
          if x.e = 1 then (true, none)
          else (false, some ("can\x27t convert Int \x22" ++ toString x.e ++ "\x22 to bool")) := by
  induction l with
  | nil => rfl
  | cons x rest ih =>
    obtain ⟨v, valid, nan⟩ := x
    cases valid <;> cases nan <;>
      simp [Any.loop, Element.IsValid, uintElement.IsValid, Element.IsNaN, uintElement.IsNaN,
        Element.Bool, uintElement.Bool, ih, List.filter_cons]
    by_cases hv : v = 0
    · simp [hv]
    · by_cases h1 : v = 1 <;> simp [hv, h1]

/-- C35 (the code departs from the claim): `Uints([2])` has a row that is Valid, not NaN
and not zero, and `Any(true)` returns `false` with an error, where the doc comment of `Any`
counts a non-zero element as true: `uintElement.Bool` only converts `0` and `1`, unlike
`IntElement.Bool`.  `Uints([0, 2, 1])` gives the same error although a later row holds `1`;
`Uints([0, 1, 2])` and the Int Series `Ints([0, 2, 1])` give `true` with no error. -/
theorem C35_uint_any_errors :
    (Uints sampleEnv (.uints [2])).elements.toList = [.ofUint ⟨2, true, false⟩] ∧
    (Uints sampleEnv (.uints [2])).Any sampleEnv true
      = (false, some "can\x27t convert Int \x222\x22 to bool") ∧
    (Uints sampleEnv (.uints [0, 2, 1])).Any sampleEnv true
      = (false, some "can\x27t convert Int \x222\x22 to bool") ∧
    (Uints sampleEnv (.uints [0, 1, 2])).Any sampleEnv true = (true, none) ∧
    (Ints sampleEnv (.ints [0, 2, 1])).Any sampleEnv true = (true, none) := by
  decide

/-- On an Int Series, `Any(true)` returns no error, and returns `true` exactly when some
row is Valid, not NaN and not zero.  On a Uint Series it depends on the first row that is
Valid, not NaN and not zero: without such a row the result is `false` with no error; if
this row holds `1` the result is `true` with no error; if it holds any other value the
result is `false` with the error of `uintElement.Bool`. -/
theorem Any_int_uint (env : Env) (name : String) (dv : Value) (err : Option error)
    (l : List IntElement) (u : List uintElement) :
    Series.Any env ⟨name, .intElements l, dv, .Int, err⟩ true
      = (l.any fun x => x.valid && !x.nan && decide (x.e ≠ 0), none) ∧
    Series.Any env ⟨name, .uintElements u, dv, .Uint, err⟩ true
      = match (u.filter fun x => x.valid && !x.nan && decide (x.e ≠ 0)).head? with
        | none => (false, none)
        | some x =>
          if x.e = 1 then (true, none)
          else (false, some ("can\x27t convert Int \x22" ++ toString x.e ++ "\x22 to bool")) :=
  ⟨Any.loop_int env l, Any.loop_uint env u⟩

/-! ## An Int Series used as indexes -/

theorem collect_ok_mem {α β : Type} (f : α → Except error β) (g : α → β) (l : List α)
    (h : ∀ a ∈ l, f a = .ok (g a)) : collect f l = .ok (l.map g) := by
  induction l with
  | nil => rfl
  | cons a rest ih =>
    simp [collect, h a (List.mem_cons_self _ _),
      ih (fun b hb => h b (List.mem_cons_of_mem _ hb))]

theorem HasNaN_int (env : Env) (name : String) (dv : Value) (err : Option error)
    (l : List IntElement) :
    Series.HasNaN env ⟨name, .intElements l, dv, .Int, err⟩
      = l.any fun x => !x.valid || x.nan := by
  simp only [Series.HasNaN, Elements.toList]
  induction l with
  | nil => rfl
  | cons x rest ih =>
    simp only [List.map_cons, List.any_cons, ih]
    rfl

/-- C36: resolving an Int Series used as indexes returns an error when the Series carries
an error, and when one of its rows is Null or in the NaN state; otherwise it returns the
payloads of the rows, in order.  So for a list `idx` of 64-bit integers, `Ints(idx)`
resolves to `idx`, and `Subset` by `Ints(idx)` is `Subset` by `idx`, on any Series. -/
theorem C36_int_series_indexes (env : Env) (n : Nat) (name : String) (dv : Value)
    (err : Option error) (l : List IntElement) :
    (err ≠ none →
      ∃ msg, parseIndexes env n (.Series ⟨name, .intElements l, dv, .Int, err⟩)
        = .error msg) ∧
    ((∃ x ∈ l, x.valid = false ∨ x.nan = true) →
      ∃ msg, parseIndexes env n (.Series ⟨name, .intElements l, dv, .Int, err⟩)
        = .error msg) ∧
    (err = none → (∀ x ∈ l, x.valid = true ∧ x.nan = false) →
      parseIndexes env n (.Series ⟨name, .intElements l, dv, .Int, err⟩)
        = .ok (l.map fun x => x.e)) ∧
    (∀ (idx : List Int) (s : Series), (∀ i ∈ idx, -(2 ^ 63) ≤ i ∧ i < 2 ^ 63) →
      parseIndexes env n (.Series (Ints env (.ints idx))) = .ok idx ∧
      s.Subset env (.Series (Ints env (.ints idx))) = s.Subset env (.ints idx)) := by
  have hgood : ∀ (nm : String) (d : Value) (k : Nat) (xs : List IntElement),
      (∀ x ∈ xs, x.valid = true ∧ x.nan = false) →
      parseIndexes env k (.Series ⟨nm, .intElements xs, d, .Int, none⟩)
        = .ok (xs.map fun x => x.e) := by
    intro nm d k xs hall
    have hnan : (xs.any fun x => !x.valid || x.nan) = false := by
      rw [List.any_eq_false]
      intro x hx
      simp [(hall x hx).1, (hall x hx).2]
    have hint : Series.Int env ⟨nm, .intElements xs, d, .Int, none⟩
        = .ok (xs.map fun x => x.e) := by
      simp only [Series.Int, Elements.toList]
      rw [collect_ok_mem _ (fun e => match e with
        | .ofInt x => x.e
        | _ => 0) _ (by
          intro e he
          obtain ⟨x, hx, rfl⟩ := List.mem_map.mp he
          simp [Element.Int, IntElement.Int, (hall x hx).1, (hall x hx).2]),
        List.map_map]
      rfl
    simp [parseIndexes, HasNaN_int, hnan, hint]
  have hidx : ∀ (k : Nat) (idx : List Int), (∀ i ∈ idx, -(2 ^ 63) ≤ i ∧ i < 2 ^ 63) →
      parseIndexes env k (.Series (Ints env (.ints idx))) = .ok idx := by
    intro k idx hr
    rw [Ints, New_ints, hgood "" .nil k _ (by
      intro x hx
      obtain ⟨i, -, rfl⟩ := List.mem_map.mp hx
      exact ⟨rfl, rfl⟩), List.map_map]
    congr 1
    apply map_eq_self_of_mem
    intro i hi
    exact toInt64_of_range i (hr i hi).1 (hr i hi).2
  refine ⟨?_, ?_, ?_, ?_⟩
  · intro herr
    obtain ⟨m, hm⟩ := Option.ne_none_iff_exists'.mp herr
    exact ⟨"indexing error: new values has errors: " ++ m, by simp [parseIndexes, hm]⟩
  · rintro ⟨x, hx, hbad⟩
    cases herr : err with
    | some m => exact ⟨"indexing error: new values has errors: " ++ m, by simp [parseIndexes]⟩
    | none =>
      have hnan : (l.any fun x => !x.valid || x.nan) = true := by
        rw [List.any_eq_true]
        refine ⟨x, hx, ?_⟩
        rcases hbad with h | h <;> simp [h]
      exact ⟨"indexing error: indexes contain NaN", by simp [parseIndexes, HasNaN_int, hnan]⟩
  · intro herr hall
    subst herr
    exact hgood name dv n l hall
  · intro idx s hr
    refine ⟨hidx n idx hr, ?_⟩
    cases hs : s.Err with
    | some m => simp [Series.Subset, hs]
    | none =>
      simp only [Series.Subset, hs]
      rw [hidx s.Len idx hr]
      rfl

/-- C36 on an index row of `TestSeries_Subset`, `Ints([3, 2, 1, 0])`, and on an Int
Series with a NaN row. -/
theorem C36_int_series_indexes_witness :
    (∃ msg, parseIndexes sampleEnv 5
      (.Series ⟨"", .intElements [⟨3, true, false⟩, ⟨0, true, true⟩], .nil, .Int, none⟩)
        = .error msg) ∧
    parseIndexes sampleEnv 5
      (.Series ⟨"", .intElements [⟨3, true, false⟩, ⟨2, true, false⟩], .nil, .Int, none⟩)
      = .ok ([⟨3, true, false⟩, ⟨2, true, false⟩].map fun x : IntElement => x.e) ∧
    (parseIndexes sampleEnv 5 (.Series (Ints sampleEnv (.ints [3, 2, 1, 0])))
        = .ok [3, 2, 1, 0] ∧
      (Strings sampleEnv (.strings ["A", "B", "C", "K", "D"])).Subset sampleEnv
          (.Series (Ints sampleEnv (.ints [3, 2, 1, 0])))
        = (Strings sampleEnv (.strings ["A", "B", "C", "K", "D"])).Subset sampleEnv
          (.ints [3, 2, 1, 0])) :=
  ⟨(C36_int_series_indexes sampleEnv 5 "" .nil none
      [⟨3, true, false⟩, ⟨0, true, true⟩]).2.1 ⟨⟨0, true, true⟩, by simp, Or.inr rfl⟩,
   (C36_int_series_indexes sampleEnv 5 "" .nil none
      [⟨3, true, false⟩, ⟨2, true, false⟩]).2.2.1 rfl (by decide),
   (C36_int_series_indexes sampleEnv 5 "" .nil none []).2.2.2 [3, 2, 1, 0]
      (Strings sampleEnv (.strings ["A", "B", "C", "K", "D"])) (by decide)⟩

/-! ## Decoding the codes of Factorize -/

theorem OrderUsingIndex.split_identity (env : Env) (t : SeriesType) (els : Elements) :
    ∀ (rows : List Element) (i : Nat),
      (∀ (j : Nat) (e : Element), rows[j]? = some e → els.toList[i + j]? = some e) →
      OrderUsingIndex.split env t els ((List.range' i rows.length).map fun j : ℕ => (j : ℤ))
        = some (Order.split env t rows i) := by
  intro rows
  induction rows with
  | nil => intro i _; rfl
  | cons e rest ih =>
    intro i h
    have h0 : els.Elem (i : ℤ) = some e := by
      rw [Elements.Elem, index_natCast]
      exact h 0 e (by simp)
    have hrest := ih (i + 1) (fun j e2 hj => by
      have := h (j + 1) e2 (by simpa using hj)
      rw [← this]
      congr 1
      omega)
    simp only [List.length_cons, List.range'_succ, List.map_cons, OrderUsingIndex.split, h0,
      hrest, Order.split]
    split <;> rfl

/-- C39: for every Series and both values of `reverse`, `OrderUsingIndex(reverse, seed)`
returns `Order(reverse)` when the seed is nil or empty, and when the seed is the identity
list `[0, 1, ..., s.Len() - 1]`. -/
theorem C39_order_using_index (env : Env) (s : Series) (reverse : Bool) :
    s.OrderUsingIndex env reverse [] = some (s.Order env reverse) ∧
    s.OrderUsingIndex env reverse ((List.range s.Len).map fun j : ℕ => (j : ℤ))
      = some (s.Order env reverse) := by
  refine ⟨rfl, ?_⟩
  by_cases h0 : s.Len = 0
  · simp [Series.OrderUsingIndex, h0]
  · have hsplit := OrderUsingIndex.split_identity env s.t s.elements s.elements.toList 0
      (fun j e hj => by simpa using hj)
    have hlen : s.elements.toList.length = s.Len := rfl
    rw [hlen, ← List.range_eq_range'] at hsplit
    simp only [Series.OrderUsingIndex, List.length_map, List.length_range, h0, if_false,
      ge_iff_le, le_refl, if_true]
    rw [List.take_of_length_le (by simp), hsplit]
    rfl

/-- Rows of `TestSeries_Order` through `OrderUsingIndex` with the identity seed, and a
seed that is not the identity. -/
theorem OrderUsingIndex_test_rows :
    (Ints sampleEnv (.strings ["2", "1", "3", "NaN", "4", ""])).OrderUsingIndex sampleEnv
      false [0, 1, 2, 3, 4, 5] = some [1, 0, 2, 4, 3, 5] ∧
    (Ints sampleEnv (.strings ["2", "1", "3", "NaN", "4", ""])).OrderUsingIndex sampleEnv
      true [] = some [4, 2, 0, 1, 3, 5] ∧
    (Ints sampleEnv (.strings ["2", "1", "3", "NaN", "4", ""])).OrderUsingIndex sampleEnv
      false [4, 3, 0] = some [0, 4, 3] ∧
    (Ints sampleEnv (.strings ["2", "1", "3", "NaN", "4", ""])).OrderUsingIndex sampleEnv
      false [7] = none := by
  decide

/-! ## The type of the elements of a Series -/

theorem setAll_Type (env : Env) (t : SeriesType) (vals : List Value) :
    (setAll env t vals).Type_ = t := by
  cases t <;> rfl

theorem NewDefault_Type (env : Env) (values : Values) (d : Value) (t : SeriesType)
    (name : String) (size : List Int) :
    (NewDefault env values d t name size).elements.Type_ = t ∧
    (NewDefault env values d t name size).t = t := by
  cases values <;> exact ⟨setAll_Type env t _, rfl⟩

theorem updateLoop_Type (env : Env) (b : Backing) (nv : Elements) :
    ∀ (idx : List Int) (es : Elements) (k : Nat) (r : Elements × Option error),
      updateLoop env b nv es idx k = some r → r.1.Type_ = es.Type_ := by
  intro idx
  induction idx with
  | nil =>
    intro es k r h
    simp only [updateLoop, Option.some.injEq] at h
    rw [← h]
  | cons i rest ih =>
    intro es k r h
    simp only [updateLoop] at h
    split at h
    · simp only [Option.some.injEq] at h
      rw [← h]
    · split at h
      · exact absurd h (by simp)
      · rw [ih _ _ _ h, Elements.SetElem_Type]

theorem Subset_Type (env : Env) (s : Series) (indexes : Indexes) (r : Series)
    (hWF : s.elements.Type_ = s.t) (h : s.Subset env indexes = some r) :
    r.elements.Type_ = r.t := by
  unfold Series.Subset at h
  split at h
  · simp only [Option.some.injEq] at h
    rw [← h]
    exact hWF
  · split at h
    · simp only [Option.some.injEq] at h
      rw [← h]
      exact hWF
    · split at h <;>
      · simp only [Option.map_eq_some'] at h
        obtain ⟨l, -, rfl⟩ := h
        simp only [Elements.Type_]
        first | assumption | (symm; assumption)

theorem Copy_Type (s r : Series) (h : s.Copy = some r) : r.elements.Type_ = r.t := by
  unfold Series.Copy at h
  split at h <;>
  · simp only [Option.map_eq_some'] at h
    obtain ⟨l, -, rfl⟩ := h
    simp only [Elements.Type_]
    first | assumption | (symm; assumption)

theorem Elements.append_Type (t : SeriesType) (a b els : Elements)
    (h : Elements.append t a b = some els) : els.Type_ = t := by
  unfold Elements.append at h
  split at h <;>
  · split at h
    · simp only [Option.some.injEq] at h
      rw [← h]
      rfl
    · exact absurd h (by simp)

theorem Append_Type (env : Env) (s : Series) (values : Values) (r : Series)
    (hWF : s.elements.Type_ = s.t) (h : s.Append env values = some r) :
    r.elements.Type_ = r.t := by
  unfold Series.Append at h
  split at h
  · simp only [Option.some.injEq] at h
    rw [← h]
    exact hWF
  · simp only [Option.map_eq_some'] at h
    obtain ⟨els, hels, rfl⟩ := h
    exact Elements.append_Type _ _ _ _ hels

theorem Concat_Type (env : Env) (a b r : Series) (hWF : a.elements.Type_ = a.t)
    (h : a.Concat env b = some r) : r.elements.Type_ = r.t := by
  unfold Series.Concat at h
  split at h
  · simp only [Option.some.injEq] at h
    rw [← h]
    exact hWF
  · split at h
    · simp only [Option.some.injEq] at h
      rw [← h]
      exact hWF
    · split at h
      · exact absurd h (by simp)
      · rename_i y hy
        exact Append_Type env y _ r (Copy_Type a y hy) h

theorem Update_Type (env : Env) (s : Series) (indexes : Indexes) (nv r : Series)
    (b : Backing) (hWF : s.elements.Type_ = s.t) (h : s.Update env indexes nv b = some r) :
    r.elements.Type_ = r.t := by
  unfold Series.Update at h
  split at h
  · simp only [Option.some.injEq] at h
    rw [← h]
    exact hWF
  · split at h
    · simp only [Option.some.injEq] at h
      rw [← h]
      exact hWF
    · split at h
      · simp only [Option.some.injEq] at h
        rw [← h]
        exact hWF
      · split at h
        · simp only [Option.some.injEq] at h
          rw [← h]
          exact hWF
        · simp only [Option.map_eq_some'] at h
          obtain ⟨x, hx, rfl⟩ := h
          exact (updateLoop_Type env _ _ _ _ _ _ hx).trans hWF

theorem Set_Type (env : Env) (s : Series) (i : Int) (v : Value) (r : Series)
    (hWF : s.elements.Type_ = s.t) (h : s.Set env i v = some r) :
    r.elements.Type_ = r.t := by
  unfold Series.Set at h
  split at h
  · simp only [Option.some.injEq] at h
    rw [← h]
    exact hWF
  · simp only at h
    split at h
    · exact absurd h (by simp)
    · split at h <;>
      · simp only [Option.some.injEq] at h
        rw [← h]
        simp only [Elements.SetElem_Type]
        split <;> exact hWF

theorem Factorize_Type (env : Env) (s : Series) (sort : Bool) (c u : Series)
    (h : s.Factorize env sort = some (c, u)) :
    c.elements.Type_ = c.t ∧ u.elements.Type_ = u.t := by
  have hres : ∀ st, (Factorize.result env s st).1.elements.Type_
      = (Factorize.result env s st).1.t ∧
      (Factorize.result env s st).2.elements.Type_ = (Factorize.result env s st).2.t := by
    intro st
    simp only [Factorize.result, New]
    exact ⟨(NewDefault_Type env _ _ _ _ _).1.trans (NewDefault_Type env _ _ _ _ _).2.symm,
      (NewDefault_Type env _ _ _ _ _).1.trans (NewDefault_Type env _ _ _ _ _).2.symm⟩
  have hfail : ∀ st err, (Factorize.failed env s st err).1.elements.Type_
      = (Factorize.failed env s st err).1.t ∧
      (Factorize.failed env s st err).2.elements.Type_
        = (Factorize.failed env s st err).2.t := by
    intro st err
    simp only [Factorize.failed, New]
    exact ⟨(NewDefault_Type env _ _ _ _ _).1.trans (NewDefault_Type env _ _ _ _ _).2.symm,
      (NewDefault_Type env _ _ _ _ _).1.trans (NewDefault_Type env _ _ _ _ _).2.symm⟩
  have hcase : (∃ st, (c, u) = Factorize.result env s st) ∨
      (∃ st err, (c, u) = Factorize.failed env s st err) := by
    unfold Series.Factorize at h
    split at h
    · exact Or.inr ⟨_, _, (Option.some.inj h).symm⟩
    · simp only at h
      split at h
      · split at h
        · exact absurd h (by simp)
        · split at h
          · exact Or.inr ⟨_, _, (Option.some.inj h).symm⟩
          · split at h
            · exact Or.inl ⟨_, (Option.some.inj h).symm⟩
            · split at h <;> exact Or.inl ⟨_, (Option.some.inj h).symm⟩
      · split at h <;> exact Or.inl ⟨_, (Option.some.inj h).symm⟩
  rcases hcase with ⟨st, hst⟩ | ⟨st, err, hst⟩
  · have h1 : c = (Factorize.result env s st).1 := congrArg Prod.fst hst
    have h2 : u = (Factorize.result env s st).2 := congrArg Prod.snd hst
    rw [h1, h2]
    exact hres st
  · have h1 : c = (Factorize.failed env s st err).1 := congrArg Prod.fst hst
    have h2 : u = (Factorize.failed env s st err).2 := congrArg Prod.snd hst
    rw [h1, h2]
    exact hfail st err

theorem Compare_cases (env : Env) (s : Series) (c : Comparator) (x : Values) :
    (∃ err, (s.Compare env c x).Err = some err) ∨
    ∃ bs, s.Compare env c x = Bools env (.bools bs) := by
  unfold Series.Compare
  split
  · rename_i e he
    exact Or.inl ⟨e, he⟩
  · simp only
    split
    · split
      · exact Or.inl ⟨_, rfl⟩
      · exact Or.inr ⟨_, rfl⟩
    · split
      · split
        · exact Or.inl ⟨_, rfl⟩
        · exact Or.inr ⟨_, rfl⟩
      · split
        · exact Or.inl ⟨_, rfl⟩
        · split
          · exact Or.inl ⟨_, rfl⟩
          · exact Or.inr ⟨_, rfl⟩

theorem Compare_Type (env : Env) (s : Series) (c : Comparator) (x : Values)
    (h : (s.Compare env c x).Err = none) :
    (s.Compare env c x).t = .Bool ∧ (s.Compare env c x).elements.Type_ = .Bool := by
  rcases Compare_cases env s c x with ⟨err, herr⟩ | ⟨bs, hbs⟩
  · rw [herr] at h
    exact absurd h (by simp)
  · rw [hbs, Bools_bools]
    exact ⟨rfl, rfl⟩
theorem homogeneous_iff (s : Series) : s.homogeneous = true ↔ s.elements.Type_ = s.t := by
  constructor
  · intro h
    simp only [Series.homogeneous, Bool.and_eq_true, decide_eq_true_eq] at h
    exact h.1
  · intro h
    simp only [Series.homogeneous, Bool.and_eq_true, decide_eq_true_eq, checkTypes,
      List.all_eq_true, List.mem_map]
    refine ⟨h, ?_⟩
    rintro t ⟨e, he, rfl⟩
    rw [Elements.toList_Type _ e he, h]

theorem New_homogeneous (env : Env) (values : Values) (t : SeriesType) (name : String)
    (size : List ℤ) : (New env values t name size).homogeneous = true :=
  (homogeneous_iff _).mpr
    ((NewDefault_Type env values .nil t name size).1.trans
      (NewDefault_Type env values .nil t name size).2.symm)

/-- C40: type homogeneity is an invariant of every operation.  The constructors
(`NewDefault`, `New`, `Strings`, `Ints`, `Uints`, `Floats`, `Bools`) and `Map` always return
a Series whose elements all report the type of the Series; `Subset`, `Concat`, `Copy`,
`Update`, `Set` and `Factorize`, when they return, return such a Series whenever the
receiver is one (`Copy` and `Factorize` for any receiver); and a `Compare` that records no
error returns a Series of type Bool with only Bool elements. -/
theorem C40_kind_homogeneity (env : Env) :
    (∀ values d t name size, (NewDefault env values d t name size).homogeneous = true ∧
      (NewDefault env values d t name size).t = t) ∧
    (∀ values t name size, (New env values t name size).homogeneous = true ∧
      (New env values t name size).t = t) ∧
    (∀ values, (Strings env values).homogeneous = true ∧ (Ints env values).homogeneous = true ∧
      (Uints env values).homogeneous = true ∧ (Floats env values).homogeneous = true ∧
      (Bools env values).homogeneous = true) ∧
    (∀ (s : Series) indexes r, s.homogeneous = true → s.Subset env indexes = some r →
      r.homogeneous = true) ∧
    (∀ (s x r : Series), s.homogeneous = true → s.Concat env x = some r →
      r.homogeneous = true) ∧
    (∀ (s r : Series), s.Copy = some r → r.homogeneous = true) ∧
    (∀ (s : Series) indexes newvalues b r, s.homogeneous = true →
      s.Update env indexes newvalues b = some r → r.homogeneous = true) ∧
    (∀ (s : Series) i v r, s.homogeneous = true → s.Set env i v = some r →
      r.homogeneous = true) ∧
    (∀ (s : Series) f, (s.Map env f).homogeneous = true) ∧
    (∀ (s : Series) sort codes uniques, s.Factorize env sort = some (codes, uniques) →
      codes.homogeneous = true ∧ uniques.homogeneous = true) ∧
    (∀ (s : Series) c x, (s.Compare env c x).Err = none →
      (s.Compare env c x).t = .Bool ∧ (s.Compare env c x).homogeneous = true ∧
      ∀ e ∈ (s.Compare env c x).elements.toList, e.Type_ = .Bool) ∧
    (∀ (s : Series), s.homogeneous = true → ∀ e ∈ s.elements.toList, e.Type_ = s.t) := by
  refine ⟨?_, ?_, ?_, ?_, ?_, ?_, ?_, ?_, ?_, ?_, ?_, ?_⟩
  · intro values d t name size
    exact ⟨(homogeneous_iff _).mpr ((NewDefault_Type env values d t name size).1.trans
      (NewDefault_Type env values d t name size).2.symm),
      (NewDefault_Type env values d t name size).2⟩
  · intro values t name size
    exact ⟨New_homogeneous env values t name size, (NewDefault_Type env values .nil t name size).2⟩
  · intro values
    exact ⟨New_homogeneous env _ _ _ _, New_homogeneous env _ _ _ _, New_homogeneous env _ _ _ _,
      New_homogeneous env _ _ _ _, New_homogeneous env _ _ _ _⟩
  · intro s indexes r hs h
    exact (homogeneous_iff r).mpr (Subset_Type env s indexes r ((homogeneous_iff s).mp hs) h)
  · intro s x r hs h
    exact (homogeneous_iff r).mpr (Concat_Type env s x r ((homogeneous_iff s).mp hs) h)
  · intro s r h
    exact (homogeneous_iff r).mpr (Copy_Type s r h)
  · intro s indexes nv b r hs h
    exact (homogeneous_iff r).mpr
      (Update_Type env s indexes nv r b ((homogeneous_iff s).mp hs) h)
  · intro s i v r hs h
    exact (homogeneous_iff r).mpr (Set_Type env s i v r ((homogeneous_iff s).mp hs) h)
  · intro s f
    exact New_homogeneous env _ _ _ _
  · intro s sort codes uniques h
    exact ⟨(homogeneous_iff _).mpr (Factorize_Type env s sort codes uniques h).1,
      (homogeneous_iff _).mpr (Factorize_Type env s sort codes uniques h).2⟩
  · intro s c x h
    have ht := Compare_Type env s c x h
    refine ⟨ht.1, (homogeneous_iff _).mpr (ht.2.trans ht.1.symm), ?_⟩
    intro e he
    rw [Elements.toList_Type _ e he, ht.2]
  · intro s hs e he
    rw [Elements.toList_Type _ e he, (homogeneous_iff s).mp hs]

theorem C40_kind_homogeneity_witness :
    (Ints sampleEnv (.ints [3, 1, 2])).homogeneous = true ∧
    (Ints sampleEnv (.ints [3, 1, 2])).Subset sampleEnv (.ints [2, 0])
      = some (Ints sampleEnv (.ints [2, 3])) ∧
    (Ints sampleEnv (.ints [2, 3])).homogeneous = true ∧
    ((Ints sampleEnv (.ints [3, 1, 2])).Compare sampleEnv .Greater (.scalar (.int 1))).Err
      = none ∧
    ((Ints sampleEnv (.ints [3, 1, 2])).Compare sampleEnv .Greater (.scalar (.int 1))).t
      = .Bool :=
  ⟨by decide, by decide,
    (C40_kind_homogeneity sampleEnv).2.2.2.1 (Ints sampleEnv (.ints [3, 1, 2])) (.ints [2, 0])
      (Ints sampleEnv (.ints [2, 3])) (by decide) (by decide),
    by decide,
    ((C40_kind_homogeneity sampleEnv).2.2.2.2.2.2.2.2.2.2.1 (Ints sampleEnv (.ints [3, 1, 2]))
      .Greater (.scalar (.int 1)) (by decide)).1⟩

/-- Rows of the test suite checked by `checkTypes`, and a Series built by hand that fails
the check. -/
theorem checkTypes_test_rows :
    checkTypes (Ints sampleEnv (.strings ["2", "1", "NaN"])) = true ∧
    checkTypes (Bools sampleEnv (.ints [1, 0])) = true ∧
    checkTypes ((Ints sampleEnv (.ints [1, 2])).Map sampleEnv
      fun _ => some (Element.ofBool ⟨true, true⟩)) = true ∧
    checkTypes ⟨"", .intElements [⟨1, true, false⟩], .nil, .String, none⟩ = false := by
  decide

end Gota
